import Mathlib

/-! # DSI PHY PLL (14nm) clock control: shallow embedding of `msm/dsi/dsi_pll_14nm_util.c`

The C functions of the driver are embedded as Lean functions over an explicit machine state
(`World`), keeping the names of the source.

* Unsigned C integers are natural numbers reduced modulo `2^w`, signed ones are integers wrapped
  into the two's-complement range.  `unsigned long` is 64 bits wide and `char` is unsigned, as
  on the arm64 targets of the driver.
* Pointers to resources and parameter blocks are indices into the world; a null pointer is
  `none`.  Operations that fault in C (division by zero, dereference of a null pointer) return
  `none`.
* Memory-mapped registers are named by a constructor of `Reg` (the symbolic `DSIPHY_*` offset).
  Every access is a hardware action (`Event`) appended to the trace of the world; a register
  keeps the last value written to it, except the status register, whose reads are answered by
  the hardware.
* Straight-line sequences of register writes are given as the list of their actions, in
  program order, and run on the world.
-/

namespace DsiPll14nm

/-! ## Machine integers -/

/-- Conversion to `char`, which is an unsigned 8-bit type on the ARM targets of the driver. -/
def to_char (x : Nat) : Nat := x % 2 ^ 8

/-- Conversion to `u32`. -/
def to_u32 (x : Nat) : Nat := x % 2 ^ 32

/-- Conversion to `u64` (also `unsigned long` on the 64-bit targets of the driver). -/
def to_u64 (x : Nat) : Nat := x % 2 ^ 64

/-- Conversion of an integer to `u32`. -/
def int_to_u32 (x : Int) : Nat := (x % 2 ^ 32).toNat

/-- Conversion of an integer to `u64`. -/
def int_to_u64 (x : Int) : Nat := (x % 2 ^ 64).toNat

/-- Conversion to `s32`: two's-complement wrap into `[-2^31, 2^31)`. -/
def to_s32 (x : Int) : Int := (x + 2 ^ 31) % 2 ^ 32 - 2 ^ 31

/-- Conversion to `s64`: two's-complement wrap into `[-2^63, 2^63)`. -/
def to_s64 (x : Int) : Int := (x + 2 ^ 63) % 2 ^ 64 - 2 ^ 63

/-- The constant `EINVAL` of the kernel. -/
def EINVAL : Int := 22

/-- The macro `BIT(n)`. -/
def BIT (n : Nat) : Nat := 2 ^ n

/-- The helper `div_s64(s64 dividend, s32 divisor)` of `linux/math64.h`: the divisor is
converted to `s32`, the quotient truncates towards zero; division by zero faults. -/
def div_s64 (dividend : Int) (divisor : Int) : Option Int :=
  if to_s32 divisor = 0 then none
  else some (to_s64 (Int.tdiv (to_s64 dividend) (to_s32 divisor)))

/-- The helper `div_s64_rem(s64 dividend, s32 divisor, s32 *remainder)`: quotient and the
remainder stored through the `s32` pointer. -/
def div_s64_rem (dividend : Int) (divisor : Int) : Option (Int × Int) :=
  if to_s32 divisor = 0 then none
  else some (to_s64 (Int.tdiv (to_s64 dividend) (to_s32 divisor)),
             to_s32 (Int.tmod (to_s64 dividend) (to_s32 divisor)))

/-- The helper `div_u64(u64 dividend, u32 divisor)`. -/
def div_u64 (dividend : Nat) (divisor : Nat) : Option Nat :=
  if to_u32 divisor = 0 then none else some (to_u64 dividend / to_u32 divisor)

/-- The macro `do_div(n, base)` of `asm-generic/div64.h`: `n` is a 64-bit unsigned lvalue,
`base` is converted to `uint32_t`; the result is the new content of `n`. -/
def do_div (n : Nat) (base : Nat) : Option Nat :=
  if to_u32 base = 0 then none else some (to_u64 n / to_u32 base)

/-- The macro `CEIL(x, y)` on `u32` operands: `((x) + ((y)-1)) / (y)`. -/
def CEIL (x y : Nat) : Option Nat :=
  if to_u32 y = 0 then none
  else some (to_u32 (to_u32 x + to_u32 (to_u32 y + 2 ^ 32 - 1)) / to_u32 y)

/-! ## Registers -/

/-- Register offsets used by the driver: the live PLL block (`DSIPHY_*`) and the
dynamic-refresh block (`DSI_DYNAMIC_REFRESH_*`). -/
inductive Reg
  | DSIPHY_CMN_CTRL_0
  | DSIPHY_CMN_CTRL_1
  | DSIPHY_CMN_CLK_CFG0
  | DSIPHY_CMN_CLK_CFG1
  | DSIPHY_CMN_GLBL_TEST_CTRL
  | DSIPHY_CMN_PLL_CNTRL
  | DSIPHY_CMN_LDO_CNTRL
  | DSIPHY_PLL_IE_TRIM
  | DSIPHY_PLL_IP_TRIM
  | DSIPHY_PLL_IPTAT_TRIM
  | DSIPHY_PLL_CLKBUFLR_EN
  | DSIPHY_PLL_SYSCLK_EN_RESET
  | DSIPHY_PLL_RESETSM_CNTRL
  | DSIPHY_PLL_RESETSM_CNTRL2
  | DSIPHY_PLL_RESETSM_CNTRL5
  | DSIPHY_PLL_KVCO_DIV_REF1
  | DSIPHY_PLL_KVCO_DIV_REF2
  | DSIPHY_PLL_KVCO_COUNT1
  | DSIPHY_PLL_KVCO_COUNT2
  | DSIPHY_PLL_VREF_CFG1
  | DSIPHY_PLL_KVCO_CODE
  | DSIPHY_PLL_VCO_DIV_REF1
  | DSIPHY_PLL_VCO_DIV_REF2
  | DSIPHY_PLL_VCO_COUNT1
  | DSIPHY_PLL_VCO_COUNT2
  | DSIPHY_PLL_PLLLOCK_CMP1
  | DSIPHY_PLL_PLLLOCK_CMP2
  | DSIPHY_PLL_PLLLOCK_CMP3
  | DSIPHY_PLL_PLLLOCK_CMP_EN
  | DSIPHY_PLL_PLL_VCO_TUNE
  | DSIPHY_PLL_DEC_START
  | DSIPHY_PLL_SSC_EN_CENTER
  | DSIPHY_PLL_SSC_ADJ_PER1
  | DSIPHY_PLL_SSC_ADJ_PER2
  | DSIPHY_PLL_SSC_PER1
  | DSIPHY_PLL_SSC_PER2
  | DSIPHY_PLL_SSC_STEP_SIZE1
  | DSIPHY_PLL_SSC_STEP_SIZE2
  | DSIPHY_PLL_DIV_FRAC_START1
  | DSIPHY_PLL_DIV_FRAC_START2
  | DSIPHY_PLL_DIV_FRAC_START3
  | DSIPHY_PLL_TXCLK_EN
  | DSIPHY_PLL_PLL_CRCTRL
  | DSIPHY_PLL_RESET_SM_READY_STATUS
  | DSIPHY_PLL_PLL_MISC1
  | DSIPHY_PLL_CP_SET_CUR
  | DSIPHY_PLL_PLL_ICPMSET
  | DSIPHY_PLL_PLL_ICPCSET
  | DSIPHY_PLL_PLL_ICP_SET
  | DSIPHY_PLL_PLL_LPF1
  | DSIPHY_PLL_PLL_LPF2_POSTDIV
  | DSI_DYNAMIC_REFRESH_PLL_CTRL19
  | DSI_DYNAMIC_REFRESH_PLL_CTRL20
  | DSI_DYNAMIC_REFRESH_PLL_CTRL21
  | DSI_DYNAMIC_REFRESH_PLL_CTRL22
  | DSI_DYNAMIC_REFRESH_PLL_CTRL23
  | DSI_DYNAMIC_REFRESH_PLL_CTRL24
  | DSI_DYNAMIC_REFRESH_PLL_CTRL25
  | DSI_DYNAMIC_REFRESH_PLL_CTRL26
  | DSI_DYNAMIC_REFRESH_PLL_CTRL27
  | DSI_DYNAMIC_REFRESH_PLL_CTRL28
  | DSI_DYNAMIC_REFRESH_PLL_CTRL29
  | DSI_DYNAMIC_REFRESH_PLL_UPPER_ADDR
  | DSI_DYNAMIC_REFRESH_PLL_UPPER_ADDR2
  deriving DecidableEq, Repr

/-! ## Data model -/

/-- The input section `struct dsi_pll_input` of the parameter block, with the fields the
functions of this file use (all `u32`). -/
structure dsi_pll_input where
  fref : Nat
  fdata : Nat
  dsiclk_sel : Nat
  ssc_en : Nat
  ldo_en : Nat
  refclk_dbler_en : Nat
  vco_measure_time : Nat
  kvco_measure_time : Nat
  bandgap_timer : Nat
  pll_wakeup_timer : Nat
  plllock_cnt : Nat
  plllock_rng : Nat
  ssc_center : Nat
  ssc_adj_period : Nat
  ssc_spread : Nat
  ssc_freq : Nat
  pll_ie_trim : Nat
  pll_ip_trim : Nat
  pll_iptat_trim : Nat
  pll_cpcset_cur : Nat
  pll_cpmset_cur : Nat
  pll_icpmset : Nat
  pll_icpcset : Nat
  pll_icpmset_p : Nat
  pll_icpmset_m : Nat
  pll_icpcset_p : Nat
  pll_icpcset_m : Nat
  pll_lpf_res1 : Nat
  pll_lpf_cap1 : Nat
  pll_lpf_cap2 : Nat
  pll_c3ctrl : Nat
  pll_r3ctrl : Nat
  deriving DecidableEq, Repr

/-- The output section `struct dsi_pll_output` of the parameter block, with the fields the
functions of this file use (all `u32`). -/
structure dsi_pll_output where
  pll_txclk_en : Nat
  dec_start : Nat
  div_frac_start : Nat
  ssc_period : Nat
  ssc_step_size : Nat
  plllock_cmp : Nat
  pll_vco_div_ref : Nat
  pll_vco_count : Nat
  pll_kvco_div_ref : Nat
  pll_kvco_count : Nat
  pll_misc1 : Nat
  pll_resetsm_cntrl : Nat
  pll_resetsm_cntrl2 : Nat
  pll_resetsm_cntrl5 : Nat
  pll_kvco_code : Nat
  cmn_ldo_cntrl : Nat
  pll_postdiv : Nat
  pll_n1div : Nat
  pll_n2div : Nat
  deriving DecidableEq, Repr

/-- The parameter block `struct dsi_pll_db`.  `next` is the neighbour block (`pdb->next`),
`pll` the resource the block belongs to (`pdb->pll`, may be null). -/
structure dsi_pll_db where
  next : Nat
  pll : Option Nat
  source_setup_done : Int
  inp : dsi_pll_input
  out : dsi_pll_output
  deriving DecidableEq, Repr

/-- One entry `struct dfps_codes_info` of the trim-code table. -/
structure dfps_codes_info where
  is_valid : Nat
  clk_rate : Nat
  pll_codes_1 : Nat
  pll_codes_2 : Nat
  deriving DecidableEq, Repr

/-- The trim-code table `struct dfps_info`: the entry count and the entry array. -/
structure dfps_info where
  vco_rate_cnt : Nat
  codes_dfps : List dfps_codes_info
  deriving DecidableEq, Repr

/-- The PLL resource `struct dsi_pll_resource`.  Pointers to other resources and to
the parameter block are indices into the world; `pll_base` and `dyn_pll_base` name
the register blocks.  `gdsc_disabled` is the answer of `is_gdsc_disabled(pll)`. -/
structure dsi_pll_resource where
  pll_base : Nat
  dyn_pll_base : Nat
  index : Nat
  revision : Nat
  vco_current_rate : Int
  vco_ref_clk_rate : Int
  vco_cached_rate : Nat
  pll_on : Bool
  handoff_resources : Bool
  ssc_en : Bool
  ssc_center : Bool
  ssc_ppm : Nat
  ssc_freq : Nat
  cache_pll_trim_codes : Nat × Nat
  dfps : Option dfps_info
  slave : Option Nat
  priv : Option Nat
  gdsc_disabled : Bool
  deriving DecidableEq, Repr

/-- One observable action of the driver on the hardware. -/
inductive Event
  | read (base : Nat) (reg : Reg) (val : Nat)
  | write (base : Nat) (reg : Reg) (val : Nat)
  | dyn_write (base : Nat) (slot addr0 addr1 : Reg) (data0 data1 : Nat)
  | wmb
  | udelay (us : Nat)
  deriving DecidableEq, Repr

/-- The machine state: the PLL resources and parameter blocks (by index), the content of
the register blocks (by base), the values the hardware reports on successive reads of the
status register of a block, the number of status reads done so far, and the trace of
hardware actions (oldest first). -/
structure World where
  plls : Nat → dsi_pll_resource
  pdbs : Nat → dsi_pll_db
  mmio : Nat → Reg → Nat
  status : Nat → Nat → Nat
  nreads : Nat → Nat
  trace : List Event

/-- The clock `struct dsi_pll_vco_clk` (rates are `unsigned long`).  An enable sequence
`int (*)(struct dsi_pll_resource *)` is a function of the world and the resource pointer that
returns its `int` result and the world it leaves; `pll_enable_seqs` holds the entries of the
table that are set, `pll_en_seq_cnt` is the count the driver iterates to. -/
structure dsi_pll_vco_clk where
  ref_clk_rate : Nat
  min_rate : Nat
  max_rate : Nat
  priv : Option Nat
  pll_en_seq_cnt : Nat
  pll_enable_seqs : List (World → Option Nat → Int × World)

/-! ## Register access -/

/-- The effect of one hardware action on the world: a write stores the value in the register
block, a read of the status register consumes one reported value, and every action is appended
to the trace. -/
def World.emit (w : World) (e : Event) : World :=
  match e with
  | Event.write base reg val =>
    { w with
      mmio := fun b r => if b = base ∧ r = reg then val else w.mmio b r
      trace := w.trace ++ [e] }
  | Event.read base reg _ =>
    if reg = Reg.DSIPHY_PLL_RESET_SM_READY_STATUS then
      { w with
        nreads := fun b => if b = base then w.nreads b + 1 else w.nreads b
        trace := w.trace ++ [e] }
    else { w with trace := w.trace ++ [e] }
  | _ => { w with trace := w.trace ++ [e] }

/-- The effect of a sequence of hardware actions, in program order. -/
def World.run (w : World) (es : List Event) : World := es.foldl World.emit w

/-- The value the last write of the sequence `es` to register `reg` of the block `base` stores,
if the sequence writes that register at all. -/
def last_write (base : Nat) (reg : Reg) : List Event → Option Nat
  | [] => none
  | e :: es =>
    match last_write base reg es with
    | some v => some v
    | none =>
      match e with
      | Event.write b r v => if base = b ∧ reg = r then some v else none
      | _ => none

/-- The macro `DSI_PLL_REG_W(base, offset, data)`: a 32-bit relaxed write. -/
def DSI_PLL_REG_W (w : World) (base : Nat) (reg : Reg) (data : Nat) : World :=
  w.emit (Event.write base reg (to_u32 data))

/-- The macro `DSI_PLL_REG_R(base, offset)`: a 32-bit relaxed read.  The status register
`DSIPHY_PLL_RESET_SM_READY_STATUS` is driven by the hardware: its k-th read returns
`status base k`; every other register returns its content. -/
def DSI_PLL_REG_R (w : World) (base : Nat) (reg : Reg) : Nat × World :=
  let v := to_u32 (if reg = Reg.DSIPHY_PLL_RESET_SM_READY_STATUS then
    w.status base (w.nreads base) else w.mmio base reg)
  (v, w.emit (Event.read base reg v))

/-- The macro `DSI_DYN_PLL_REG_W(base, offset, addr0, addr1, data0, data1)`: one paired
write through the dynamic-refresh mailbox, recorded in the trace. -/
def DSI_DYN_PLL_REG_W (w : World) (base : Nat) (slot addr0 addr1 : Reg)
    (data0 data1 : Nat) : World :=
  w.emit (Event.dyn_write base slot addr0 addr1 data0 data1)

/-- The write barrier `wmb()`. -/
def wmb (w : World) : World := w.emit Event.wmb

/-- The busy wait `udelay(us)`. -/
def udelay (w : World) (us : Nat) : World := w.emit (Event.udelay us)

/-- Modelled from the spec: the answer of `is_gdsc_disabled(pll)`, a helper declared outside this
file: the hardware-reported power domain of the block is disabled. -/
def is_gdsc_disabled (w : World) (pll : Nat) : Bool := (w.plls pll).gdsc_disabled

/-- Update of the resource `pll` in the world. -/
def World.set_pll (w : World) (pll : Nat) (r : dsi_pll_resource) : World :=
  { w with plls := fun i => if i = pll then r else w.plls i }

/-- Update of the parameter block `pdb` in the world. -/
def World.set_pdb (w : World) (pdb : Nat) (d : dsi_pll_db) : World :=
  { w with pdbs := fun i => if i = pdb then d else w.pdbs i }

/-! ## Parameter derivation -/

/-- The function `pll_14nm_dec_frac_calc`: the fractional-N split and the lock comparator,
computed from `pll->vco_current_rate` and `pll->vco_ref_clk_rate`. -/
def pll_14nm_dec_frac_calc (pll : dsi_pll_resource) (pdb : dsi_pll_db) : Option dsi_pll_db := do
  let pin := pdb.inp
  let multiplier : Nat := BIT 20
  let vco_clk_rate : Int := to_s64 pll.vco_current_rate
  let fref : Int := to_s64 pll.vco_ref_clk_rate
  let q ← div_s64 (to_u64 (int_to_u64 vco_clk_rate * multiplier)) fref
  let dec_start_multiple : Nat := int_to_u64 q
  let (_, rem) ← div_s64_rem dec_start_multiple multiplier
  let div_frac_start : Int := rem
  let q2 ← div_s64 dec_start_multiple multiplier
  let dec_start : Nat := int_to_u64 q2
  let duration : Int :=
    if pin.plllock_cnt = 0 then 1024
    else if pin.plllock_cnt = 1 then 256
    else if pin.plllock_cnt = 2 then 128
    else 32
  let pll_comp_val : Nat := to_u64 (int_to_u64 duration * dec_start_multiple)
  let pll_comp_val ← div_u64 pll_comp_val multiplier
  let pll_comp_val ← do_div pll_comp_val 10
  let out := { pdb.out with
    dec_start := to_u32 dec_start
    div_frac_start := int_to_u32 div_frac_start
    plllock_cmp := to_u32 pll_comp_val
    pll_txclk_en := 1
    cmn_ldo_cntrl := if pll.revision = 2 then 0x3c else 0x1c }
  pure { pdb with out := out }

/-- The lock-count duration that scales the lock comparator: 1024, 256, 128 or 32 cycles for
the lock count 0, 1, 2 or any other value (the table of `pll_14nm_dec_frac_calc`). -/
def lock_duration (plllock_cnt : Nat) : Nat :=
  if plllock_cnt = 0 then 1024
  else if plllock_cnt = 1 then 256
  else if plllock_cnt = 2 then 128
  else 32

/-- The function `pll_14nm_kvco_slop`: the KVCO slope of a `u32` VCO rate. -/
def pll_14nm_kvco_slop (vrate : Nat) : Nat :=
  if vrate > 1300000000 ∧ vrate ≤ 1800000000 then 600
  else if vrate > 1800000000 ∧ vrate < 2300000000 then 400
  else if vrate > 2300000000 ∧ vrate < 2600000000 then 280
  else 0

/-! ## Divider callbacks -/

/-- The callback `post_n1_div_set_div(context, reg, div)`; `context` is the resource `pll`. -/
def post_n1_div_set_div (w : World) (pll : Nat) (_reg : Nat) (div : Nat) :
    Option (Int × World) := do
  -- in common clock framework the divider value provided is one less
  let div := to_u32 (to_u32 div + 1)
  let pdb ← (w.plls pll).priv
  let d := w.pdbs pdb
  let w := w.set_pdb pdb { d with out := { d.out with pll_n1div := div } }
  let (n1div, w) := DSI_PLL_REG_R w (w.plls pll).pll_base Reg.DSIPHY_CMN_CLK_CFG0
  let n1div := n1div &&& 0xFFFFFFF0
  let n1div := n1div ||| (div &&& 0xf)
  let w := DSI_PLL_REG_W w (w.plls pll).pll_base Reg.DSIPHY_CMN_CLK_CFG0 n1div
  let w := wmb w
  pure (0, w)

/-- The callback `post_n1_div_get_div(context, reg, div)`.  The second component of the result
is the value left in `*div`, or `none` when `*div` is not written. -/
def post_n1_div_get_div (w : World) (pll : Nat) (_reg : Nat) :
    Option (Int × Option Nat × World) :=
  if is_gdsc_disabled w pll then some (0, none, w)
  else do
    let (div, w) := DSI_PLL_REG_R w (w.plls pll).pll_base Reg.DSIPHY_CMN_CLK_CFG0
    let div := div &&& 0xF
    let pdb ← (w.plls pll).priv
    let d := w.pdbs pdb
    let w := w.set_pdb pdb { d with out := { d.out with pll_n1div := div } }
    -- common clock framework will add one to the divider value sent
    let div := if div = 0 then 1 else div - 1
    pure (0, some div, w)

/-- The callback `n2_div_set_div(context, reg, div)`. -/
def n2_div_set_div (w : World) (pll : Nat) (_reg : Nat) (div : Nat) :
    Option (Int × World) := do
  let div := to_u32 (to_u32 div + 1)
  -- this is for pixel clock
  let (n2div, w) := DSI_PLL_REG_R w (w.plls pll).pll_base Reg.DSIPHY_CMN_CLK_CFG0
  let n2div := n2div &&& 0xFFFFFF0F
  let n2div := n2div ||| to_u32 (div <<< 4)
  let w := DSI_PLL_REG_W w (w.plls pll).pll_base Reg.DSIPHY_CMN_CLK_CFG0 n2div
  -- commit slave if split display is enabled
  let w := match (w.plls pll).slave with
    | some slave => DSI_PLL_REG_W w (w.plls slave).pll_base Reg.DSIPHY_CMN_CLK_CFG0 n2div
    | none => w
  let pdb ← (w.plls pll).priv
  let d := w.pdbs pdb
  let w := w.set_pdb pdb { d with out := { d.out with pll_n2div := div } }
  -- set dsiclk_sel=1 so that n2div *= 2
  let w := DSI_PLL_REG_W w (w.plls pll).pll_base Reg.DSIPHY_CMN_CLK_CFG1 1
  pure (0, w)

/-- The callback `shadow_n2_div_set_div(context, reg, div)`. -/
def shadow_n2_div_set_div (w : World) (pll : Nat) (_reg : Nat) (div : Nat) :
    Option (Int × World) := do
  let pdb ← (w.plls pll).priv
  let d := w.pdbs pdb
  let div := to_u32 (to_u32 div + 1)
  let pout := { d.out with pll_n2div := div }
  let w := w.set_pdb pdb { d with out := pout }
  let data := pout.pll_n1div ||| to_u32 (pout.pll_n2div <<< 4)
  let w := DSI_DYN_PLL_REG_W w (w.plls pll).dyn_pll_base Reg.DSI_DYNAMIC_REFRESH_PLL_CTRL19
    Reg.DSIPHY_CMN_CLK_CFG0 Reg.DSIPHY_CMN_CLK_CFG1 data 1
  pure (0, w)

/-- The callback `n2_div_get_div(context, reg, div)`.  The second component of the result is the
value left in `*div`, or `none` when `*div` is not written. -/
def n2_div_get_div (w : World) (pll : Nat) (_reg : Nat) :
    Option (Int × Option Nat × World) :=
  if is_gdsc_disabled w pll then some (0, none, w)
  else do
    let (n2div, w) := DSI_PLL_REG_R w (w.plls pll).pll_base Reg.DSIPHY_CMN_CLK_CFG0
    let n2div := n2div >>> 4
    let n2div := n2div &&& 0x0f
    let pdb ← (w.plls pll).priv
    let d := w.pdbs pdb
    let w := w.set_pdb pdb { d with out := { d.out with pll_n2div := n2div } }
    let div := n2div
    -- common clock framework will add one to the divider value sent
    let div := if div = 0 then 1 else div - 1
    pure (0, some div, w)

/-! ## Stored trim codes -/

/-- The loop of `dsi_pll_read_stored_trim_codes` over the table entries: an entry is skipped
when its rate differs from the requested one and it is valid; the first entry not skipped
provides the two codes. -/
def dsi_pll_read_stored_trim_codes_loop (vco_clk_rate : Int) :
    List dfps_codes_info → Option (Nat × Nat)
  | [] => none
  | codes_info :: rest =>
    if vco_clk_rate ≠ (codes_info.clk_rate : Int) ∧ codes_info.is_valid ≠ 0 then
      dsi_pll_read_stored_trim_codes_loop vco_clk_rate rest
    else some (codes_info.pll_codes_1, codes_info.pll_codes_2)

/-- The function `dsi_pll_read_stored_trim_codes(dsi_pll_res, vco_clk_rate)`: the loop visits the
first `vco_rate_cnt` entries of the table. -/
def dsi_pll_read_stored_trim_codes (w : World) (pll : Nat) (vco_clk_rate : Int) : Int × World :=
  match (w.plls pll).dfps with
  | none => (-EINVAL, w)
  | some dfps =>
    match dsi_pll_read_stored_trim_codes_loop vco_clk_rate
        (dfps.codes_dfps.take dfps.vco_rate_cnt) with
    | some codes => (0, w.set_pll pll { w.plls pll with cache_pll_trim_codes := codes })
    | none => (-EINVAL, w)

/-! ## Lock state machine -/

/-- The constant `DSI_PLL_POLL_MAX_READS`. -/
def DSI_PLL_POLL_MAX_READS : Nat := 15

/-- The constant `DSI_PLL_POLL_TIMEOUT_US`. -/
def DSI_PLL_POLL_TIMEOUT_US : Nat := 1000

/-- Modelled from the spec: the poll primitive of the register-access collaborator,
`pollTimeout(base, offset, mask, maxAttempts, delayUs) -> matched|timedOut`, which stands for
`readl_poll_timeout_atomic` of `linux/iopoll.h`.  The register is read up to `maxAttempts` times,
`delayUs` apart; the poll matches at the first read with a bit of `mask` set. -/
def pollTimeout (w : World) (base : Nat) (reg : Reg) (mask : Nat) :
    Nat → Nat → Bool × World
  | 0, _ => (false, w)
  | maxAttempts + 1, delayUs =>
    let (status, w1) := DSI_PLL_REG_R w base reg
    if status &&& mask > 0 then (true, w1)
    else pollTimeout (udelay w1 delayUs) base reg mask maxAttempts delayUs

/-- The total busy-wait time of a trace, in microseconds. -/
def trace_delay : List Event → Nat
  | [] => 0
  | Event.udelay us :: es => us + trace_delay es
  | _ :: es => trace_delay es

/-- The actions of `n` consecutive failed polls of the status register of the block `base`,
the first of which is the read number `first` of that register: each read returns the value
the hardware reports for it and is followed by the delay. -/
def failed_polls (status : Nat → Nat) (base delayUs : Nat) : Nat → Nat → List Event
  | _, 0 => []
  | first, n + 1 =>
    Event.read base Reg.DSIPHY_PLL_RESET_SM_READY_STATUS (to_u32 (status first)) ::
      Event.udelay delayUs :: failed_polls status base delayUs (first + 1) n

/-- The function `pll_is_pll_locked_14nm`. -/
def pll_is_pll_locked_14nm (w : World) (pll : Nat) : Bool × World :=
  -- poll for PLL ready status
  let (ready, w) := pollTimeout w (w.plls pll).pll_base Reg.DSIPHY_PLL_RESET_SM_READY_STATUS
    (BIT 5) DSI_PLL_POLL_MAX_READS DSI_PLL_POLL_TIMEOUT_US
  if !ready then (false, w)
  else
    let (locked, w) := pollTimeout w (w.plls pll).pll_base Reg.DSIPHY_PLL_RESET_SM_READY_STATUS
      (BIT 0) DSI_PLL_POLL_MAX_READS DSI_PLL_POLL_TIMEOUT_US
    if !locked then (false, w) else (true, w)

/-- The function `dsi_pll_start_14nm(pll_base)`. -/
def dsi_pll_start_14nm (w : World) (pll_base : Nat) : World :=
  let w := DSI_PLL_REG_W w pll_base Reg.DSIPHY_PLL_VREF_CFG1 0x10
  DSI_PLL_REG_W w pll_base Reg.DSIPHY_CMN_PLL_CNTRL 1

/-- The function `dsi_pll_stop_14nm(pll_base)`. -/
def dsi_pll_stop_14nm (w : World) (pll_base : Nat) : World :=
  DSI_PLL_REG_W w pll_base Reg.DSIPHY_CMN_PLL_CNTRL 0

/-- The function `dsi_pll_enable_seq_14nm(pll)`; `none` is the null resource. -/
def dsi_pll_enable_seq_14nm (w : World) (pll : Option Nat) : Int × World :=
  match pll with
  | none => (-EINVAL, w)
  | some pll =>
    let w := dsi_pll_start_14nm w (w.plls pll).pll_base
    let (locked, w) := pll_is_pll_locked_14nm w pll
    if !locked then (-EINVAL, w) else (0, w)

/-- The loop of `dsi_pll_enable`: `n` iterations are left, `i` is the loop index and `rc` the
result so far.  The entry `i` of the table is called on the resource pointer; the loop ends at
the first sequence that returns 0.  A call through an entry that is not set faults. -/
def dsi_pll_enable_loop (seqs : List (World → Option Nat → Int × World)) (pll : Option Nat) :
    Nat → Nat → Int → World → Option (Int × World)
  | 0, _, rc, w => some (rc, w)
  | n + 1, i, _, w => do
    let seq ← seqs[i]?
    let (rc, w) := seq w pll
    if rc = 0 then pure (rc, w)
    else dsi_pll_enable_loop seqs pll n (i + 1) rc w

/-- The function `dsi_pll_enable(hw)`; `vco` is the clock of `hw`.  Try all enable sequences
until one succeeds; the resource is dereferenced after the loop (`pll->index`, `pll->pll_on`),
which faults for the null resource. -/
def dsi_pll_enable (w : World) (vco : dsi_pll_vco_clk) : Option (Int × World) := do
  let (rc, w) ← dsi_pll_enable_loop vco.pll_enable_seqs vco.priv vco.pll_en_seq_cnt 0 0 w
  let pll ← vco.priv
  if rc ≠ 0 then pure (rc, w)
  else pure (rc, w.set_pll pll { w.plls pll with pll_on := true })

/-- The world the invocations of the entries `0 .. j-1` of the table leave, each sequence being
called on the world the one before it left. -/
def enable_seqs_world (seqs : List (World → Option Nat → Int × World)) (pll : Option Nat)
    (w : World) : Nat → World
  | 0 => w
  | j + 1 =>
    match seqs[j]? with
    | some seq => (seq (enable_seqs_world seqs pll w j) pll).2
    | none => enable_seqs_world seqs pll w j

/-- The result of the entry `j` of the table when it is invoked after the entries before it. -/
def enable_seqs_rc (seqs : List (World → Option Nat → Int × World)) (pll : Option Nat)
    (w : World) (j : Nat) : Int :=
  match seqs[j]? with
  | some seq => (seq (enable_seqs_world seqs pll w j) pll).1
  | none => 0

/-- The function `dsi_pll_disable(hw)`; `vco` is the clock of `hw`. -/
def dsi_pll_disable (w : World) (vco : dsi_pll_vco_clk) : Option World := do
  let pll ← vco.priv
  if !(w.plls pll).pll_on then pure w
  else
    let w := w.set_pll pll { w.plls pll with handoff_resources := false }
    let w := dsi_pll_stop_14nm w (w.plls pll).pll_base
    let w := w.set_pll pll { w.plls pll with pll_on := false }
    pure w

/-! ## Parameter derivation, continued -/

/-- The function `dsi_pll_14nm_input_init(pll, pdb)`. -/
def dsi_pll_14nm_input_init (pll : dsi_pll_resource) (pdb : dsi_pll_db) : dsi_pll_db :=
  { pdb with
    inp := { pdb.inp with
      fref := 19200000
      fdata := 0
      dsiclk_sel := 1
      ssc_en := if pll.ssc_en then 1 else 0
      ldo_en := 0
      refclk_dbler_en := 0
      vco_measure_time := 5
      kvco_measure_time := 5
      bandgap_timer := 4
      pll_wakeup_timer := 5
      plllock_cnt := 1
      plllock_rng := 0
      ssc_center := if pll.ssc_center then 1 else 0
      ssc_adj_period := 37
      ssc_spread := to_u32 pll.ssc_ppm / 1000
      ssc_freq := to_u32 pll.ssc_freq
      pll_ie_trim := 4
      pll_ip_trim := 4
      pll_cpcset_cur := 0
      pll_cpmset_cur := 1
      pll_icpmset := 7
      pll_icpcset := 7
      pll_icpmset_p := 0
      pll_icpmset_m := 0
      pll_icpcset_p := 0
      pll_icpcset_m := 0
      pll_lpf_res1 := 3
      pll_lpf_cap1 := 11
      pll_lpf_cap2 := 1
      pll_iptat_trim := 7
      pll_c3ctrl := 2
      pll_r3ctrl := 1 }
    out := { pdb.out with pll_postdiv := 1 } }

/-- The function `pll_14nm_ssc_calc(pll, pdb)`. -/
def pll_14nm_ssc_calc (pll : dsi_pll_resource) (pdb : dsi_pll_db) : Option dsi_pll_db := do
  let ssc_period : Nat := to_u32 pdb.inp.ssc_freq / 500
  let period : Nat := to_u32 (int_to_u64 pll.vco_ref_clk_rate / 1000)
  let ssc_period ← CEIL period ssc_period
  let ssc_period := to_u32 (ssc_period + 2 ^ 32 - 1)
  let step_size : Int := (int_to_u32 pll.vco_current_rate : Int)
  let ref : Nat := int_to_u32 pll.vco_ref_clk_rate
  let ref := ref / 1000
  let step_size ← div_s64 step_size ref
  let step_size := to_s64 (step_size * 2 ^ 20)
  let step_size ← div_s64 step_size 1000
  let step_size := to_s64 (step_size * (to_u32 pdb.inp.ssc_spread : Int))
  let step_size ← div_s64 step_size 1000
  let step_size := to_s64 (step_size * (to_u32 (to_u32 pdb.inp.ssc_adj_period + 1) : Int))
  let (step_size, rem) ← div_s64_rem step_size (to_u32 (ssc_period + 1) : Int)
  let step_size := if rem ≠ 0 then to_s64 (step_size + 1) else step_size
  let step_size := step_size % 65536
  pure { pdb with out := { pdb.out with
    ssc_period := ssc_period
    ssc_step_size := int_to_u32 step_size } }

/-- The function `pll_14nm_calc_vco_count(pdb, vco_clk_rate, fref)`. -/
def pll_14nm_calc_vco_count (pdb : dsi_pll_db) (vco_clk_rate fref : Int) : Option dsi_pll_db := do
  let pin := pdb.inp
  let data : Nat := int_to_u64 (to_s64 (to_s64 fref * (to_u32 pin.vco_measure_time : Int)))
  let data ← do_div data 1000000
  let data := data &&& 0x03ff
  let data := to_u64 (data + 2 ^ 64 - 2)
  let pll_vco_div_ref := to_u32 data
  let data : Nat := int_to_u64 vco_clk_rate / 1000000
  let data := to_u64 (data * to_u32 pin.vco_measure_time)
  let data ← do_div data 10
  let pll_vco_count := to_u32 data
  let data : Nat := int_to_u64 (to_s64 (to_s64 fref * (to_u32 pin.kvco_measure_time : Int)))
  let data ← do_div data 1000000
  let data := data &&& 0x03ff
  let data := to_u64 (data + 2 ^ 64 - 1)
  let pll_kvco_div_ref := to_u32 data
  let cnt := pll_14nm_kvco_slop (int_to_u32 vco_clk_rate)
  let cnt := to_u32 (cnt * 2)
  let cnt := cnt / 100
  let cnt := to_u32 (cnt * to_u32 pin.kvco_measure_time)
  pure { pdb with out := { pdb.out with
    pll_vco_div_ref := pll_vco_div_ref
    pll_vco_count := pll_vco_count
    pll_kvco_div_ref := pll_kvco_div_ref
    pll_kvco_count := cnt
    pll_misc1 := 16
    pll_resetsm_cntrl := 48
    pll_resetsm_cntrl2 := to_u32 (pin.bandgap_timer <<< 3)
    pll_resetsm_cntrl5 := pin.pll_wakeup_timer
    pll_kvco_code := 0 } }

/-! ## Commit engine -/

/-- The register write `DSI_PLL_REG_W(base, offset, data)` as a hardware action. -/
def reg_w (base : Nat) (reg : Reg) (data : Nat) : Event := Event.write base reg (to_u32 data)

/-- The register writes of a sequence of hardware actions, in order, as pairs of the register
and the value written (the block is left out). -/
def reg_writes : List Event → List (Reg × Nat)
  | [] => []
  | Event.write _ reg val :: es => (reg, val) :: reg_writes es
  | _ :: es => reg_writes es

/-- The register writes of a sequence of hardware actions that go to the block `base`, in
order, as pairs of the register and the value written. -/
def writes_to (base : Nat) : List Event → List (Reg × Nat)
  | [] => []
  | Event.write b reg val :: es =>
    if b = base then (reg, val) :: writes_to base es else writes_to base es
  | _ :: es => writes_to base es

/-- The hardware actions of `pll_db_commit_ssc(pll, pdb)`, in program order. -/
def pll_db_commit_ssc_seq (pll : dsi_pll_resource) (pdb : dsi_pll_db) : List Event :=
  let pll_base := pll.pll_base
  let pin := pdb.inp
  let pout := pdb.out
  [ reg_w pll_base Reg.DSIPHY_PLL_SSC_ADJ_PER1 (to_char (to_char pin.ssc_adj_period &&& 0x0ff)),
    reg_w pll_base Reg.DSIPHY_PLL_SSC_ADJ_PER2
      (to_char (to_char (pin.ssc_adj_period >>> 8) &&& 0x03)),
    reg_w pll_base Reg.DSIPHY_PLL_SSC_PER1 (to_char (to_char pout.ssc_period &&& 0x0ff)),
    reg_w pll_base Reg.DSIPHY_PLL_SSC_PER2 (to_char (to_char (pout.ssc_period >>> 8) &&& 0x0ff)),
    reg_w pll_base Reg.DSIPHY_PLL_SSC_STEP_SIZE1
      (to_char (to_char pout.ssc_step_size &&& 0x0ff)),
    reg_w pll_base Reg.DSIPHY_PLL_SSC_STEP_SIZE2
      (to_char (to_char (pout.ssc_step_size >>> 8) &&& 0x0ff)),
    reg_w pll_base Reg.DSIPHY_PLL_SSC_EN_CENTER
      (to_char (to_char (to_char (pin.ssc_center &&& 0x01) <<< 1) ||| 0x01)),
    Event.wmb ]

/-- The function `pll_db_commit_ssc(pll, pdb)`. -/
def pll_db_commit_ssc (w : World) (pll pdb : Nat) : World :=
  w.run (pll_db_commit_ssc_seq (w.plls pll) (w.pdbs pdb))

/-- The hardware actions of `pll_db_commit_common(pll, pdb)`, in program order: the registers
that do not depend on the frequency. -/
def pll_db_commit_common_seq (pll : dsi_pll_resource) (pdb : dsi_pll_db) : List Event :=
  let pll_base := pll.pll_base
  let pin := pdb.inp
  let pout := pdb.out
  [ reg_w pll_base Reg.DSIPHY_PLL_SYSCLK_EN_RESET (to_char 0),
    reg_w pll_base Reg.DSIPHY_PLL_TXCLK_EN (to_char pout.pll_txclk_en),
    reg_w pll_base Reg.DSIPHY_PLL_RESETSM_CNTRL (to_char pout.pll_resetsm_cntrl),
    reg_w pll_base Reg.DSIPHY_PLL_RESETSM_CNTRL2 (to_char pout.pll_resetsm_cntrl2),
    reg_w pll_base Reg.DSIPHY_PLL_RESETSM_CNTRL5 (to_char pout.pll_resetsm_cntrl5),
    reg_w pll_base Reg.DSIPHY_PLL_VCO_DIV_REF1 (to_char (to_char pout.pll_vco_div_ref &&& 0x0ff)),
    reg_w pll_base Reg.DSIPHY_PLL_VCO_DIV_REF2
      (to_char (to_char (pout.pll_vco_div_ref >>> 8) &&& 0x03)),
    reg_w pll_base Reg.DSIPHY_PLL_KVCO_DIV_REF1
      (to_char (to_char pout.pll_kvco_div_ref &&& 0x0ff)),
    reg_w pll_base Reg.DSIPHY_PLL_KVCO_DIV_REF2
      (to_char (to_char (pout.pll_kvco_div_ref >>> 8) &&& 0x03)),
    reg_w pll_base Reg.DSIPHY_PLL_PLL_MISC1 (to_char pout.pll_misc1),
    reg_w pll_base Reg.DSIPHY_PLL_IE_TRIM (to_char pin.pll_ie_trim),
    reg_w pll_base Reg.DSIPHY_PLL_IP_TRIM (to_char pin.pll_ip_trim),
    reg_w pll_base Reg.DSIPHY_PLL_CP_SET_CUR
      (to_char (to_u32 (pin.pll_cpmset_cur <<< 3) ||| pin.pll_cpcset_cur)),
    reg_w pll_base Reg.DSIPHY_PLL_PLL_ICPCSET
      (to_char (to_u32 (pin.pll_icpcset_p <<< 3) ||| pin.pll_icpcset_m)),
    reg_w pll_base Reg.DSIPHY_PLL_PLL_ICPMSET
      (to_char (to_u32 (pin.pll_icpmset_p <<< 3) ||| pin.pll_icpcset_m)),
    reg_w pll_base Reg.DSIPHY_PLL_PLL_ICP_SET
      (to_char (to_u32 (pin.pll_icpmset <<< 3) ||| pin.pll_icpcset)),
    reg_w pll_base Reg.DSIPHY_PLL_PLL_LPF1
      (to_char (to_u32 (pin.pll_lpf_cap2 <<< 4) ||| pin.pll_lpf_cap1)),
    reg_w pll_base Reg.DSIPHY_PLL_IPTAT_TRIM (to_char pin.pll_iptat_trim),
    reg_w pll_base Reg.DSIPHY_PLL_PLL_CRCTRL
      (to_char (pin.pll_c3ctrl ||| to_u32 (pin.pll_r3ctrl <<< 4))) ]

/-- The function `pll_db_commit_common(pll, pdb)`. -/
def pll_db_commit_common (w : World) (pll pdb : Nat) : World :=
  w.run (pll_db_commit_common_seq (w.plls pll) (w.pdbs pdb))

/-- The hardware actions of `pll_db_commit_14nm(pll, pdb)`, in program order: the LDO control,
the common block, the stop and the software reset pulse, the clock select and the
normal-operation byte, the registers that depend on the frequency, the spread-spectrum
registers when `pll->ssc_en` is set, and the final barrier. -/
def pll_db_commit_14nm_seq (pll : dsi_pll_resource) (pdb : dsi_pll_db) : List Event :=
  let pll_base := pll.pll_base
  let pin := pdb.inp
  let pout := pdb.out
  [ reg_w pll_base Reg.DSIPHY_CMN_LDO_CNTRL (to_char pout.cmn_ldo_cntrl) ] ++
  pll_db_commit_common_seq pll pdb ++
  [ -- de assert pll start and apply pll sw reset: stop pll
    reg_w pll_base Reg.DSIPHY_CMN_PLL_CNTRL 0,
    -- pll sw reset
    reg_w pll_base Reg.DSIPHY_CMN_CTRL_1 0x20,
    Event.wmb,
    Event.udelay 10,
    reg_w pll_base Reg.DSIPHY_CMN_CTRL_1 0,
    Event.wmb,
    reg_w pll_base Reg.DSIPHY_CMN_CLK_CFG1 (to_char pin.dsiclk_sel),
    reg_w pll_base Reg.DSIPHY_CMN_CTRL_0 (to_char 0xff),
    -- configure the frequency dependent pll registers
    reg_w pll_base Reg.DSIPHY_PLL_DEC_START (to_char pout.dec_start),
    reg_w pll_base Reg.DSIPHY_PLL_DIV_FRAC_START1
      (to_char (to_char pout.div_frac_start &&& 0x0ff)),
    reg_w pll_base Reg.DSIPHY_PLL_DIV_FRAC_START2
      (to_char (to_char (pout.div_frac_start >>> 8) &&& 0x0ff)),
    reg_w pll_base Reg.DSIPHY_PLL_DIV_FRAC_START3
      (to_char (to_char (pout.div_frac_start >>> 16) &&& 0x0f)),
    reg_w pll_base Reg.DSIPHY_PLL_PLLLOCK_CMP1 (to_char (to_char pout.plllock_cmp &&& 0x0ff)),
    reg_w pll_base Reg.DSIPHY_PLL_PLLLOCK_CMP2
      (to_char (to_char (pout.plllock_cmp >>> 8) &&& 0x0ff)),
    reg_w pll_base Reg.DSIPHY_PLL_PLLLOCK_CMP3
      (to_char (to_char (pout.plllock_cmp >>> 16) &&& 0x03)),
    reg_w pll_base Reg.DSIPHY_PLL_PLLLOCK_CMP_EN
      (to_char (to_u32 (pin.plllock_cnt <<< 1) ||| to_u32 (pin.plllock_rng <<< 3))),
    reg_w pll_base Reg.DSIPHY_PLL_VCO_COUNT1 (to_char (to_char pout.pll_vco_count &&& 0x0ff)),
    reg_w pll_base Reg.DSIPHY_PLL_VCO_COUNT2
      (to_char (to_char (pout.pll_vco_count >>> 8) &&& 0x0ff)),
    reg_w pll_base Reg.DSIPHY_PLL_KVCO_COUNT1 (to_char (to_char pout.pll_kvco_count &&& 0x0ff)),
    reg_w pll_base Reg.DSIPHY_PLL_KVCO_COUNT2
      (to_char (to_char (pout.pll_kvco_count >>> 8) &&& 0x03)),
    -- tx_band = pll_postdiv
    reg_w pll_base Reg.DSIPHY_PLL_PLL_LPF2_POSTDIV
      (to_char (to_u32 (to_u32 (pout.pll_postdiv + 2 ^ 32 - 1) <<< 4) ||| pin.pll_lpf_res1)),
    reg_w pll_base Reg.DSIPHY_CMN_CLK_CFG0
      (to_char (pout.pll_n1div ||| to_u32 (pout.pll_n2div <<< 4))) ] ++
  (if pll.ssc_en then pll_db_commit_ssc_seq pll pdb else []) ++
  [ Event.wmb ]

/-- The function `pll_db_commit_14nm(pll, pdb)`: the commit of the parameter block `pdb` to the
live registers of the resource `pll`. -/
def pll_db_commit_14nm (w : World) (pll pdb : Nat) : World :=
  w.run (pll_db_commit_14nm_seq (w.plls pll) (w.pdbs pdb))

/-! ## Topology discovery -/

/-- Modelled from the spec: the buffer-enable values of bits 0-1 of `DSIPHY_PLL_CLKBUFLR_EN`
(none, right, left, both), declared in the driver header. -/
def PLL_OUTPUT_NONE : Nat := 0

/-- Modelled from the spec: right buffer enabled (bit 0). -/
def PLL_OUTPUT_RIGHT : Nat := 1

/-- Modelled from the spec: left buffer enabled (bit 1). -/
def PLL_OUTPUT_LEFT : Nat := 2

/-- Modelled from the spec: both buffers enabled. -/
def PLL_OUTPUT_BOTH : Nat := 3

/-- Modelled from the spec: the source values of bit 2 of `DSIPHY_CMN_GLBL_TEST_CTRL`
(left = 0, right = 1), declared in the driver header. -/
def PLL_SOURCE_FROM_LEFT : Nat := 0

/-- Modelled from the spec: source from the right PLL. -/
def PLL_SOURCE_FROM_RIGHT : Nat := 1

/-- The role of a PLL instance in the topology (the enumeration `PLL_UNKNOWN`,
`PLL_STANDALONE`, `PLL_SLAVE`, `PLL_MASTER` of the driver header). -/
inductive PllRole
  | PLL_UNKNOWN
  | PLL_STANDALONE
  | PLL_SLAVE
  | PLL_MASTER
  deriving DecidableEq, Repr

/-- The function `pll_source_finding(pll)`. -/
def pll_source_finding (w : World) (pll : Nat) : PllRole × World :=
  let (glbl_test_ctrl, w) := DSI_PLL_REG_R w (w.plls pll).pll_base Reg.DSIPHY_CMN_GLBL_TEST_CTRL
  let (clk_buf_en, w) := DSI_PLL_REG_R w (w.plls pll).pll_base Reg.DSIPHY_PLL_CLKBUFLR_EN
  let glbl_test_ctrl := glbl_test_ctrl &&& BIT 2
  let glbl_test_ctrl := glbl_test_ctrl >>> 2
  let clk_buf_en := clk_buf_en &&& (PLL_OUTPUT_RIGHT ||| PLL_OUTPUT_LEFT)
  if glbl_test_ctrl = PLL_SOURCE_FROM_LEFT ∧ clk_buf_en = PLL_OUTPUT_BOTH then
    (PllRole.PLL_MASTER, w)
  else if glbl_test_ctrl = PLL_SOURCE_FROM_RIGHT ∧ clk_buf_en = PLL_OUTPUT_NONE then
    (PllRole.PLL_SLAVE, w)
  else if glbl_test_ctrl = PLL_SOURCE_FROM_LEFT ∧ clk_buf_en = PLL_OUTPUT_RIGHT then
    (PllRole.PLL_STANDALONE, w)
  else (PllRole.PLL_UNKNOWN, w)

/-- The function `pll_source_setup(pll)`. -/
def pll_source_setup (w : World) (pll : Nat) : Option World := do
  let pdb ← (w.plls pll).priv
  if (w.pdbs pdb).source_setup_done ≠ 0 then pure w
  else
    let d := w.pdbs pdb
    let w := w.set_pdb pdb { d with source_setup_done := to_s32 (d.source_setup_done + 1) }
    let (status, w) := pll_source_finding w pll
    if status = PllRole.PLL_STANDALONE ∨ status = PllRole.PLL_UNKNOWN then pure w
    else
      match (w.pdbs (w.pdbs pdb).next).pll with
      | none => pure w
      | some other =>
        if status = PllRole.PLL_MASTER then
          pure (w.set_pll pll { w.plls pll with slave := some other })
        else
          pure (w.set_pll other { w.plls other with slave := some pll })

/-! ## Clock-framework entry points -/

/-- The function `pll_vco_set_rate_14nm(hw, rate, parent_rate)`; `vco` is the clock of `hw`.
The resource `*pll` and the parameter block `*pdb` are updated as local values `r` and `d` and
stored back before the commits, which are the first hardware accesses after the topology
setup. -/
def pll_vco_set_rate_14nm (w : World) (vco : dsi_pll_vco_clk) (rate : Nat) (_parent_rate : Nat) :
    Option (Int × World) := do
  let pll ← vco.priv
  match (w.plls pll).priv with
  | none => pure (-EINVAL, w)
  | some pdb =>
    let w ← pll_source_setup w pll
    let r := { w.plls pll with
      vco_current_rate := to_s64 (to_u64 rate)
      vco_ref_clk_rate := to_s64 (to_u64 vco.ref_clk_rate) }
    let d := dsi_pll_14nm_input_init r (w.pdbs pdb)
    let d ← pll_14nm_dec_frac_calc r d
    let d ← (if r.ssc_en then pll_14nm_ssc_calc r d else some d)
    let d ← pll_14nm_calc_vco_count d r.vco_current_rate r.vco_ref_clk_rate
    let w := (w.set_pll pll r).set_pdb pdb d
    -- commit slave if split display is enabled
    let w := match r.slave with
      | some slave => pll_db_commit_14nm w slave pdb
      | none => w
    -- commit master itself
    let w := pll_db_commit_14nm w pll pdb
    pure (0, w)

/-- The hardware actions of `shadow_pll_dynamic_refresh_14nm(pll, pdb)`, in program order. -/
def shadow_pll_dynamic_refresh_14nm_seq (pll : dsi_pll_resource) (pdb : dsi_pll_db) :
    List Event :=
  let dyn_pll_base := pll.dyn_pll_base
  let codes := pll.cache_pll_trim_codes
  let pin := pdb.inp
  let pout := pdb.out
  let data := pout.pll_n1div ||| to_u32 (pout.pll_n2div <<< 4)
  [ Event.dyn_write dyn_pll_base Reg.DSI_DYNAMIC_REFRESH_PLL_CTRL19
      Reg.DSIPHY_CMN_CLK_CFG0 Reg.DSIPHY_CMN_CLK_CFG1 data 1,
    Event.dyn_write dyn_pll_base Reg.DSI_DYNAMIC_REFRESH_PLL_CTRL20
      Reg.DSIPHY_CMN_CTRL_0 Reg.DSIPHY_PLL_SYSCLK_EN_RESET 0xFF 0x0,
    Event.dyn_write dyn_pll_base Reg.DSI_DYNAMIC_REFRESH_PLL_CTRL21
      Reg.DSIPHY_PLL_DEC_START Reg.DSIPHY_PLL_DIV_FRAC_START1
      pout.dec_start (pout.div_frac_start &&& 0x0FF),
    Event.dyn_write dyn_pll_base Reg.DSI_DYNAMIC_REFRESH_PLL_CTRL22
      Reg.DSIPHY_PLL_DIV_FRAC_START2 Reg.DSIPHY_PLL_DIV_FRAC_START3
      ((pout.div_frac_start >>> 8) &&& 0x0FF) ((pout.div_frac_start >>> 16) &&& 0x0F),
    Event.dyn_write dyn_pll_base Reg.DSI_DYNAMIC_REFRESH_PLL_CTRL23
      Reg.DSIPHY_PLL_PLLLOCK_CMP1 Reg.DSIPHY_PLL_PLLLOCK_CMP2
      (pout.plllock_cmp &&& 0x0FF) ((pout.plllock_cmp >>> 8) &&& 0x0FF),
    Event.dyn_write dyn_pll_base Reg.DSI_DYNAMIC_REFRESH_PLL_CTRL24
      Reg.DSIPHY_PLL_PLLLOCK_CMP3 Reg.DSIPHY_PLL_PLL_VCO_TUNE
      ((pout.plllock_cmp >>> 16) &&& 0x03) (codes.2 ||| BIT 7),
    Event.dyn_write dyn_pll_base Reg.DSI_DYNAMIC_REFRESH_PLL_CTRL25
      Reg.DSIPHY_PLL_KVCO_CODE Reg.DSIPHY_PLL_RESETSM_CNTRL
      (codes.1 ||| BIT 5) 0x38,
    Event.dyn_write dyn_pll_base Reg.DSI_DYNAMIC_REFRESH_PLL_CTRL26
      Reg.DSIPHY_PLL_PLL_LPF2_POSTDIV Reg.DSIPHY_CMN_PLL_CNTRL
      (to_u32 (to_u32 (pout.pll_postdiv + 2 ^ 32 - 1) <<< 4) ||| pin.pll_lpf_res1) 0x01,
    Event.dyn_write dyn_pll_base Reg.DSI_DYNAMIC_REFRESH_PLL_CTRL27
      Reg.DSIPHY_CMN_PLL_CNTRL Reg.DSIPHY_CMN_PLL_CNTRL 0x01 0x01,
    Event.dyn_write dyn_pll_base Reg.DSI_DYNAMIC_REFRESH_PLL_CTRL28
      Reg.DSIPHY_CMN_PLL_CNTRL Reg.DSIPHY_CMN_PLL_CNTRL 0x01 0x01,
    Event.dyn_write dyn_pll_base Reg.DSI_DYNAMIC_REFRESH_PLL_CTRL29
      Reg.DSIPHY_CMN_PLL_CNTRL Reg.DSIPHY_CMN_PLL_CNTRL 0x01 0x01,
    reg_w dyn_pll_base Reg.DSI_DYNAMIC_REFRESH_PLL_UPPER_ADDR 0x0000001E,
    reg_w dyn_pll_base Reg.DSI_DYNAMIC_REFRESH_PLL_UPPER_ADDR2 0x001FFE00,
    Event.wmb ]

/-- The function `shadow_pll_dynamic_refresh_14nm(pll, pdb)`. -/
def shadow_pll_dynamic_refresh_14nm (w : World) (pll pdb : Nat) : World :=
  w.run (shadow_pll_dynamic_refresh_14nm_seq (w.plls pll) (w.pdbs pdb))

/-- The function `shadow_pll_vco_set_rate_14nm(hw, rate, parent_rate)`; `vco` is the clock of
`hw`, and `vco.priv = none` is the null resource.  As in `pll_vco_set_rate_14nm` the resource
and the parameter block are updated as local values and stored back before the shadow
writes. -/
def shadow_pll_vco_set_rate_14nm (w : World) (vco : dsi_pll_vco_clk) (rate : Nat)
    (_parent_rate : Nat) : Option (Int × World) :=
  let vco_clk_rate : Int := to_s64 (to_u64 rate)
  match vco.priv with
  | none => some (-EINVAL, w)
  | some pll =>
    match (w.plls pll).priv with
    | none => some (-EINVAL, w)
    | some pdb =>
      let (rc, w) := dsi_pll_read_stored_trim_codes w pll vco_clk_rate
      if rc ≠ 0 then some (-EINVAL, w)
      else do
        let r := { w.plls pll with
          vco_current_rate := to_s64 (to_u64 rate)
          vco_ref_clk_rate := to_s64 (to_u64 vco.ref_clk_rate) }
        let d := dsi_pll_14nm_input_init r (w.pdbs pdb)
        let d ← pll_14nm_dec_frac_calc r d
        let d ← pll_14nm_calc_vco_count d r.vco_current_rate r.vco_ref_clk_rate
        let w := (w.set_pll pll r).set_pdb pdb d
        let w := shadow_pll_dynamic_refresh_14nm w pll pdb
        pure (rc, w)

/-- The function `pll_vco_round_rate_14nm(hw, rate, parent_rate)`.  The result is the returned
`long` and the value stored in `*parent_rate` (`none` when it is not written); the division
faults when the divisor of `do_div` is zero. -/
def pll_vco_round_rate_14nm (vco : dsi_pll_vco_clk) (rate : Nat) :
    Option (Int × Option Nat) := do
  let rrate := to_u64 rate
  let div := to_u64 vco.min_rate
  let div ← do_div div (to_u64 rate)
  if div > 15 then
    -- rate < 86.67 Mhz
    pure (-EINVAL, none)
  else
    let rrate := if to_u64 rate < to_u64 vco.min_rate then to_u64 vco.min_rate else rrate
    let rrate := if to_u64 rate > to_u64 vco.max_rate then to_u64 vco.max_rate else rrate
    pure (to_s64 rrate, some rrate)

/-! ## Specification side -/

/-- Modelled from the spec: the ceiling of `a / b` on natural numbers, the quotient plus one
exactly when the remainder is non-zero. -/
def ceil_div (a b : Nat) : Nat := a / b + if a % b = 0 then 0 else 1

/-! ## Sample state -/

/-- An input section with the fixed values of `dsi_pll_14nm_input_init` not yet applied. -/
def sample_input : dsi_pll_input :=
  { fref := 0, fdata := 0, dsiclk_sel := 0, ssc_en := 0, ldo_en := 0, refclk_dbler_en := 0,
    vco_measure_time := 0, kvco_measure_time := 0, bandgap_timer := 0, pll_wakeup_timer := 0,
    plllock_cnt := 0, plllock_rng := 0, ssc_center := 0, ssc_adj_period := 0, ssc_spread := 0,
    ssc_freq := 0, pll_ie_trim := 0, pll_ip_trim := 0, pll_iptat_trim := 0, pll_cpcset_cur := 0,
    pll_cpmset_cur := 0, pll_icpmset := 0, pll_icpcset := 0, pll_icpmset_p := 0,
    pll_icpmset_m := 0, pll_icpcset_p := 0, pll_icpcset_m := 0, pll_lpf_res1 := 0,
    pll_lpf_cap1 := 0, pll_lpf_cap2 := 0, pll_c3ctrl := 0, pll_r3ctrl := 0 }

/-- An output section with every field cleared. -/
def sample_output : dsi_pll_output :=
  { pll_txclk_en := 0, dec_start := 0, div_frac_start := 0, ssc_period := 0, ssc_step_size := 0,
    plllock_cmp := 0, pll_vco_div_ref := 0, pll_vco_count := 0, pll_kvco_div_ref := 0,
    pll_kvco_count := 0, pll_misc1 := 0, pll_resetsm_cntrl := 0, pll_resetsm_cntrl2 := 0,
    pll_resetsm_cntrl5 := 0, pll_kvco_code := 0, cmn_ldo_cntrl := 0, pll_postdiv := 0,
    pll_n1div := 0, pll_n2div := 0 }

/-- The parameter block of instance `i` of a two-PLL device: its neighbour is `1 - i`. -/
def sample_db (i : Nat) : dsi_pll_db :=
  { next := 1 - i, pll := some i, source_setup_done := 0, inp := sample_input,
    out := sample_output }

/-- The resource of instance `i`: register blocks `i` (live) and `i + 2` (dynamic refresh),
no trim-code table, no slave, power domain on. -/
def sample_pll (i : Nat) : dsi_pll_resource :=
  { pll_base := i, dyn_pll_base := i + 2, index := i, revision := 2,
    vco_current_rate := 0, vco_ref_clk_rate := 0, vco_cached_rate := 0,
    pll_on := false, handoff_resources := false,
    ssc_en := false, ssc_center := false, ssc_ppm := 0, ssc_freq := 0,
    cache_pll_trim_codes := (0, 0), dfps := none, slave := none, priv := some i,
    gdsc_disabled := false }

/-- A freshly probed device: cleared registers, a status register that never reports a bit. -/
def sample_world : World :=
  { plls := sample_pll, pdbs := sample_db, mmio := fun _ _ => 0, status := fun _ _ => 0,
    nreads := fun _ => 0, trace := [] }

/-- The VCO clock of instance 0: 19.2 MHz reference, 1.3 GHz to 2.6 GHz VCO range, one enable
sequence. -/
def sample_vco : dsi_pll_vco_clk :=
  { ref_clk_rate := 19200000, min_rate := 1300000000, max_rate := 2600000000, priv := some 0,
    pll_en_seq_cnt := 1, pll_enable_seqs := [dsi_pll_enable_seq_14nm] }

/-- The sample device with the power domain of every block switched off. -/
def sample_world_off : World :=
  { sample_world with plls := fun i => { sample_pll i with gdsc_disabled := true } }

/-- A trim-code table whose single entry is not valid and is stored for 1.0 GHz. -/
def sample_dfps_invalid : dfps_info :=
  { vco_rate_cnt := 1,
    codes_dfps := [{ is_valid := 0, clk_rate := 1000000000, pll_codes_1 := 7, pll_codes_2 := 9 }] }

/-- The sample device with the table `sample_dfps_invalid` attached to every instance. -/
def sample_world_dfps : World :=
  { sample_world with plls := fun i => { sample_pll i with dfps := some sample_dfps_invalid } }

/-- A trim-code table with one valid entry, stored for 1.5 GHz. -/
def sample_dfps_valid : dfps_info :=
  { vco_rate_cnt := 1,
    codes_dfps := [{ is_valid := 1, clk_rate := 1500000000, pll_codes_1 := 3, pll_codes_2 := 5 }] }

/-- The sample device with the table `sample_dfps_valid` attached to every instance. -/
def sample_world_valid : World :=
  { sample_world with plls := fun i => { sample_pll i with dfps := some sample_dfps_valid } }

/-- The sample device with a status register that reports ready (bit 5) and locked (bit 0) on
every read. -/
def sample_world_locked : World :=
  { sample_world with status := fun _ _ => 0x21 }

/-- The sample device with a status register that reports ready (bit 5) on its third read and
locked (bit 0) from the fourth read on. -/
def sample_world_slow : World :=
  { sample_world with
    status := fun _ k => if k < 2 then 0 else if k = 2 then 0x20 else 0x21 }

/-- A clock of instance 0 without any enable sequence. -/
def sample_vco_noseq : dsi_pll_vco_clk :=
  { sample_vco with pll_en_seq_cnt := 0, pll_enable_seqs := [] }

/-- An enable sequence that leaves the mark `mark` in `PLL_VREF_CFG1` of block 0 and returns
`rc`. -/
def sample_seq (rc : Int) (mark : Nat) : World → Option Nat → Int × World :=
  fun w _ => (rc, DSI_PLL_REG_W w 0 Reg.DSIPHY_PLL_VREF_CFG1 mark)

/-- A clock of instance 0 with two enable sequences that fail with different codes. -/
def sample_vco_fail : dsi_pll_vco_clk :=
  { sample_vco with
    pll_en_seq_cnt := 2
    pll_enable_seqs := [sample_seq (-5) 1, sample_seq (-7) 2] }

/-- A clock of instance 0 with three enable sequences, the second of which succeeds. -/
def sample_vco_three : dsi_pll_vco_clk :=
  { sample_vco with
    pll_en_seq_cnt := 3
    pll_enable_seqs := [sample_seq (-5) 1, sample_seq 0 2, sample_seq (-7) 3] }

/-- The sample device with the PLL of every instance switched on. -/
def sample_world_on : World :=
  { sample_world with
    plls := fun i => { sample_pll i with pll_on := true, handoff_resources := true } }

/-- The sample device wired as a split-display pair: block 0 has both buffers enabled with
source left (master), block 1 has no buffer enabled with source right (slave). -/
def sample_world_pair : World :=
  { sample_world with
    mmio := fun b r =>
      if b = 0 ∧ r = Reg.DSIPHY_PLL_CLKBUFLR_EN then 3
      else if b = 1 ∧ r = Reg.DSIPHY_CMN_GLBL_TEST_CTRL then 4
      else 0 }

/-- The sample device whose parameter blocks hold the lock comparator value 2^18. -/
def sample_world_cmp : World :=
  { sample_world with
    pdbs := fun i => { sample_db i with out := { sample_output with plllock_cmp := 262144 } } }

/-- The resource of instance 0 with the VCO rate `rate` and the 19.2 MHz reference stored. -/
def sample_pll_rate (rate : Int) : dsi_pll_resource :=
  { sample_pll 0 with vco_current_rate := rate, vco_ref_clk_rate := 19200000 }

/-- The parameter block of instance 0 after `dsi_pll_14nm_input_init`. -/
def sample_db_init : dsi_pll_db := dsi_pll_14nm_input_init (sample_pll 0) (sample_db 0)

/-- The wired sample pair with spread spectrum enabled on the slave (instance 1) only. -/
def sample_world_pair_ssc : World :=
  { sample_world_pair with plls := fun i => { sample_pll i with ssc_en := decide (i = 1) } }

/-- The sample device with a valid trim-code table and the dividers N1 = 3 and N2 = 2 stored in
every parameter block. -/
def sample_world_div : World :=
  { sample_world_valid with
    pdbs := fun i => { sample_db i with
      out := { sample_output with pll_n1div := 3, pll_n2div := 2 } } }

/-- A resource with spread spectrum enabled: 31.5 kHz modulation frequency, 5000 ppm spread,
the 19.2 MHz reference and the given VCO rate. -/
def sample_pll_ssc (rate : Int) : dsi_pll_resource :=
  { sample_pll_rate rate with ssc_en := true, ssc_freq := 31500, ssc_ppm := 5000 }

/-- The parameter block of the spread-spectrum sample after `dsi_pll_14nm_input_init`. -/
def sample_db_ssc : dsi_pll_db := dsi_pll_14nm_input_init (sample_pll_ssc 0) (sample_db 0)

/-! ## Arithmetic of the helpers on in-range operands -/

theorem to_s64_of_nat (a : Nat) (ha : a < 2 ^ 63) : to_s64 (a : Int) = a := by
  unfold to_s64; omega

theorem to_s32_of_nat (a : Nat) (ha : a < 2 ^ 31) : to_s32 (a : Int) = a := by
  unfold to_s32; omega

theorem int_to_u64_of_nat (a : Nat) (ha : a < 2 ^ 64) : int_to_u64 (a : Int) = a := by
  unfold int_to_u64; omega

theorem int_to_u32_of_nat (a : Nat) (ha : a < 2 ^ 32) : int_to_u32 (a : Int) = a := by
  unfold int_to_u32; omega

theorem to_u64_of_lt (a : Nat) (ha : a < 2 ^ 64) : to_u64 a = a := by
  unfold to_u64; omega

theorem to_u32_of_lt (a : Nat) (ha : a < 2 ^ 32) : to_u32 a = a := by
  unfold to_u32; omega

theorem div_s64_of_nat (a b : Nat) (ha : a < 2 ^ 63) (hb0 : 0 < b) (hb : b < 2 ^ 31) :
    div_s64 (a : Int) (b : Int) = some ((a / b : Nat) : Int) := by
  have hq : a / b < 2 ^ 63 := lt_of_le_of_lt (Nat.div_le_self a b) ha
  have hb1 : to_s32 (b : Int) ≠ 0 := by rw [to_s32_of_nat b hb]; omega
  unfold div_s64
  rw [if_neg hb1, to_s32_of_nat b hb, to_s64_of_nat a ha,
    Int.tdiv_eq_ediv (by omega) (by omega), ← Int.natCast_div, to_s64_of_nat _ hq]

theorem div_s64_rem_of_nat (a b : Nat) (ha : a < 2 ^ 63) (hb0 : 0 < b) (hb : b < 2 ^ 31) :
    div_s64_rem (a : Int) (b : Int) = some (((a / b : Nat) : Int), ((a % b : Nat) : Int)) := by
  have hq : a / b < 2 ^ 63 := lt_of_le_of_lt (Nat.div_le_self a b) ha
  have hr : a % b < 2 ^ 31 := lt_trans (Nat.mod_lt a hb0) hb
  have hb1 : to_s32 (b : Int) ≠ 0 := by rw [to_s32_of_nat b hb]; omega
  unfold div_s64_rem
  rw [if_neg hb1, to_s32_of_nat b hb, to_s64_of_nat a ha,
    Int.tdiv_eq_ediv (by omega) (by omega), Int.tmod_eq_emod (by omega) (by omega),
    ← Int.natCast_div, ← Int.natCast_mod, to_s64_of_nat _ hq, to_s32_of_nat _ hr]

theorem div_u64_of_lt (a b : Nat) (hb0 : 0 < b) (hb : b < 2 ^ 32) :
    div_u64 a b = some (to_u64 a / b) := by
  unfold div_u64
  rw [to_u32_of_lt b hb, if_neg (by omega)]

theorem do_div_of_lt (a b : Nat) (hb0 : 0 < b) (hb : b < 2 ^ 32) :
    do_div a b = some (to_u64 a / b) := by
  unfold do_div
  rw [to_u32_of_lt b hb, if_neg (by omega)]

/-- Closed form of `pll_14nm_dec_frac_calc` on in-range rates. -/
theorem pll_14nm_dec_frac_calc_eq (pll : dsi_pll_resource) (pdb : dsi_pll_db) (R F : Nat)
    (hR : pll.vco_current_rate = (R : Int)) (hF : pll.vco_ref_clk_rate = (F : Int))
    (hF0 : 0 < F) (hF1 : F < 2 ^ 31) (hRb : R * 2 ^ 20 < 2 ^ 63) :
    pll_14nm_dec_frac_calc pll pdb = some { pdb with out := { pdb.out with
      dec_start := to_u32 (R * 2 ^ 20 / F / 2 ^ 20)
      div_frac_start := R * 2 ^ 20 / F % 2 ^ 20
      plllock_cmp := to_u32 (to_u64 (int_to_u64
          (if pdb.inp.plllock_cnt = 0 then 1024
           else if pdb.inp.plllock_cnt = 1 then 256
           else if pdb.inp.plllock_cnt = 2 then 128
           else 32) * (R * 2 ^ 20 / F)) / 2 ^ 20 / 10)
      pll_txclk_en := 1
      cmn_ldo_cntrl := if pll.revision = 2 then 0x3c else 0x1c } } := by
  have hR63 : R < 2 ^ 63 := by omega
  have hM : R * 2 ^ 20 / F < 2 ^ 63 := lt_of_le_of_lt (Nat.div_le_self _ _) hRb
  have hD : R * 2 ^ 20 / F / 2 ^ 20 < 2 ^ 63 := lt_of_le_of_lt (Nat.div_le_self _ _) hM
  have hFr : R * 2 ^ 20 / F % 2 ^ 20 < 2 ^ 32 := by omega
  have hF63 : F < 2 ^ 63 := by omega
  have h20 : ((2 : Nat) ^ 20 : Int) = ((2 ^ 20 : Nat) : Int) := by norm_num
  unfold pll_14nm_dec_frac_calc
  simp only [hR, hF, BIT, to_s64_of_nat R hR63, to_s64_of_nat F hF63,
    int_to_u64_of_nat R (by omega), to_u64_of_lt (R * 2 ^ 20) (by omega),
    div_s64_of_nat (R * 2 ^ 20) F hRb hF0 hF1, Option.bind_eq_bind, Option.some_bind,
    int_to_u64_of_nat (R * 2 ^ 20 / F) (by omega),
    div_s64_rem_of_nat (R * 2 ^ 20 / F) (2 ^ 20) hM (by norm_num) (by norm_num),
    div_s64_of_nat (R * 2 ^ 20 / F) (2 ^ 20) hM (by norm_num) (by norm_num),
    int_to_u64_of_nat (R * 2 ^ 20 / F / 2 ^ 20) (by omega),
    int_to_u32_of_nat (R * 2 ^ 20 / F % 2 ^ 20) hFr]
  have hlt : ∀ x : Nat, to_u64 x < 2 ^ 64 := fun x => Nat.mod_lt _ (by norm_num)
  have hdiv : ∀ x : Nat, to_u64 (to_u64 (to_u64 x) / 2 ^ 20) = to_u64 x / 2 ^ 20 := by
    intro x
    rw [to_u64_of_lt (to_u64 x) (hlt x)]
    exact to_u64_of_lt _ (lt_of_le_of_lt (Nat.div_le_self _ _) (hlt x))
  rw [div_u64_of_lt _ (2 ^ 20) (by norm_num) (by norm_num), Option.some_bind,
    do_div_of_lt _ 10 (by norm_num) (by norm_num), Option.some_bind, hdiv]
  rfl

/-! ## Bit fields -/

theorem and_mod_two_pow (a b n : Nat) : (a &&& b) % 2 ^ n = a % 2 ^ n &&& b % 2 ^ n := by
  apply Nat.eq_of_testBit_eq
  intro i
  simp only [Nat.testBit_mod_two_pow, Nat.testBit_and]
  cases decide (i < n) <;> simp

theorem or_mod_two_pow (a b n : Nat) : (a ||| b) % 2 ^ n = a % 2 ^ n ||| b % 2 ^ n := by
  apply Nat.eq_of_testBit_eq
  intro i
  simp only [Nat.testBit_mod_two_pow, Nat.testBit_or]
  cases decide (i < n) <;> simp

theorem shiftRight_and (a b n : Nat) : (a &&& b) >>> n = a >>> n &&& b >>> n := by
  apply Nat.eq_of_testBit_eq
  intro i
  simp only [Nat.testBit_shiftRight, Nat.testBit_and]

theorem shiftRight_or (a b n : Nat) : (a ||| b) >>> n = a >>> n ||| b >>> n := by
  apply Nat.eq_of_testBit_eq
  intro i
  simp only [Nat.testBit_shiftRight, Nat.testBit_or]

theorem and_15 (x : Nat) : x &&& 15 = x % 16 := Nat.and_pow_two_sub_one_eq_mod x 4

/-- Bits 0-3 of the value written by `post_n1_div_set_div`. -/
theorem n1_field (v d : Nat) :
    to_u32 (to_u32 (v &&& 0xFFFFFFF0 ||| d &&& 0xf)) &&& 0xF = d % 16 := by
  have h : (2 : Nat) ^ 4 ∣ 2 ^ 32 := Nat.pow_dvd_pow 2 (by norm_num)
  have e : (16 : Nat) = 2 ^ 4 := by norm_num
  rw [and_15, and_15]
  unfold to_u32
  rw [e, Nat.mod_mod_of_dvd _ h, Nat.mod_mod_of_dvd _ h, or_mod_two_pow, and_mod_two_pow]
  norm_num

/-- Bits 4-7 of the value written by `n2_div_set_div`. -/
theorem n2_field (v d : Nat) (hd : d < 16) :
    (to_u32 (to_u32 (v &&& 0xFFFFFF0F ||| to_u32 (d <<< 4))) >>> 4) &&& 0x0f = d := by
  have e : (16 : Nat) = 2 ^ 4 := by norm_num
  have e32 : (2 : Nat) ^ 32 = 2 ^ 4 * 2 ^ 28 := by norm_num
  have h : (2 : Nat) ^ 4 ∣ 2 ^ 28 := Nat.pow_dvd_pow 2 (by norm_num)
  have hs : to_u32 (d <<< 4) = d * 16 := by
    unfold to_u32; rw [Nat.shiftLeft_eq]; omega
  rw [and_15, hs]
  unfold to_u32
  rw [Nat.mod_mod, Nat.shiftRight_eq_div_pow, e32, Nat.mod_mul_right_div_self, e,
    Nat.mod_mod_of_dvd _ h, ← Nat.shiftRight_eq_div_pow, shiftRight_or, shiftRight_and,
    or_mod_two_pow, and_mod_two_pow]
  have h2 : (d * 2 ^ 4) >>> 4 = d := by
    rw [Nat.shiftRight_eq_div_pow]; omega
  have h3 : (0xFFFFFF0F >>> 4) % 2 ^ 4 = 0 := by decide
  rw [h2, h3, Nat.and_zero, Nat.zero_or]
  exact Nat.mod_eq_of_lt (by omega)

/-! ## Hardware actions -/

theorem emit_plls (w : World) (e : Event) : (w.emit e).plls = w.plls := by
  unfold World.emit; split
  · rfl
  · split <;> rfl
  · rfl

theorem emit_pdbs (w : World) (e : Event) : (w.emit e).pdbs = w.pdbs := by
  unfold World.emit; split
  · rfl
  · split <;> rfl
  · rfl

theorem emit_status (w : World) (e : Event) : (w.emit e).status = w.status := by
  unfold World.emit; split
  · rfl
  · split <;> rfl
  · rfl

theorem emit_trace (w : World) (e : Event) : (w.emit e).trace = w.trace ++ [e] := by
  unfold World.emit; split
  · rfl
  · split <;> rfl
  · rfl

theorem emit_write_mmio (w : World) (base : Nat) (reg : Reg) (val : Nat) (b : Nat) (r : Reg) :
    (w.emit (Event.write base reg val)).mmio b r =
      if b = base ∧ r = reg then val else w.mmio b r := rfl

theorem emit_mmio_of_not_write (w : World) (e : Event)
    (h : ∀ base reg val, e ≠ Event.write base reg val) : (w.emit e).mmio = w.mmio := by
  unfold World.emit; split
  · exact absurd rfl (h _ _ _)
  · split <;> rfl
  · rfl

theorem emit_read_mmio (w : World) (base : Nat) (reg : Reg) (val : Nat) :
    (w.emit (Event.read base reg val)).mmio = w.mmio :=
  emit_mmio_of_not_write w _ (by intro _ _ _ h; cases h)

theorem run_nil (w : World) : w.run [] = w := rfl

theorem run_cons (w : World) (e : Event) (es : List Event) :
    w.run (e :: es) = (w.emit e).run es := rfl

theorem run_append (w : World) (es fs : List Event) : w.run (es ++ fs) = (w.run es).run fs := by
  unfold World.run; rw [List.foldl_append]

theorem run_plls (es : List Event) : ∀ w : World, (w.run es).plls = w.plls := by
  induction es with
  | nil => intro w; rfl
  | cons e es ih => intro w; rw [run_cons, ih, emit_plls]

theorem run_pdbs (es : List Event) : ∀ w : World, (w.run es).pdbs = w.pdbs := by
  induction es with
  | nil => intro w; rfl
  | cons e es ih => intro w; rw [run_cons, ih, emit_pdbs]

theorem run_trace (es : List Event) : ∀ w : World, (w.run es).trace = w.trace ++ es := by
  induction es with
  | nil => intro w; simp [run_nil]
  | cons e es ih => intro w; rw [run_cons, ih, emit_trace]; simp

theorem DSI_PLL_REG_R_of_ne (w : World) (base : Nat) (reg : Reg)
    (h : reg ≠ Reg.DSIPHY_PLL_RESET_SM_READY_STATUS) :
    DSI_PLL_REG_R w base reg = (to_u32 (w.mmio base reg),
      w.emit (Event.read base reg (to_u32 (w.mmio base reg)))) := by
  simp only [DSI_PLL_REG_R, if_neg h]

theorem DSI_PLL_REG_R_CLK_CFG0 (w : World) (base : Nat) :
    DSI_PLL_REG_R w base Reg.DSIPHY_CMN_CLK_CFG0 =
      (to_u32 (w.mmio base Reg.DSIPHY_CMN_CLK_CFG0), w.emit
        (Event.read base Reg.DSIPHY_CMN_CLK_CFG0 (to_u32 (w.mmio base Reg.DSIPHY_CMN_CLK_CFG0)))) :=
  DSI_PLL_REG_R_of_ne w base _ (by decide)

/-! ## Divider callbacks: effect of the set callbacks and value of the get callbacks -/

theorem post_n1_div_set_div_spec (w : World) (pll pdb reg div : Nat)
    (hp : (w.plls pll).priv = some pdb) :
    ∃ w1, post_n1_div_set_div w pll reg div = some (0, w1) ∧ w1.plls = w.plls ∧
      w1.mmio (w.plls pll).pll_base Reg.DSIPHY_CMN_CLK_CFG0 =
        to_u32 (to_u32 (w.mmio (w.plls pll).pll_base Reg.DSIPHY_CMN_CLK_CFG0) &&& 0xFFFFFFF0
          ||| to_u32 (to_u32 div + 1) &&& 0xf) :=
  ⟨_, by simp only [post_n1_div_set_div, hp, Option.bind_eq_bind, Option.some_bind]; rfl,
    by simp only [DSI_PLL_REG_R_CLK_CFG0, DSI_PLL_REG_W, wmb, emit_plls, World.set_pdb],
    by simp [DSI_PLL_REG_R_CLK_CFG0, DSI_PLL_REG_W, wmb, emit_plls, emit_write_mmio,
      emit_read_mmio, emit_mmio_of_not_write, World.set_pdb]⟩

theorem post_n1_div_get_div_spec (w : World) (pll pdb reg : Nat)
    (hg : is_gdsc_disabled w pll = false) (hp : (w.plls pll).priv = some pdb) :
    ∃ w1, post_n1_div_get_div w pll reg = some (0,
        some (if to_u32 (w.mmio (w.plls pll).pll_base Reg.DSIPHY_CMN_CLK_CFG0) &&& 0xF = 0 then 1
          else (to_u32 (w.mmio (w.plls pll).pll_base Reg.DSIPHY_CMN_CLK_CFG0) &&& 0xF) - 1), w1) ∧
      (w1.pdbs pdb).out.pll_n1div =
        to_u32 (w.mmio (w.plls pll).pll_base Reg.DSIPHY_CMN_CLK_CFG0) &&& 0xF ∧
      w1.trace = w.trace ++ [Event.read (w.plls pll).pll_base Reg.DSIPHY_CMN_CLK_CFG0
        (to_u32 (w.mmio (w.plls pll).pll_base Reg.DSIPHY_CMN_CLK_CFG0))] :=
  ⟨_, by simp only [post_n1_div_get_div, hg, DSI_PLL_REG_R_CLK_CFG0, emit_plls, hp,
      Option.bind_eq_bind, Option.some_bind]; rfl,
    by simp [World.set_pdb], by simp [emit_trace, World.set_pdb]⟩

theorem n2_div_set_div_spec (w : World) (pll pdb reg div : Nat)
    (hp : (w.plls pll).priv = some pdb) :
    ∃ w1, n2_div_set_div w pll reg div = some (0, w1) ∧ w1.plls = w.plls ∧
      w1.mmio (w.plls pll).pll_base Reg.DSIPHY_CMN_CLK_CFG0 =
        to_u32 (to_u32 (w.mmio (w.plls pll).pll_base Reg.DSIPHY_CMN_CLK_CFG0) &&& 0xFFFFFF0F
          ||| to_u32 (to_u32 (to_u32 div + 1) <<< 4)) := by
  cases hs : (w.plls pll).slave with
  | none =>
    exact ⟨_, by simp only [n2_div_set_div, DSI_PLL_REG_R_CLK_CFG0, DSI_PLL_REG_W, emit_plls, hs,
        hp, Option.bind_eq_bind, Option.some_bind]; rfl,
      by simp only [emit_plls, World.set_pdb],
      by simp [emit_plls, emit_write_mmio, emit_read_mmio, World.set_pdb]⟩
  | some slave =>
    exact ⟨_, by simp only [n2_div_set_div, DSI_PLL_REG_R_CLK_CFG0, DSI_PLL_REG_W, emit_plls, hs,
        hp, Option.bind_eq_bind, Option.some_bind]; rfl,
      by simp only [emit_plls, World.set_pdb],
      by simp [emit_plls, emit_write_mmio, emit_read_mmio, World.set_pdb]⟩

theorem n2_div_get_div_spec (w : World) (pll pdb reg : Nat)
    (hg : is_gdsc_disabled w pll = false) (hp : (w.plls pll).priv = some pdb) :
    ∃ w1 : World, n2_div_get_div w pll reg = some ((0 : Int),
        some (if (to_u32 (w.mmio (w.plls pll).pll_base Reg.DSIPHY_CMN_CLK_CFG0) >>> 4) &&& 0x0f = 0
          then 1
          else ((to_u32 (w.mmio (w.plls pll).pll_base Reg.DSIPHY_CMN_CLK_CFG0) >>> 4) &&& 0x0f) - 1),
        w1) ∧
      (w1.pdbs pdb).out.pll_n2div =
        (to_u32 (w.mmio (w.plls pll).pll_base Reg.DSIPHY_CMN_CLK_CFG0) >>> 4) &&& 0x0f ∧
      w1.trace = w.trace ++ [Event.read (w.plls pll).pll_base Reg.DSIPHY_CMN_CLK_CFG0
        (to_u32 (w.mmio (w.plls pll).pll_base Reg.DSIPHY_CMN_CLK_CFG0))] :=
  ⟨_, by simp only [n2_div_get_div, hg, DSI_PLL_REG_R_CLK_CFG0, emit_plls, hp,
      Option.bind_eq_bind, Option.some_bind]; rfl,
    by simp [World.set_pdb], by simp [emit_trace, World.set_pdb]⟩

/-! ## Divider callbacks: round trip, decoding, powered-down block -/

/-- C4: for the N1 pair and for the N2 pair, for every `n` in `[0, 14]`, every content of
`CMN_CLK_CFG0` and with the power domain enabled, `set_div(n)` followed by `get_div` returns
success with `*div = n`. -/
theorem div_set_get_round_trip (w : World) (pll pdb reg n : Nat)
    (hn : n ≤ 14) (hg : is_gdsc_disabled w pll = false) (hp : (w.plls pll).priv = some pdb) :
    (∃ w1 w2, post_n1_div_set_div w pll reg n = some (0, w1) ∧
        post_n1_div_get_div w1 pll reg = some (0, some n, w2)) ∧
    (∃ w1 w2, n2_div_set_div w pll reg n = some (0, w1) ∧
        n2_div_get_div w1 pll reg = some (0, some n, w2)) := by
  have hu : to_u32 (to_u32 n + 1) = n + 1 := by unfold to_u32; omega
  constructor
  · obtain ⟨w1, h1, hpl, hm⟩ := post_n1_div_set_div_spec w pll pdb reg n hp
    have hg1 : is_gdsc_disabled w1 pll = false := by
      unfold is_gdsc_disabled at hg ⊢; rw [hpl]; exact hg
    obtain ⟨w2, h2, -, -⟩ := post_n1_div_get_div_spec w1 pll pdb reg hg1 (by rw [hpl]; exact hp)
    refine ⟨w1, w2, h1, ?_⟩
    rw [h2, hpl, hm, n1_field, hu]
    have : (n + 1) % 16 = n + 1 := Nat.mod_eq_of_lt (by omega)
    simp [this]
  · obtain ⟨w1, h1, hpl, hm⟩ := n2_div_set_div_spec w pll pdb reg n hp
    have hg1 : is_gdsc_disabled w1 pll = false := by
      unfold is_gdsc_disabled at hg ⊢; rw [hpl]; exact hg
    obtain ⟨w2, h2, -, -⟩ := n2_div_get_div_spec w1 pll pdb reg hg1 (by rw [hpl]; exact hp)
    refine ⟨w1, w2, h1, ?_⟩
    rw [h2, hpl, hm, hu, n2_field _ (n + 1) (by omega)]
    simp

/-- C4 at `n = 5` on the sample device. -/
theorem div_set_get_round_trip_witness :
    (5 ≤ 14 ∧ is_gdsc_disabled sample_world 0 = false ∧ (sample_world.plls 0).priv = some 0) ∧
    ((∃ w1 w2, post_n1_div_set_div sample_world 0 0 5 = some (0, w1) ∧
        post_n1_div_get_div w1 0 0 = some (0, some 5, w2)) ∧
    (∃ w1 w2, n2_div_set_div sample_world 0 0 5 = some (0, w1) ∧
        n2_div_get_div w1 0 0 = some (0, some 5, w2))) :=
  ⟨⟨by decide, rfl, rfl⟩, div_set_get_round_trip sample_world 0 0 0 5 (by decide) rfl rfl⟩

/-- C5: with the power domain enabled, `post_n1_div_get_div` (field = bits 0-3 of
`CMN_CLK_CFG0`) and `n2_div_get_div` (field = bits 4-7) return 0 with `*div = 1` when the field
is 0 and `*div = field - 1` otherwise, and cache the raw field in `pll_n1div` / `pll_n2div`. -/
theorem div_get_decoding (w : World) (pll pdb reg : Nat)
    (hg : is_gdsc_disabled w pll = false) (hp : (w.plls pll).priv = some pdb) :
    (∃ w1, post_n1_div_get_div w pll reg = some (0,
        some (if to_u32 (w.mmio (w.plls pll).pll_base Reg.DSIPHY_CMN_CLK_CFG0) % 16 = 0 then 1
          else to_u32 (w.mmio (w.plls pll).pll_base Reg.DSIPHY_CMN_CLK_CFG0) % 16 - 1), w1) ∧
      (w1.pdbs pdb).out.pll_n1div =
        to_u32 (w.mmio (w.plls pll).pll_base Reg.DSIPHY_CMN_CLK_CFG0) % 16) ∧
    (∃ w1, n2_div_get_div w pll reg = some (0,
        some (if to_u32 (w.mmio (w.plls pll).pll_base Reg.DSIPHY_CMN_CLK_CFG0) / 16 % 16 = 0 then 1
          else to_u32 (w.mmio (w.plls pll).pll_base Reg.DSIPHY_CMN_CLK_CFG0) / 16 % 16 - 1), w1) ∧
      (w1.pdbs pdb).out.pll_n2div =
        to_u32 (w.mmio (w.plls pll).pll_base Reg.DSIPHY_CMN_CLK_CFG0) / 16 % 16) := by
  constructor
  · obtain ⟨w1, h1, hc, -⟩ := post_n1_div_get_div_spec w pll pdb reg hg hp
    rw [and_15] at h1 hc
    exact ⟨w1, h1, hc⟩
  · obtain ⟨w1, h1, hc, -⟩ := n2_div_get_div_spec w pll pdb reg hg hp
    rw [and_15, Nat.shiftRight_eq_div_pow] at h1 hc
    exact ⟨w1, h1, hc⟩

/-- C5 on the sample device, whose `CMN_CLK_CFG0` holds 0. -/
theorem div_get_decoding_witness :
    (is_gdsc_disabled sample_world 0 = false ∧ (sample_world.plls 0).priv = some 0) ∧
    ((∃ w1, post_n1_div_get_div sample_world 0 0 = some (0,
        some (if to_u32 (sample_world.mmio (sample_world.plls 0).pll_base
            Reg.DSIPHY_CMN_CLK_CFG0) % 16 = 0 then 1
          else to_u32 (sample_world.mmio (sample_world.plls 0).pll_base
            Reg.DSIPHY_CMN_CLK_CFG0) % 16 - 1), w1) ∧
      (w1.pdbs 0).out.pll_n1div =
        to_u32 (sample_world.mmio (sample_world.plls 0).pll_base Reg.DSIPHY_CMN_CLK_CFG0) % 16) ∧
    (∃ w1, n2_div_get_div sample_world 0 0 = some (0,
        some (if to_u32 (sample_world.mmio (sample_world.plls 0).pll_base
            Reg.DSIPHY_CMN_CLK_CFG0) / 16 % 16 = 0 then 1
          else to_u32 (sample_world.mmio (sample_world.plls 0).pll_base
            Reg.DSIPHY_CMN_CLK_CFG0) / 16 % 16 - 1), w1) ∧
      (w1.pdbs 0).out.pll_n2div =
        to_u32 (sample_world.mmio (sample_world.plls 0).pll_base
          Reg.DSIPHY_CMN_CLK_CFG0) / 16 % 16)) :=
  ⟨⟨rfl, rfl⟩, div_get_decoding sample_world 0 0 0 rfl rfl⟩

/-- C6: when `is_gdsc_disabled(pll)` is true, `post_n1_div_get_div` and `n2_div_get_div` return
0 with `*div` not written and the world unchanged: no register is read (the trace is the same)
and the cached `pll_n1div` / `pll_n2div` keep their values. -/
theorem div_get_powered_down (w : World) (pll reg : Nat)
    (hg : is_gdsc_disabled w pll = true) :
    post_n1_div_get_div w pll reg = some (0, none, w) ∧
    n2_div_get_div w pll reg = some (0, none, w) := by
  constructor
  · simp only [post_n1_div_get_div, hg, if_true]
  · simp only [n2_div_get_div, hg, if_true]

/-- C6 on the sample device with the power domain off. -/
theorem div_get_powered_down_witness :
    is_gdsc_disabled sample_world_off 0 = true ∧
    (post_n1_div_get_div sample_world_off 0 0 = some (0, none, sample_world_off) ∧
      n2_div_get_div sample_world_off 0 0 = some (0, none, sample_world_off)) :=
  ⟨rfl, div_get_powered_down sample_world_off 0 0 rfl⟩

/-! ## Fractional-N split -/

/-- C1 (amended): for every VCO rate `R ≥ 0` and reference rate `F` with `0 < F < 2^31`,
`R * 2^20 < 2^63` and `floor(R / F) < 2^32`, `pll_14nm_dec_frac_calc` stores `dec_start` and
`div_frac_start` with `dec_start * 2^20 + div_frac_start = floor(R * 2^20 / F)` and
`0 ≤ div_frac_start < 2^20`; hence `0 ≤ R/F - (dec_start + div_frac_start / 2^20) < 2^-20`. -/
theorem dec_frac_round_trip (pll : dsi_pll_resource) (pdb : dsi_pll_db) (R F : Nat)
    (hR : pll.vco_current_rate = (R : Int)) (hF : pll.vco_ref_clk_rate = (F : Int))
    (hF0 : 0 < F) (hF1 : F < 2 ^ 31) (hRb : R * 2 ^ 20 < 2 ^ 63) (hq : R / F < 2 ^ 32) :
    ∃ pdb', pll_14nm_dec_frac_calc pll pdb = some pdb' ∧
      pdb'.out.dec_start * 2 ^ 20 + pdb'.out.div_frac_start = R * 2 ^ 20 / F ∧
      pdb'.out.div_frac_start < 2 ^ 20 ∧
      0 ≤ (R : ℚ) / F - (pdb'.out.dec_start + (pdb'.out.div_frac_start : ℚ) / 2 ^ 20) ∧
      (R : ℚ) / F - (pdb'.out.dec_start + (pdb'.out.div_frac_start : ℚ) / 2 ^ 20) < 1 / 2 ^ 20 := by
  refine ⟨_, pll_14nm_dec_frac_calc_eq pll pdb R F hR hF hF0 hF1 hRb, ?_⟩
  have hdd : R * 2 ^ 20 / F / 2 ^ 20 = R / F := by
    rw [Nat.div_div_eq_div_mul, Nat.mul_div_mul_right _ _ (by norm_num)]
  have hsum : to_u32 (R * 2 ^ 20 / F / 2 ^ 20) * 2 ^ 20 + R * 2 ^ 20 / F % 2 ^ 20
      = R * 2 ^ 20 / F := by
    rw [to_u32_of_lt _ (by rw [hdd]; exact hq)]
    exact Nat.div_add_mod' _ _
  have hlo : R * 2 ^ 20 / F * F ≤ R * 2 ^ 20 := Nat.div_mul_le_self _ _
  have hhi : R * 2 ^ 20 < (R * 2 ^ 20 / F + 1) * F :=
    (Nat.div_lt_iff_lt_mul hF0).1 (Nat.lt_succ_self _)
  have hFq : (0 : ℚ) < F := by exact_mod_cast hF0
  have hval : ((to_u32 (R * 2 ^ 20 / F / 2 ^ 20) : ℕ) : ℚ) +
      ((R * 2 ^ 20 / F % 2 ^ 20 : ℕ) : ℚ) / 2 ^ 20 = ((R * 2 ^ 20 / F : ℕ) : ℚ) / 2 ^ 20 := by
    have h := congrArg (fun x : ℕ => (x : ℚ)) hsum
    simp only [Nat.cast_add, Nat.cast_mul, Nat.cast_pow, Nat.cast_ofNat] at h
    rw [← h]
    field_simp
  have hloq : ((R * 2 ^ 20 / F : ℕ) : ℚ) * F ≤ (R : ℚ) * 2 ^ 20 := by exact_mod_cast hlo
  have hhiq : (R : ℚ) * 2 ^ 20 < (((R * 2 ^ 20 / F : ℕ) : ℚ) + 1) * F := by exact_mod_cast hhi
  refine ⟨hsum, Nat.mod_lt _ (by norm_num), ?_, ?_⟩
  · show 0 ≤ (R : ℚ) / F - (((to_u32 (R * 2 ^ 20 / F / 2 ^ 20) : ℕ) : ℚ) +
      ((R * 2 ^ 20 / F % 2 ^ 20 : ℕ) : ℚ) / 2 ^ 20)
    rw [hval, sub_nonneg, div_le_div_iff₀ (by norm_num) hFq]
    exact hloq
  · show (R : ℚ) / F - (((to_u32 (R * 2 ^ 20 / F / 2 ^ 20) : ℕ) : ℚ) +
      ((R * 2 ^ 20 / F % 2 ^ 20 : ℕ) : ℚ) / 2 ^ 20) < 1 / 2 ^ 20
    rw [hval, sub_lt_iff_lt_add, ← add_div, div_lt_div_iff₀ hFq (by norm_num)]
    linarith

/-- C1 (amended) at `R = 1,500,000,000` and `F = 19,200,000`. -/
theorem dec_frac_round_trip_witness :
    (({ sample_pll 0 with vco_current_rate := 1500000000, vco_ref_clk_rate := 19200000 } :
        dsi_pll_resource).vco_current_rate = ((1500000000 : Nat) : Int) ∧
      ({ sample_pll 0 with vco_current_rate := 1500000000, vco_ref_clk_rate := 19200000 } :
        dsi_pll_resource).vco_ref_clk_rate = ((19200000 : Nat) : Int) ∧
      0 < 19200000 ∧ 19200000 < 2 ^ 31 ∧ 1500000000 * 2 ^ 20 < 2 ^ 63 ∧
      1500000000 / 19200000 < 2 ^ 32) ∧
    ∃ pdb', pll_14nm_dec_frac_calc
        { sample_pll 0 with vco_current_rate := 1500000000, vco_ref_clk_rate := 19200000 }
        (sample_db 0) = some pdb' ∧
      pdb'.out.dec_start * 2 ^ 20 + pdb'.out.div_frac_start = 1500000000 * 2 ^ 20 / 19200000 ∧
      pdb'.out.div_frac_start < 2 ^ 20 ∧
      0 ≤ ((1500000000 : Nat) : ℚ) / (19200000 : Nat) -
        (pdb'.out.dec_start + (pdb'.out.div_frac_start : ℚ) / 2 ^ 20) ∧
      ((1500000000 : Nat) : ℚ) / (19200000 : Nat) -
        (pdb'.out.dec_start + (pdb'.out.div_frac_start : ℚ) / 2 ^ 20) < 1 / 2 ^ 20 :=
  ⟨⟨rfl, rfl, by decide, by decide, by decide, by decide⟩,
    dec_frac_round_trip _ (sample_db 0) 1500000000 19200000 rfl rfl (by decide) (by decide)
      (by decide) (by decide)⟩

/-- C1 as stated fails: at `R = 2^32`, `F = 1` the bounds of the claim hold, the stored
`dec_start` and `div_frac_start` are both 0, and `floor(R * 2^20 / F) = 2^52`. -/
theorem dec_frac_round_trip_counterexample :
    ((0 : Int) ≤ 4294967296 ∧ (0 : Int) < 1 ∧ (1 : Int) < 2 ^ 31 ∧
      (4294967296 : Int) * 2 ^ 20 < 2 ^ 63) ∧
    (pll_14nm_dec_frac_calc
        { sample_pll 0 with vco_current_rate := 4294967296, vco_ref_clk_rate := 1 }
        (sample_db 0)).map (fun d => (d.out.dec_start, d.out.div_frac_start)) = some (0, 0) ∧
    0 * 2 ^ 20 + 0 ≠ 4294967296 * 2 ^ 20 / 1 := by
  refine ⟨⟨by decide, by decide, by decide, by decide⟩, by decide, by decide⟩

/-! ## KVCO slope -/

/-- C3 (failing input): the rate 2,300,000,000 lies strictly inside (1.3e9, 2.6e9) and
`pll_14nm_kvco_slop` returns 0 for it, while its neighbours get 400 and 280. -/
theorem kvco_slop_boundary_gap :
    1300000000 < 2300000000 ∧ 2300000000 < 2600000000 ∧
    pll_14nm_kvco_slop 2300000000 = 0 ∧
    pll_14nm_kvco_slop 2299999999 = 400 ∧ pll_14nm_kvco_slop 2300000001 = 280 := by
  decide

/-- The bands of `pll_14nm_kvco_slop` away from the rate 2,300,000,000. -/
theorem pll_14nm_kvco_slop_bands (v : Nat) :
    ((v ≤ 1300000000 ∨ 2600000000 ≤ v) → pll_14nm_kvco_slop v = 0) ∧
    ((1300000000 < v ∧ v ≤ 1800000000) → pll_14nm_kvco_slop v = 600) ∧
    ((1800000000 < v ∧ v < 2300000000) → pll_14nm_kvco_slop v = 400) ∧
    ((2300000000 < v ∧ v < 2600000000) → pll_14nm_kvco_slop v = 280) := by
  unfold pll_14nm_kvco_slop
  refine ⟨fun h => ?_, fun h => ?_, fun h => ?_, fun h => ?_⟩ <;> split_ifs <;> omega

/-! ## Round rate -/

/-- The contract of `pll_vco_round_rate_14nm` for requested rates that fit 32 bits. -/
theorem pll_vco_round_rate_14nm_of_lt (vco : dsi_pll_vco_clk) (rate : Nat)
    (h0 : 0 < rate) (h32 : rate < 2 ^ 32) (hmax : vco.max_rate < 2 ^ 64)
    (hmm : vco.min_rate ≤ vco.max_rate) :
    pll_vco_round_rate_14nm vco rate =
      if vco.min_rate / rate > 15 then some (-EINVAL, none)
      else some (((if rate < vco.min_rate then vco.min_rate
          else if rate > vco.max_rate then vco.max_rate else rate : Nat) : Int),
        some (if rate < vco.min_rate then vco.min_rate
          else if rate > vco.max_rate then vco.max_rate else rate)) := by
  have hr : to_u64 rate = rate := to_u64_of_lt _ (by omega)
  have hmn : to_u64 vco.min_rate = vco.min_rate := to_u64_of_lt _ (by omega)
  have hmx : to_u64 vco.max_rate = vco.max_rate := to_u64_of_lt _ hmax
  simp only [pll_vco_round_rate_14nm, hr, hmn, hmx, do_div_of_lt _ rate h0 h32,
    Option.bind_eq_bind, Option.some_bind]
  by_cases hd : vco.min_rate / rate > 15
  · rw [if_pos hd, if_pos hd]; rfl
  · rw [if_neg hd, if_neg hd]
    have hlt : vco.min_rate < 2 ^ 36 := by
      have := Nat.lt_succ_iff.2 (Nat.le_of_not_gt hd)
      have h2 := (Nat.div_lt_iff_lt_mul h0).1 this
      omega
    by_cases h1 : rate < vco.min_rate
    · have h2 : ¬ rate > vco.max_rate := by omega
      simp only [h1, h2, if_true, if_false]
      rw [to_s64_of_nat _ (by omega)]; rfl
    · by_cases h2 : rate > vco.max_rate
      · simp only [h1, h2, if_true, if_false]
        rw [to_s64_of_nat _ (by omega)]; rfl
      · simp only [h1, h2, if_false]
        rw [to_s64_of_nat _ (by omega)]; rfl

/-- C7 (failing input): for the requested rate 2^32 + 1 with `min_rate` 1.3 GHz and `max_rate`
2.6 GHz, `floor(min_rate / rate) = 0` is not above 15, yet `pll_vco_round_rate_14nm` returns
`-EINVAL` and does not write `*parent_rate`. -/
theorem round_rate_wide_rate :
    0 < 4294967297 ∧ sample_vco.min_rate ≤ sample_vco.max_rate ∧
    ¬ (sample_vco.min_rate / 4294967297 > 15) ∧
    pll_vco_round_rate_14nm sample_vco 4294967297 = some (-EINVAL, none) := by
  decide

/-! ## Stored trim codes -/

/-- On a table whose visited entries are all valid the loop is the lookup by rate: it returns
the codes of the first entry stored for the requested rate. -/
theorem dsi_pll_read_stored_trim_codes_loop_valid (rate : Int) (l : List dfps_codes_info)
    (hv : ∀ c ∈ l, c.is_valid ≠ 0) :
    dsi_pll_read_stored_trim_codes_loop rate l =
      (l.find? (fun c => decide ((c.clk_rate : Int) = rate))).map
        (fun c => (c.pll_codes_1, c.pll_codes_2)) := by
  induction l with
  | nil => rfl
  | cons c cs ih =>
    have hc : c.is_valid ≠ 0 := hv c (List.mem_cons_self _ _)
    have hcs : ∀ x ∈ cs, x.is_valid ≠ 0 := fun x hx => hv x (List.mem_cons_of_mem _ hx)
    rw [dsi_pll_read_stored_trim_codes_loop]
    by_cases h : (c.clk_rate : Int) = rate
    · have h1 : ¬ (rate ≠ (c.clk_rate : Int) ∧ c.is_valid ≠ 0) := fun hh => hh.1 h.symm
      rw [if_neg h1, List.find?_cons_of_pos _ (by simpa using h)]
      rfl
    · have h1 : rate ≠ (c.clk_rate : Int) ∧ c.is_valid ≠ 0 := ⟨fun hh => h hh.symm, hc⟩
      rw [if_pos h1, List.find?_cons_of_neg _ (by simpa using h), ih hcs]

/-- C8 (failing input): the table holds one entry, stored for 1.0 GHz and not valid; the lookup
for 1.5 GHz returns 0 and caches the codes of that entry although no entry has the requested
rate. -/
theorem trim_codes_invalid_entry :
    (∀ c ∈ sample_dfps_invalid.codes_dfps, (c.clk_rate : Int) ≠ 1500000000) ∧
    (dsi_pll_read_stored_trim_codes sample_world_dfps 0 1500000000).1 = 0 ∧
    ((dsi_pll_read_stored_trim_codes sample_world_dfps 0 1500000000).2.plls 0).cache_pll_trim_codes
      = (7, 9) := by
  refine ⟨by decide, by decide, by decide⟩

/-! ## Shadow set rate -/

theorem dsi_pll_read_stored_trim_codes_fail (w : World) (pll : Nat) (r : Int)
    (h : (dsi_pll_read_stored_trim_codes w pll r).1 ≠ 0) :
    dsi_pll_read_stored_trim_codes w pll r = (-EINVAL, w) := by
  unfold dsi_pll_read_stored_trim_codes at h ⊢
  cases hd : (w.plls pll).dfps with
  | none => simp only [hd]
  | some dfps =>
    simp only [hd] at h ⊢
    cases hl : dsi_pll_read_stored_trim_codes_loop r (dfps.codes_dfps.take dfps.vco_rate_cnt) with
    | none => simp only [hl]
    | some codes => simp only [hl] at h; exact absurd rfl h

theorem dsi_pll_read_stored_trim_codes_no_table (w : World) (pll : Nat) (r : Int)
    (h : (w.plls pll).dfps = none) :
    dsi_pll_read_stored_trim_codes w pll r = (-EINVAL, w) := by
  unfold dsi_pll_read_stored_trim_codes
  rw [h]

theorem shadow_set_rate_null_pll (w : World) (vco : dsi_pll_vco_clk) (rate parent_rate : Nat)
    (hv : vco.priv = none) :
    shadow_pll_vco_set_rate_14nm w vco rate parent_rate = some (-EINVAL, w) := by
  simp only [shadow_pll_vco_set_rate_14nm, hv]

theorem shadow_set_rate_null_priv (w : World) (vco : dsi_pll_vco_clk) (rate parent_rate : Nat)
    (pll : Nat) (hv : vco.priv = some pll) (hp : (w.plls pll).priv = none) :
    shadow_pll_vco_set_rate_14nm w vco rate parent_rate = some (-EINVAL, w) := by
  simp only [shadow_pll_vco_set_rate_14nm, hv, hp]

theorem shadow_set_rate_lookup_fail (w : World) (vco : dsi_pll_vco_clk) (rate parent_rate : Nat)
    (pll pdb : Nat) (hv : vco.priv = some pll) (hp : (w.plls pll).priv = some pdb)
    (hrc : (dsi_pll_read_stored_trim_codes w pll (to_s64 (to_u64 rate))).1 ≠ 0) :
    shadow_pll_vco_set_rate_14nm w vco rate parent_rate = some (-EINVAL, w) := by
  have hE : (-EINVAL : Int) ≠ 0 := by decide
  simp only [shadow_pll_vco_set_rate_14nm, hv, hp,
    dsi_pll_read_stored_trim_codes_fail w pll _ hrc, ne_eq, hE, not_false_eq_true, if_true]

theorem shadow_set_rate_lookup_ok (w : World) (vco : dsi_pll_vco_clk) (rate parent_rate : Nat)
    (pll pdb : Nat) (hv : vco.priv = some pll) (hp : (w.plls pll).priv = some pdb)
    (hrc : (dsi_pll_read_stored_trim_codes w pll (to_s64 (to_u64 rate))).1 = 0)
    (r : Int) (w1 : World)
    (h : shadow_pll_vco_set_rate_14nm w vco rate parent_rate = some (r, w1)) : r = 0 := by
  simp only [shadow_pll_vco_set_rate_14nm, hv, hp, hrc, ne_eq, not_true_eq_false, if_false,
    Option.bind_eq_bind, Option.bind_eq_some, Option.pure_def, Option.some.injEq,
    Prod.mk.injEq] at h
  obtain ⟨_, _, _, _, h3, _⟩ := h
  exact h3.symm

/-- C9: `shadow_pll_vco_set_rate_14nm` returns `-EINVAL` with the world unchanged for a null
resource, a null `priv`, a missing dfps table and a failed trim-code lookup; whenever it returns
`-EINVAL` the world is unchanged (no register or shadow-register write, and `vco_current_rate`,
`vco_ref_clk_rate`, `cache_pll_trim_codes` and the parameter block keep their values); whenever
it returns 0 the lookup succeeded. -/
theorem shadow_set_rate_failure_atomic (w : World) (vco : dsi_pll_vco_clk)
    (rate parent_rate : Nat) :
    ((vco.priv = none ∨ ∃ pll, vco.priv = some pll ∧ ((w.plls pll).priv = none ∨
        (w.plls pll).dfps = none ∨
        (dsi_pll_read_stored_trim_codes w pll (to_s64 (to_u64 rate))).1 ≠ 0)) →
      shadow_pll_vco_set_rate_14nm w vco rate parent_rate = some (-EINVAL, w)) ∧
    (∀ w1, shadow_pll_vco_set_rate_14nm w vco rate parent_rate = some (-EINVAL, w1) → w1 = w) ∧
    (∀ w1, shadow_pll_vco_set_rate_14nm w vco rate parent_rate = some (0, w1) →
      ∃ pll, vco.priv = some pll ∧
        (dsi_pll_read_stored_trim_codes w pll (to_s64 (to_u64 rate))).1 = 0) := by
  have hE : (-EINVAL : Int) ≠ 0 := by decide
  have inj : ∀ (a b : Int) (x y : World), some (a, x) = some (b, y) → a = b ∧ x = y := by
    intro a b x y h
    simpa using h
  cases hv : vco.priv with
  | none =>
    have hs := shadow_set_rate_null_pll w vco rate parent_rate hv
    refine ⟨fun _ => hs, fun w1 h => ?_, fun w1 h => ?_⟩
    · rw [hs] at h; exact (inj _ _ _ _ h).2.symm
    · rw [hs] at h; exact absurd (inj _ _ _ _ h).1 hE
  | some pll =>
    cases hp : (w.plls pll).priv with
    | none =>
      have hs := shadow_set_rate_null_priv w vco rate parent_rate pll hv hp
      refine ⟨fun _ => hs, fun w1 h => ?_, fun w1 h => ?_⟩
      · rw [hs] at h; exact (inj _ _ _ _ h).2.symm
      · rw [hs] at h; exact absurd (inj _ _ _ _ h).1 hE
    | some pdb =>
      by_cases hrc : (dsi_pll_read_stored_trim_codes w pll (to_s64 (to_u64 rate))).1 = 0
      · refine ⟨fun h => ?_, fun w1 h => ?_, fun w1 _ => ⟨pll, rfl, hrc⟩⟩
        · rcases h with h | ⟨p, h1, h2⟩
          · exact absurd h (by simp)
          · obtain rfl : pll = p := Option.some.inj h1
            rcases h2 with h2 | h2 | h2
            · rw [hp] at h2; exact absurd h2 (by simp)
            · rw [dsi_pll_read_stored_trim_codes_no_table w pll _ h2] at hrc
              exact absurd hrc hE
            · exact absurd hrc h2
        · exact absurd (shadow_set_rate_lookup_ok w vco rate parent_rate pll pdb hv hp hrc _ _ h) hE
      · have hs := shadow_set_rate_lookup_fail w vco rate parent_rate pll pdb hv hp hrc
        refine ⟨fun _ => hs, fun w1 h => ?_, fun w1 h => ?_⟩
        · rw [hs] at h; exact (inj _ _ _ _ h).2.symm
        · rw [hs] at h; exact absurd (inj _ _ _ _ h).1 hE

/-! ## Lock decision -/

theorem DSI_PLL_REG_R_snd (w : World) (base : Nat) (reg : Reg) :
    (DSI_PLL_REG_R w base reg).2 = w.emit (Event.read base reg (DSI_PLL_REG_R w base reg).1) :=
  rfl

theorem pollTimeout_plls (base : Nat) (reg : Reg) (mask : Nat) (n delayUs : Nat) :
    ∀ w : World, (pollTimeout w base reg mask n delayUs).2.plls = w.plls := by
  induction n with
  | zero => intro w; rfl
  | succ k ih =>
    intro w
    rw [pollTimeout]
    by_cases hc : (DSI_PLL_REG_R w base reg).1 &&& mask > 0
    · simp only [hc, if_true]
      rw [DSI_PLL_REG_R_snd, emit_plls]
    · simp only [hc, if_false]
      rw [ih, udelay, emit_plls, DSI_PLL_REG_R_snd, emit_plls]

theorem pollTimeout_trace (base : Nat) (reg : Reg) (mask : Nat) (n delayUs : Nat) :
    ∀ w : World, ∃ t, (pollTimeout w base reg mask n delayUs).2.trace = w.trace ++ t ∧
      ∀ e ∈ t, (∃ v, e = Event.read base reg v) ∨ e = Event.udelay delayUs := by
  induction n with
  | zero => intro w; exact ⟨[], by simp [pollTimeout], by simp⟩
  | succ k ih =>
    intro w
    have hv : (DSI_PLL_REG_R w base reg).2.trace =
        w.trace ++ [Event.read base reg (DSI_PLL_REG_R w base reg).1] := by
      rw [DSI_PLL_REG_R_snd, emit_trace]
    rw [pollTimeout]
    by_cases hc : (DSI_PLL_REG_R w base reg).1 &&& mask > 0
    · simp only [hc, if_true]
      exact ⟨[Event.read base reg (DSI_PLL_REG_R w base reg).1], hv, by simp⟩
    · simp only [hc, if_false]
      obtain ⟨t, ht, hall⟩ := ih (udelay (DSI_PLL_REG_R w base reg).2 delayUs)
      refine ⟨Event.read base reg (DSI_PLL_REG_R w base reg).1 :: Event.udelay delayUs :: t,
        ?_, ?_⟩
      · rw [ht, udelay, emit_trace, hv]; simp
      · intro e he
        simp only [List.mem_cons] at he
        rcases he with rfl | rfl | he
        · exact Or.inl ⟨_, rfl⟩
        · exact Or.inr rfl
        · exact hall e he

/-- C10: for a non-null `pll`, `dsi_pll_enable_seq_14nm` first writes `PLL_VREF_CFG1 = 0x10` and
then `CMN_PLL_CNTRL = 1` (what follows in the trace are status reads and delays only); it
returns 0 if and only if the poll of bit 5 of `PLL_RESET_SM_READY_STATUS` succeeds and the
subsequent poll of bit 0 succeeds, and `-EINVAL` otherwise; if the bit-5 poll times out the
final state is the one the bit-5 poll left (the bit-0 poll is not started); for a null `pll`
it returns `-EINVAL` with the world unchanged. -/
theorem enable_seq_lock_decision (w : World) (pll : Nat) :
    let base := (w.plls pll).pll_base
    let p5 := pollTimeout (dsi_pll_start_14nm w base) base Reg.DSIPHY_PLL_RESET_SM_READY_STATUS
      (BIT 5) DSI_PLL_POLL_MAX_READS DSI_PLL_POLL_TIMEOUT_US
    let p0 := pollTimeout p5.2 base Reg.DSIPHY_PLL_RESET_SM_READY_STATUS
      (BIT 0) DSI_PLL_POLL_MAX_READS DSI_PLL_POLL_TIMEOUT_US
    (∃ t, (dsi_pll_enable_seq_14nm w (some pll)).2.trace =
        w.trace ++ Event.write base Reg.DSIPHY_PLL_VREF_CFG1 0x10 ::
          Event.write base Reg.DSIPHY_CMN_PLL_CNTRL 1 :: t ∧
      ∀ e ∈ t, (∃ v, e = Event.read base Reg.DSIPHY_PLL_RESET_SM_READY_STATUS v) ∨
        e = Event.udelay DSI_PLL_POLL_TIMEOUT_US) ∧
    ((dsi_pll_enable_seq_14nm w (some pll)).1 = 0 ↔ (p5.1 = true ∧ p0.1 = true)) ∧
    ((dsi_pll_enable_seq_14nm w (some pll)).1 ≠ 0 →
      (dsi_pll_enable_seq_14nm w (some pll)).1 = -EINVAL) ∧
    (p5.1 = false → dsi_pll_enable_seq_14nm w (some pll) = (-EINVAL, p5.2)) ∧
    (p5.1 = true → (dsi_pll_enable_seq_14nm w (some pll)).2 = p0.2) ∧
    dsi_pll_enable_seq_14nm w none = (-EINVAL, w) := by
  intro base p5 p0
  have hE : (-EINVAL : Int) ≠ 0 := by decide
  have hb5 : (p5.2.plls pll).pll_base = base := by
    show ((pollTimeout _ _ _ _ _ _).2.plls pll).pll_base = base
    rw [pollTimeout_plls]; rfl
  have hdef : dsi_pll_enable_seq_14nm w (some pll) =
      if p5.1 = true then (if p0.1 = true then (0, p0.2) else (-EINVAL, p0.2))
      else (-EINVAL, p5.2) := by
    have key : ∀ r5 q : Bool × World,
        (match (if (!r5.1) = true then (false, r5.2) else
          match q with
          | (locked, w) => if (!locked) = true then (false, w) else (true, w)) with
        | (locked, w) => if (!locked) = true then (-EINVAL, w) else ((0 : Int), w)) =
        if r5.1 = true then (if q.1 = true then (0, q.2) else (-EINVAL, q.2))
        else (-EINVAL, r5.2) := by
      rintro ⟨a, x⟩ ⟨b, y⟩
      cases a <;> cases b <;> rfl
    unfold dsi_pll_enable_seq_14nm pll_is_pll_locked_14nm
    show (match (if (!p5.1) = true then (false, p5.2) else
        match pollTimeout p5.2 (p5.2.plls pll).pll_base Reg.DSIPHY_PLL_RESET_SM_READY_STATUS
          (BIT 0) DSI_PLL_POLL_MAX_READS DSI_PLL_POLL_TIMEOUT_US with
        | (locked, w) => if (!locked) = true then (false, w) else (true, w)) with
      | (locked, w) => if (!locked) = true then (-EINVAL, w) else (0, w)) = _
    rw [hb5]
    exact key p5 p0
  obtain ⟨t5, ht5, hall5⟩ := pollTimeout_trace base Reg.DSIPHY_PLL_RESET_SM_READY_STATUS (BIT 5)
    DSI_PLL_POLL_MAX_READS DSI_PLL_POLL_TIMEOUT_US (dsi_pll_start_14nm w base)
  obtain ⟨t0, ht0, hall0⟩ := pollTimeout_trace base Reg.DSIPHY_PLL_RESET_SM_READY_STATUS (BIT 0)
    DSI_PLL_POLL_MAX_READS DSI_PLL_POLL_TIMEOUT_US p5.2
  have hstart : (dsi_pll_start_14nm w base).trace =
      w.trace ++ [Event.write base Reg.DSIPHY_PLL_VREF_CFG1 0x10,
        Event.write base Reg.DSIPHY_CMN_PLL_CNTRL 1] := by
    simp [dsi_pll_start_14nm, DSI_PLL_REG_W, emit_trace, to_u32]
  refine ⟨?_, ?_, ?_, ?_, ?_, rfl⟩
  · rw [hdef]
    cases h5 : p5.1
    · refine ⟨t5, ?_, hall5⟩
      simp only [Bool.false_eq_true, if_false]
      show p5.2.trace = _
      rw [ht5, hstart]; simp
    · refine ⟨t5 ++ t0, ?_, ?_⟩
      · have : (if p0.1 = true then ((0 : Int), p0.2) else (-EINVAL, p0.2)).2 = p0.2 := by
          split <;> rfl
        simp only [if_true, this]
        show p0.2.trace = _
        rw [ht0, ht5, hstart]; simp
      · intro e he
        rcases List.mem_append.1 he with he | he
        · exact hall5 e he
        · exact hall0 e he
  · rw [hdef]
    cases h5 : p5.1 <;> cases h0 : p0.1 <;> simp [hE]
  · rw [hdef]
    cases h5 : p5.1 <;> cases h0 : p0.1 <;> simp
  · intro h5
    rw [hdef, h5]; simp
  · intro h5
    rw [hdef, h5]
    cases h0 : p0.1 <;> simp

/-! ## Live commit -/

theorem last_write_cons (base : Nat) (reg : Reg) (e : Event) (es : List Event) :
    last_write base reg (e :: es) =
      match last_write base reg es with
      | some v => some v
      | none =>
        match e with
        | Event.write b r v => if base = b ∧ reg = r then some v else none
        | _ => none := by
  cases e <;> rfl

theorem run_mmio (base : Nat) (reg : Reg) (es : List Event) :
    ∀ w : World, (w.run es).mmio base reg = (last_write base reg es).getD (w.mmio base reg) := by
  induction es with
  | nil => intro w; rfl
  | cons e es ih =>
    intro w
    rw [run_cons, ih, last_write_cons]
    cases hl : last_write base reg es with
    | some v => rfl
    | none =>
      cases e with
      | write b r v =>
        simp only [Option.getD_none, emit_write_mmio]
        by_cases h : base = b ∧ reg = r
        · rw [if_pos h, if_pos h]; rfl
        · rw [if_neg h, if_neg h]; rfl
      | read b r v => simp only [Option.getD_none, emit_read_mmio]
      | dyn_write b s a0 a1 d0 d1 =>
        simp only [Option.getD_none]
        rw [emit_mmio_of_not_write _ _ (by intro _ _ _ h; cases h)]
      | wmb =>
        simp only [Option.getD_none]
        rw [emit_mmio_of_not_write _ _ (by intro _ _ _ h; cases h)]
      | udelay us =>
        simp only [Option.getD_none]
        rw [emit_mmio_of_not_write _ _ (by intro _ _ _ h; cases h)]

/-! ## State updates -/

theorem set_pll_plls_same (w : World) (p : Nat) (r : dsi_pll_resource) :
    (w.set_pll p r).plls p = r := by
  simp [World.set_pll]

theorem set_pll_pdbs (w : World) (p : Nat) (r : dsi_pll_resource) :
    (w.set_pll p r).pdbs = w.pdbs := rfl

theorem set_pdb_pdbs_same (w : World) (d : Nat) (x : dsi_pll_db) :
    (w.set_pdb d x).pdbs d = x := by
  simp [World.set_pdb]

theorem set_pdb_plls (w : World) (d : Nat) (x : dsi_pll_db) :
    (w.set_pdb d x).plls = w.plls := rfl

/-! ## Topology setup -/

theorem pll_source_finding_world (w : World) (pll : Nat) :
    (pll_source_finding w pll).2 =
      (w.emit (Event.read (w.plls pll).pll_base Reg.DSIPHY_CMN_GLBL_TEST_CTRL
          (to_u32 (w.mmio (w.plls pll).pll_base Reg.DSIPHY_CMN_GLBL_TEST_CTRL)))).emit
        (Event.read (w.plls pll).pll_base Reg.DSIPHY_PLL_CLKBUFLR_EN
          (to_u32 (w.mmio (w.plls pll).pll_base Reg.DSIPHY_PLL_CLKBUFLR_EN))) := by
  simp only [pll_source_finding, DSI_PLL_REG_R_of_ne _ _ Reg.DSIPHY_CMN_GLBL_TEST_CTRL (by decide),
    DSI_PLL_REG_R_of_ne _ _ Reg.DSIPHY_PLL_CLKBUFLR_EN (by decide), emit_plls, emit_read_mmio]
  split_ifs <;> rfl

/-- The topology setup returns, and changes of the resources only `slave` links and of the
parameter blocks only the `source_setup_done` flag. -/
theorem pll_source_setup_spec (w : World) (pll pdb : Nat) (hp : (w.plls pll).priv = some pdb) :
    ∃ w1, pll_source_setup w pll = some w1 ∧
      (∀ i, ∃ s, w1.plls i = { w.plls i with slave := s }) ∧
      (∀ i, ∃ n, w1.pdbs i = { w.pdbs i with source_setup_done := n }) := by
  have hself_pll : ∀ (x : World) (i : Nat), ∃ s, x.plls i = { x.plls i with slave := s } :=
    fun x i => ⟨(x.plls i).slave, rfl⟩
  have hself_pdb : ∀ (x : World) (i : Nat),
      ∃ n, x.pdbs i = { x.pdbs i with source_setup_done := n } :=
    fun x i => ⟨(x.pdbs i).source_setup_done, rfl⟩
  simp only [pll_source_setup, hp, Option.bind_eq_bind, Option.some_bind]
  by_cases hd : (w.pdbs pdb).source_setup_done ≠ 0
  · rw [if_pos hd]
    exact ⟨w, rfl, hself_pll w, hself_pdb w⟩
  · rw [if_neg hd]
    have hw := pll_source_finding_world (w.set_pdb pdb { w.pdbs pdb with
      source_setup_done := to_s32 ((w.pdbs pdb).source_setup_done + 1) }) pll
    generalize hf : pll_source_finding (w.set_pdb pdb { w.pdbs pdb with
      source_setup_done := to_s32 ((w.pdbs pdb).source_setup_done + 1) }) pll = res at hw
    obtain ⟨st, W1⟩ := res
    have hpl : W1.plls = w.plls := by
      have := congrArg World.plls hw
      simpa only [emit_plls, set_pdb_plls] using this
    have hpd : ∀ i, ∃ n, W1.pdbs i = { w.pdbs i with source_setup_done := n } := by
      intro i
      have := congrArg World.pdbs hw
      simp only [emit_pdbs] at this
      rw [this]
      by_cases hi : i = pdb
      · exact ⟨to_s32 ((w.pdbs pdb).source_setup_done + 1), by simp [World.set_pdb, hi]⟩
      · exact ⟨(w.pdbs i).source_setup_done, by simp [World.set_pdb, hi]⟩
    clear hw hf
    have hset : ∀ (j : Nat) (s : Option Nat) (i : Nat),
        ∃ t, (W1.set_pll j { W1.plls j with slave := s }).plls i = { w.plls i with slave := t } := by
      intro j s i
      by_cases hi : i = j
      · exact ⟨s, by simp [World.set_pll, hi, hpl]⟩
      · exact ⟨(w.plls i).slave, by simp [World.set_pll, hi, hpl]⟩
    show ∃ w1, (if st = PllRole.PLL_STANDALONE ∨ st = PllRole.PLL_UNKNOWN then some W1
        else match (W1.pdbs (W1.pdbs pdb).next).pll with
          | none => some W1
          | some other =>
            if st = PllRole.PLL_MASTER then
              some (W1.set_pll pll { W1.plls pll with slave := some other })
            else some (W1.set_pll other { W1.plls other with slave := some pll })) = some w1 ∧ _
    by_cases h1 : st = PllRole.PLL_STANDALONE ∨ st = PllRole.PLL_UNKNOWN
    · rw [if_pos h1]
      exact ⟨W1, rfl, fun i => ⟨(w.plls i).slave, by rw [hpl]⟩, hpd⟩
    · rw [if_neg h1]
      cases ho : (W1.pdbs (W1.pdbs pdb).next).pll with
      | none => exact ⟨W1, rfl, fun i => ⟨(w.plls i).slave, by rw [hpl]⟩, hpd⟩
      | some other =>
        simp only
        by_cases h2 : st = PllRole.PLL_MASTER
        · rw [if_pos h2]
          exact ⟨_, rfl, hset pll (some other), hpd⟩
        · rw [if_neg h2]
          exact ⟨_, rfl, hset other (some pll), hpd⟩

/-! ## Golden derivation -/

/-- Closed form of `pll_14nm_calc_vco_count`: the calibration counts are always computed. -/
theorem pll_14nm_calc_vco_count_eq (pdb : dsi_pll_db) (vco_clk_rate fref : Int) :
    pll_14nm_calc_vco_count pdb vco_clk_rate fref = some { pdb with out := { pdb.out with
      pll_vco_div_ref := to_u32 (to_u64 ((to_u64 (int_to_u64 (to_s64 (to_s64 fref *
        (to_u32 pdb.inp.vco_measure_time : Int)))) / 1000000 &&& 0x03ff) + 2 ^ 64 - 2))
      pll_vco_count := to_u32 (to_u64 (to_u64 (int_to_u64 vco_clk_rate / 1000000 *
        to_u32 pdb.inp.vco_measure_time)) / 10)
      pll_kvco_div_ref := to_u32 (to_u64 ((to_u64 (int_to_u64 (to_s64 (to_s64 fref *
        (to_u32 pdb.inp.kvco_measure_time : Int)))) / 1000000 &&& 0x03ff) + 2 ^ 64 - 1))
      pll_kvco_count := to_u32 (to_u32 (pll_14nm_kvco_slop (int_to_u32 vco_clk_rate) * 2) / 100 *
        to_u32 pdb.inp.kvco_measure_time)
      pll_misc1 := 16
      pll_resetsm_cntrl := 48
      pll_resetsm_cntrl2 := to_u32 (pdb.inp.bandgap_timer <<< 3)
      pll_resetsm_cntrl5 := pdb.inp.pll_wakeup_timer
      pll_kvco_code := 0 } } := by
  simp only [pll_14nm_calc_vco_count, do_div_of_lt _ 1000000 (by norm_num) (by norm_num),
    do_div_of_lt _ 10 (by norm_num) (by norm_num), Option.bind_eq_bind, Option.some_bind,
    Option.pure_def]

/-- The derivation of the calibration counts leaves the input section, the fractional-N fields,
the lock comparator and the dividers of the block as they are. -/
theorem pll_14nm_calc_vco_count_keeps (pdb d : dsi_pll_db) (v f : Int)
    (h : pll_14nm_calc_vco_count pdb v f = some d) :
    d.inp = pdb.inp ∧ d.out.dec_start = pdb.out.dec_start ∧
      d.out.div_frac_start = pdb.out.div_frac_start ∧
      d.out.plllock_cmp = pdb.out.plllock_cmp ∧ d.out.pll_n1div = pdb.out.pll_n1div ∧
      d.out.pll_n2div = pdb.out.pll_n2div := by
  have h3 := Option.some.inj ((pll_14nm_calc_vco_count_eq pdb v f).symm.trans h)
  obtain ⟨dn, dp, ds, di, dout⟩ := d
  obtain ⟨o1, o2, o3, o4, o5, o6, o7, o8, o9, o10, o11, o12, o13, o14, o15, o16, o17, o18, o19⟩ :=
    dout
  simp only [dsi_pll_db.mk.injEq, dsi_pll_output.mk.injEq] at h3
  obtain ⟨-, -, -, hi, -, h2, h3, -, -, h6, -, -, -, -, -, -, -, -, -, -, -, h18, h19⟩ := h3
  exact ⟨hi.symm, h2.symm, h3.symm, h6.symm, h18.symm, h19.symm⟩

theorem pll_14nm_dec_frac_calc_golden (r : dsi_pll_resource) (d : dsi_pll_db)
    (h1 : r.vco_current_rate = 1500000000) (h2 : r.vco_ref_clk_rate = 19200000)
    (h3 : d.inp.plllock_cnt = 1) :
    ∃ d1, pll_14nm_dec_frac_calc r d = some d1 ∧ d1.inp = d.inp ∧
      d1.out.dec_start = 78 ∧ d1.out.div_frac_start = 131072 ∧ d1.out.plllock_cmp = 2000 ∧
      d1.out.pll_n1div = d.out.pll_n1div ∧ d1.out.pll_n2div = d.out.pll_n2div := by
  refine ⟨_, pll_14nm_dec_frac_calc_eq r d 1500000000 19200000 (by rw [h1]; rfl)
    (by rw [h2]; rfl) (by norm_num) (by norm_num) (by norm_num), rfl, ?_, ?_, ?_, rfl, rfl⟩
  · show to_u32 (1500000000 * 2 ^ 20 / 19200000 / 2 ^ 20) = 78
    decide
  · show 1500000000 * 2 ^ 20 / 19200000 % 2 ^ 20 = 131072
    decide
  · show to_u32 (to_u64 (int_to_u64
          (if d.inp.plllock_cnt = 0 then 1024
           else if d.inp.plllock_cnt = 1 then 256
           else if d.inp.plllock_cnt = 2 then 128
           else 32) * (1500000000 * 2 ^ 20 / 19200000)) / 2 ^ 20 / 10) = 2000
    rw [h3]
    decide

/-- The steps of `pll_vco_set_rate_14nm` for a clock with a resource and a parameter block:
topology setup, derivation of the parameter block `d3` from the two rates stored in the
resource `r`, commit to the slave (if linked) and then to the resource itself. -/
theorem pll_vco_set_rate_14nm_steps (w : World) (vco : dsi_pll_vco_clk)
    (rate parent_rate pll pdb : Nat) (w0 : World) (r : dsi_pll_resource) (d1 d2 d3 : dsi_pll_db)
    (hv : vco.priv = some pll) (hp : (w.plls pll).priv = some pdb)
    (hs : pll_source_setup w pll = some w0)
    (hr : r = { w0.plls pll with
      vco_current_rate := to_s64 (to_u64 rate)
      vco_ref_clk_rate := to_s64 (to_u64 vco.ref_clk_rate) })
    (hd1 : pll_14nm_dec_frac_calc r (dsi_pll_14nm_input_init r (w0.pdbs pdb)) = some d1)
    (hd2 : (if r.ssc_en then pll_14nm_ssc_calc r d1 else some d1) = some d2)
    (hd3 : pll_14nm_calc_vco_count d2 r.vco_current_rate r.vco_ref_clk_rate = some d3) :
    pll_vco_set_rate_14nm w vco rate parent_rate =
      some ((0 : Int), pll_db_commit_14nm
        (match r.slave with
          | some slave => pll_db_commit_14nm ((w0.set_pll pll r).set_pdb pdb d3) slave pdb
          | none => (w0.set_pll pll r).set_pdb pdb d3)
        pll pdb) := by
  subst hr
  unfold pll_vco_set_rate_14nm
  simp only [hv, Option.bind_eq_bind, Option.some_bind]
  simp only [hp]
  rw [hs, Option.some_bind]
  simp only at hd1 hd2 hd3 ⊢
  rw [hd1, Option.some_bind, hd2, Option.some_bind, hd3, Option.some_bind]
  rfl

/-- The last values the live commit writes to the fractional-N and lock-comparator registers. -/
theorem pll_db_commit_14nm_seq_last_write (pll : dsi_pll_resource) (pdb : dsi_pll_db) :
    last_write pll.pll_base Reg.DSIPHY_PLL_DEC_START (pll_db_commit_14nm_seq pll pdb) =
      some (to_u32 (to_char pdb.out.dec_start)) ∧
    last_write pll.pll_base Reg.DSIPHY_PLL_DIV_FRAC_START1 (pll_db_commit_14nm_seq pll pdb) =
      some (to_u32 (to_char (to_char pdb.out.div_frac_start &&& 0x0ff))) ∧
    last_write pll.pll_base Reg.DSIPHY_PLL_DIV_FRAC_START2 (pll_db_commit_14nm_seq pll pdb) =
      some (to_u32 (to_char (to_char (pdb.out.div_frac_start >>> 8) &&& 0x0ff))) ∧
    last_write pll.pll_base Reg.DSIPHY_PLL_DIV_FRAC_START3 (pll_db_commit_14nm_seq pll pdb) =
      some (to_u32 (to_char (to_char (pdb.out.div_frac_start >>> 16) &&& 0x0f))) ∧
    last_write pll.pll_base Reg.DSIPHY_PLL_PLLLOCK_CMP1 (pll_db_commit_14nm_seq pll pdb) =
      some (to_u32 (to_char (to_char pdb.out.plllock_cmp &&& 0x0ff))) ∧
    last_write pll.pll_base Reg.DSIPHY_PLL_PLLLOCK_CMP2 (pll_db_commit_14nm_seq pll pdb) =
      some (to_u32 (to_char (to_char (pdb.out.plllock_cmp >>> 8) &&& 0x0ff))) ∧
    last_write pll.pll_base Reg.DSIPHY_PLL_PLLLOCK_CMP3 (pll_db_commit_14nm_seq pll pdb) =
      some (to_u32 (to_char (to_char (pdb.out.plllock_cmp >>> 16) &&& 0x03))) := by
  cases hs : pll.ssc_en <;>
    simp [last_write, pll_db_commit_14nm_seq, pll_db_commit_common_seq, pll_db_commit_ssc_seq,
      reg_w, hs]

/-- The fractional-N and lock-comparator writes are consecutive actions of the live commit. -/
theorem pll_db_commit_14nm_seq_frequency_writes (pll : dsi_pll_resource) (pdb : dsi_pll_db) :
    List.IsInfix
      [ reg_w pll.pll_base Reg.DSIPHY_PLL_DEC_START (to_char pdb.out.dec_start),
        reg_w pll.pll_base Reg.DSIPHY_PLL_DIV_FRAC_START1
          (to_char (to_char pdb.out.div_frac_start &&& 0x0ff)),
        reg_w pll.pll_base Reg.DSIPHY_PLL_DIV_FRAC_START2
          (to_char (to_char (pdb.out.div_frac_start >>> 8) &&& 0x0ff)),
        reg_w pll.pll_base Reg.DSIPHY_PLL_DIV_FRAC_START3
          (to_char (to_char (pdb.out.div_frac_start >>> 16) &&& 0x0f)),
        reg_w pll.pll_base Reg.DSIPHY_PLL_PLLLOCK_CMP1
          (to_char (to_char pdb.out.plllock_cmp &&& 0x0ff)),
        reg_w pll.pll_base Reg.DSIPHY_PLL_PLLLOCK_CMP2
          (to_char (to_char (pdb.out.plllock_cmp >>> 8) &&& 0x0ff)),
        reg_w pll.pll_base Reg.DSIPHY_PLL_PLLLOCK_CMP3
          (to_char (to_char (pdb.out.plllock_cmp >>> 16) &&& 0x03)) ]
      (pll_db_commit_14nm_seq pll pdb) := by
  refine ⟨(pll_db_commit_14nm_seq pll pdb).take 28, (pll_db_commit_14nm_seq pll pdb).drop 35, ?_⟩
  simp [pll_db_commit_14nm_seq, pll_db_commit_common_seq]

/-- C2: for the target rate 1,500,000,000 Hz, the reference 19,200,000 Hz and spread-spectrum
disabled, `pll_vco_set_rate_14nm` returns 0, derives `dec_start = 78`,
`div_frac_start = 131072` and `plllock_cmp = 2000`, and the commit writes, consecutively,
`DEC_START = 0x4E`, `DIV_FRAC_START1/2/3 = 0x00/0x00/0x02` and
`PLLLOCK_CMP1/2/3 = 0xD0/0x07/0x00` to the live registers of the PLL, which hold these values
afterwards. -/
theorem set_rate_golden (w : World) (vco : dsi_pll_vco_clk) (pll pdb parent_rate : Nat)
    (hv : vco.priv = some pll) (hp : (w.plls pll).priv = some pdb)
    (href : vco.ref_clk_rate = 19200000) (hssc : (w.plls pll).ssc_en = false) :
    ∃ w1, pll_vco_set_rate_14nm w vco 1500000000 parent_rate = some (0, w1) ∧
      (w1.pdbs pdb).out.dec_start = 78 ∧
      (w1.pdbs pdb).out.div_frac_start = 131072 ∧
      (w1.pdbs pdb).out.plllock_cmp = 2000 ∧
      w1.mmio (w.plls pll).pll_base Reg.DSIPHY_PLL_DEC_START = 0x4E ∧
      w1.mmio (w.plls pll).pll_base Reg.DSIPHY_PLL_DIV_FRAC_START1 = 0x00 ∧
      w1.mmio (w.plls pll).pll_base Reg.DSIPHY_PLL_DIV_FRAC_START2 = 0x00 ∧
      w1.mmio (w.plls pll).pll_base Reg.DSIPHY_PLL_DIV_FRAC_START3 = 0x02 ∧
      w1.mmio (w.plls pll).pll_base Reg.DSIPHY_PLL_PLLLOCK_CMP1 = 0xD0 ∧
      w1.mmio (w.plls pll).pll_base Reg.DSIPHY_PLL_PLLLOCK_CMP2 = 0x07 ∧
      w1.mmio (w.plls pll).pll_base Reg.DSIPHY_PLL_PLLLOCK_CMP3 = 0x00 ∧
      List.IsInfix
        [ Event.write (w.plls pll).pll_base Reg.DSIPHY_PLL_DEC_START 0x4E,
          Event.write (w.plls pll).pll_base Reg.DSIPHY_PLL_DIV_FRAC_START1 0x00,
          Event.write (w.plls pll).pll_base Reg.DSIPHY_PLL_DIV_FRAC_START2 0x00,
          Event.write (w.plls pll).pll_base Reg.DSIPHY_PLL_DIV_FRAC_START3 0x02,
          Event.write (w.plls pll).pll_base Reg.DSIPHY_PLL_PLLLOCK_CMP1 0xD0,
          Event.write (w.plls pll).pll_base Reg.DSIPHY_PLL_PLLLOCK_CMP2 0x07,
          Event.write (w.plls pll).pll_base Reg.DSIPHY_PLL_PLLLOCK_CMP3 0x00 ]
        w1.trace := by
  obtain ⟨w0, hs, hplls, -⟩ := pll_source_setup_spec w pll pdb hp
  obtain ⟨sl, hsl⟩ := hplls pll
  obtain ⟨r, hr⟩ : ∃ r : dsi_pll_resource, r = { w0.plls pll with
      vco_current_rate := to_s64 (to_u64 1500000000)
      vco_ref_clk_rate := to_s64 (to_u64 vco.ref_clk_rate) } := ⟨_, rfl⟩
  have hr_base : r.pll_base = (w.plls pll).pll_base := by rw [hr, hsl]
  have hr_ssc : r.ssc_en = false := by rw [hr, hsl]; exact hssc
  have hr_rate : r.vco_current_rate = 1500000000 := by
    rw [hr]
    show to_s64 ((to_u64 1500000000 : Nat) : Int) = 1500000000
    decide
  have hr_ref : r.vco_ref_clk_rate = 19200000 := by
    rw [hr, href]
    show to_s64 ((to_u64 19200000 : Nat) : Int) = 19200000
    decide
  obtain ⟨d1, hd1, -, hdec, hfrac, hcmp, -, -⟩ :=
    pll_14nm_dec_frac_calc_golden r (dsi_pll_14nm_input_init r (w0.pdbs pdb)) hr_rate hr_ref rfl
  have hd2 : (if r.ssc_en then pll_14nm_ssc_calc r d1 else some d1) = some d1 := by
    rw [hr_ssc]; rfl
  have hd3 := pll_14nm_calc_vco_count_eq d1 r.vco_current_rate r.vco_ref_clk_rate
  obtain ⟨d3, hd3e⟩ : ∃ d3, pll_14nm_calc_vco_count d1 r.vco_current_rate r.vco_ref_clk_rate
      = some d3 := ⟨_, hd3⟩
  clear hd3
  obtain ⟨-, k1, k2, k3, -, -⟩ := pll_14nm_calc_vco_count_keeps d1 d3 _ _ hd3e
  have h78 : d3.out.dec_start = 78 := k1.trans hdec
  have h131072 : d3.out.div_frac_start = 131072 := k2.trans hfrac
  have h2000 : d3.out.plllock_cmp = 2000 := k3.trans hcmp
  have hmain := pll_vco_set_rate_14nm_steps w vco 1500000000 parent_rate pll pdb w0 r d1 d1 d3
    hv hp hs hr hd1 hd2 hd3e
  -- the world the commit to the PLL itself starts from
  obtain ⟨wa, hwa⟩ : ∃ wa : World, wa = (match r.slave with
      | some slave => pll_db_commit_14nm ((w0.set_pll pll r).set_pdb pdb d3) slave pdb
      | none => (w0.set_pll pll r).set_pdb pdb d3) := ⟨_, rfl⟩
  rw [← hwa] at hmain
  have hwa_plls : wa.plls pll = r := by
    rw [hwa]
    cases r.slave with
    | none => simp only [set_pdb_plls, set_pll_plls_same]
    | some slave =>
      simp only [pll_db_commit_14nm, run_plls, set_pdb_plls, set_pll_plls_same]
  have hwa_pdbs : wa.pdbs pdb = d3 := by
    rw [hwa]
    cases r.slave with
    | none => simp only [set_pdb_pdbs_same]
    | some slave => simp only [pll_db_commit_14nm, run_pdbs, set_pdb_pdbs_same]
  refine ⟨_, hmain, ?_⟩
  have hfin : pll_db_commit_14nm wa pll pdb = wa.run (pll_db_commit_14nm_seq r d3) := by
    rw [pll_db_commit_14nm, hwa_plls, hwa_pdbs]
  rw [hfin]
  obtain ⟨l1, l2, l3, l4, l5, l6, l7⟩ := pll_db_commit_14nm_seq_last_write r d3
  have e1 : to_u32 (to_char 78) = 0x4E := by decide
  have e2 : to_u32 (to_char (to_char 131072 &&& 0x0ff)) = 0x00 := by decide
  have e3 : to_u32 (to_char (to_char (131072 >>> 8) &&& 0x0ff)) = 0x00 := by decide
  have e4 : to_u32 (to_char (to_char (131072 >>> 16) &&& 0x0f)) = 0x02 := by decide
  have e5 : to_u32 (to_char (to_char 2000 &&& 0x0ff)) = 0xD0 := by decide
  have e6 : to_u32 (to_char (to_char (2000 >>> 8) &&& 0x0ff)) = 0x07 := by decide
  have e7 : to_u32 (to_char (to_char (2000 >>> 16) &&& 0x03)) = 0x00 := by decide
  rw [h78, hr_base, e1] at l1
  rw [h131072, hr_base, e2] at l2
  rw [h131072, hr_base, e3] at l3
  rw [h131072, hr_base, e4] at l4
  rw [h2000, hr_base, e5] at l5
  rw [h2000, hr_base, e6] at l6
  rw [h2000, hr_base, e7] at l7
  refine ⟨?_, ?_, ?_, ?_, ?_, ?_, ?_, ?_, ?_, ?_, ?_⟩
  · rw [run_pdbs, hwa_pdbs]; exact h78
  · rw [run_pdbs, hwa_pdbs]; exact h131072
  · rw [run_pdbs, hwa_pdbs]; exact h2000
  · rw [run_mmio, l1]; rfl
  · rw [run_mmio, l2]; rfl
  · rw [run_mmio, l3]; rfl
  · rw [run_mmio, l4]; rfl
  · rw [run_mmio, l5]; rfl
  · rw [run_mmio, l6]; rfl
  · rw [run_mmio, l7]; rfl
  · rw [run_trace]
    have hin := pll_db_commit_14nm_seq_frequency_writes r d3
    simp only [reg_w] at hin
    rw [h78, h131072, h2000, hr_base, e1, e2, e3, e4, e5, e6, e7] at hin
    exact hin.trans (List.suffix_append _ _).isInfix

/-- C2 on the sample device. -/
theorem set_rate_golden_witness :
    (sample_vco.priv = some 0 ∧ (sample_world.plls 0).priv = some 0 ∧
      sample_vco.ref_clk_rate = 19200000 ∧ (sample_world.plls 0).ssc_en = false) ∧
    ∃ w1, pll_vco_set_rate_14nm sample_world sample_vco 1500000000 0 = some (0, w1) ∧
      (w1.pdbs 0).out.dec_start = 78 ∧
      (w1.pdbs 0).out.div_frac_start = 131072 ∧
      (w1.pdbs 0).out.plllock_cmp = 2000 ∧
      w1.mmio (sample_world.plls 0).pll_base Reg.DSIPHY_PLL_DEC_START = 0x4E ∧
      w1.mmio (sample_world.plls 0).pll_base Reg.DSIPHY_PLL_DIV_FRAC_START1 = 0x00 ∧
      w1.mmio (sample_world.plls 0).pll_base Reg.DSIPHY_PLL_DIV_FRAC_START2 = 0x00 ∧
      w1.mmio (sample_world.plls 0).pll_base Reg.DSIPHY_PLL_DIV_FRAC_START3 = 0x02 ∧
      w1.mmio (sample_world.plls 0).pll_base Reg.DSIPHY_PLL_PLLLOCK_CMP1 = 0xD0 ∧
      w1.mmio (sample_world.plls 0).pll_base Reg.DSIPHY_PLL_PLLLOCK_CMP2 = 0x07 ∧
      w1.mmio (sample_world.plls 0).pll_base Reg.DSIPHY_PLL_PLLLOCK_CMP3 = 0x00 ∧
      List.IsInfix
        [ Event.write (sample_world.plls 0).pll_base Reg.DSIPHY_PLL_DEC_START 0x4E,
          Event.write (sample_world.plls 0).pll_base Reg.DSIPHY_PLL_DIV_FRAC_START1 0x00,
          Event.write (sample_world.plls 0).pll_base Reg.DSIPHY_PLL_DIV_FRAC_START2 0x00,
          Event.write (sample_world.plls 0).pll_base Reg.DSIPHY_PLL_DIV_FRAC_START3 0x02,
          Event.write (sample_world.plls 0).pll_base Reg.DSIPHY_PLL_PLLLOCK_CMP1 0xD0,
          Event.write (sample_world.plls 0).pll_base Reg.DSIPHY_PLL_PLLLOCK_CMP2 0x07,
          Event.write (sample_world.plls 0).pll_base Reg.DSIPHY_PLL_PLLLOCK_CMP3 0x00 ]
        w1.trace :=
  ⟨⟨rfl, rfl, rfl, rfl⟩, set_rate_golden sample_world sample_vco 0 0 0 rfl rfl rfl rfl⟩

/-! ## Sample runs -/

/-- On the sample device the status register never reports ready: the enable sequence fails
after the bit-5 poll. -/
theorem enable_seq_sample_timeout :
    (dsi_pll_enable_seq_14nm sample_world (some 0)).1 = -EINVAL ∧
    (dsi_pll_enable_seq_14nm sample_world (some 0)).2.nreads 0 = 15 := by
  decide

/-- With a status register that reports ready and locked the enable sequence succeeds with one
read for each poll. -/
theorem enable_seq_sample_locked :
    (dsi_pll_enable_seq_14nm sample_world_locked (some 0)).1 = 0 ∧
    (dsi_pll_enable_seq_14nm sample_world_locked (some 0)).2.nreads 0 = 2 := by
  decide

/-- With a valid table entry for the requested rate the shadow set rate returns 0 and caches
the codes of the entry. -/
theorem shadow_set_rate_sample_success :
    (shadow_pll_vco_set_rate_14nm sample_world_valid sample_vco 1500000000 0).map
      (fun x => (x.1, (x.2.plls 0).cache_pll_trim_codes, (x.2.plls 0).vco_current_rate)) =
      some (0, (3, 5), 1500000000) := by
  decide

/-! ## Lock poll budget -/

theorem emit_nreads_status (w : World) (base v : Nat) :
    (w.emit (Event.read base Reg.DSIPHY_PLL_RESET_SM_READY_STATUS v)).nreads base =
      w.nreads base + 1 := by
  simp [World.emit]

theorem emit_nreads_udelay (w : World) (us : Nat) : (w.emit (Event.udelay us)).nreads = w.nreads :=
  rfl

theorem DSI_PLL_REG_R_status (w : World) (base : Nat) :
    DSI_PLL_REG_R w base Reg.DSIPHY_PLL_RESET_SM_READY_STATUS =
      (to_u32 (w.status base (w.nreads base)),
        w.emit (Event.read base Reg.DSIPHY_PLL_RESET_SM_READY_STATUS
          (to_u32 (w.status base (w.nreads base))))) := by
  simp [DSI_PLL_REG_R]

/-- One step of the poll of the status register: the read that matches ends the poll, a read
that does not match is followed by the delay and the remaining attempts. -/
theorem pollTimeout_status_succ (w : World) (base mask n delayUs : Nat) :
    pollTimeout w base Reg.DSIPHY_PLL_RESET_SM_READY_STATUS mask (n + 1) delayUs =
      if to_u32 (w.status base (w.nreads base)) &&& mask > 0 then
        (true, w.emit (Event.read base Reg.DSIPHY_PLL_RESET_SM_READY_STATUS
          (to_u32 (w.status base (w.nreads base)))))
      else pollTimeout ((w.emit (Event.read base Reg.DSIPHY_PLL_RESET_SM_READY_STATUS
          (to_u32 (w.status base (w.nreads base))))).emit (Event.udelay delayUs)) base
        Reg.DSIPHY_PLL_RESET_SM_READY_STATUS mask n delayUs := by
  rw [pollTimeout, DSI_PLL_REG_R_status]
  rfl

/-- A poll whose first `j` reads do not match and whose next read, if one is left, matches:
the result, the trace, the number of reads and the untouched parts of the world. -/
theorem pollTimeout_status_run (base mask delayUs : Nat) (n : Nat) :
    ∀ (j : Nat) (w : World), j ≤ n →
      (∀ k < j, to_u32 (w.status base (w.nreads base + k)) &&& mask = 0) →
      (j < n → to_u32 (w.status base (w.nreads base + j)) &&& mask > 0) →
      (pollTimeout w base Reg.DSIPHY_PLL_RESET_SM_READY_STATUS mask n delayUs).1 = decide (j < n) ∧
      (pollTimeout w base Reg.DSIPHY_PLL_RESET_SM_READY_STATUS mask n delayUs).2.trace =
        w.trace ++ failed_polls (w.status base) base delayUs (w.nreads base) j ++
          (if j < n then [Event.read base Reg.DSIPHY_PLL_RESET_SM_READY_STATUS
            (to_u32 (w.status base (w.nreads base + j)))] else []) ∧
      (pollTimeout w base Reg.DSIPHY_PLL_RESET_SM_READY_STATUS mask n delayUs).2.nreads base =
        w.nreads base + j + (if j < n then 1 else 0) ∧
      (pollTimeout w base Reg.DSIPHY_PLL_RESET_SM_READY_STATUS mask n delayUs).2.status =
        w.status := by
  induction n with
  | zero =>
    intro j w hj _ _
    have : j = 0 := by omega
    subst this
    simp [pollTimeout, failed_polls]
  | succ n ih =>
    intro j w hj hfail hmatch
    rw [pollTimeout_status_succ]
    cases j with
    | zero =>
      have h0 := hmatch (by omega)
      rw [Nat.add_zero] at h0
      rw [if_pos h0]
      simp [failed_polls, emit_trace, emit_nreads_status, emit_status]
    | succ j =>
      have h0 := hfail 0 (by omega)
      rw [Nat.add_zero] at h0
      rw [if_neg (by omega)]
      have hn : ((w.emit (Event.read base Reg.DSIPHY_PLL_RESET_SM_READY_STATUS
          (to_u32 (w.status base (w.nreads base))))).emit (Event.udelay delayUs)).nreads base =
          w.nreads base + 1 := by
        rw [emit_nreads_udelay, emit_nreads_status]
      have hst : ((w.emit (Event.read base Reg.DSIPHY_PLL_RESET_SM_READY_STATUS
          (to_u32 (w.status base (w.nreads base))))).emit (Event.udelay delayUs)).status =
          w.status := by
        rw [emit_status, emit_status]
      obtain ⟨i1, i2, i3, i4⟩ := ih j _ (by omega)
        (by
          intro k hk
          rw [hn, hst]
          have := hfail (k + 1) (by omega)
          rwa [show w.nreads base + (k + 1) = w.nreads base + 1 + k by omega] at this)
        (by
          intro hjn
          rw [hn, hst]
          have := hmatch (by omega)
          rwa [show w.nreads base + (j + 1) = w.nreads base + 1 + j by omega] at this)
      rw [hn, hst] at i2
      rw [hn] at i3
      rw [hst] at i4
      refine ⟨?_, ?_, ?_, i4⟩
      · rw [i1]; simp
      · rw [i2, emit_trace, emit_trace, failed_polls]
        have e : (j + 1 < n + 1) = (j < n) := by simp
        simp only [e, show w.nreads base + (j + 1) = w.nreads base + 1 + j by omega]
        simp
      · rw [i3]
        have e : (j + 1 < n + 1) = (j < n) := by simp
        simp only [e]
        omega

theorem trace_delay_append (a b : List Event) :
    trace_delay (a ++ b) = trace_delay a + trace_delay b := by
  induction a with
  | nil => simp [trace_delay]
  | cons e es ih => cases e <;> simp [trace_delay, ih, Nat.add_assoc]

/-- A poll of the status register does at most `n` reads and waits at most `n` delays. -/
theorem pollTimeout_status_bound (base mask delayUs : Nat) (n : Nat) :
    ∀ w : World,
      (pollTimeout w base Reg.DSIPHY_PLL_RESET_SM_READY_STATUS mask n delayUs).2.nreads base ≤
        w.nreads base + n ∧
      trace_delay (pollTimeout w base Reg.DSIPHY_PLL_RESET_SM_READY_STATUS mask n
        delayUs).2.trace ≤ trace_delay w.trace + n * delayUs := by
  induction n with
  | zero => intro w; simp [pollTimeout]
  | succ n ih =>
    intro w
    rw [pollTimeout_status_succ]
    split_ifs with h
    · simp only [emit_nreads_status, emit_trace, trace_delay_append, trace_delay]
      constructor
      · omega
      · have : 0 ≤ (n + 1) * delayUs := Nat.zero_le _
        omega
    · obtain ⟨i1, i2⟩ := ih ((w.emit (Event.read base Reg.DSIPHY_PLL_RESET_SM_READY_STATUS
          (to_u32 (w.status base (w.nreads base))))).emit (Event.udelay delayUs))
      rw [emit_nreads_udelay, emit_nreads_status] at i1
      simp only [emit_trace, trace_delay_append, trace_delay] at i2
      constructor
      · omega
      · have : (n + 1) * delayUs = n * delayUs + delayUs := Nat.succ_mul _ _
        omega

/-- The function `pll_is_pll_locked_14nm` in terms of its two polls. -/
theorem pll_is_pll_locked_14nm_eq (w : World) (pll : Nat) :
    pll_is_pll_locked_14nm w pll =
      if (pollTimeout w (w.plls pll).pll_base Reg.DSIPHY_PLL_RESET_SM_READY_STATUS (BIT 5)
          DSI_PLL_POLL_MAX_READS DSI_PLL_POLL_TIMEOUT_US).1 = true then
        pollTimeout (pollTimeout w (w.plls pll).pll_base Reg.DSIPHY_PLL_RESET_SM_READY_STATUS
            (BIT 5) DSI_PLL_POLL_MAX_READS DSI_PLL_POLL_TIMEOUT_US).2
          (w.plls pll).pll_base Reg.DSIPHY_PLL_RESET_SM_READY_STATUS (BIT 0)
          DSI_PLL_POLL_MAX_READS DSI_PLL_POLL_TIMEOUT_US
      else (false, (pollTimeout w (w.plls pll).pll_base Reg.DSIPHY_PLL_RESET_SM_READY_STATUS
          (BIT 5) DSI_PLL_POLL_MAX_READS DSI_PLL_POLL_TIMEOUT_US).2) := by
  unfold pll_is_pll_locked_14nm
  generalize hp5 : pollTimeout w (w.plls pll).pll_base Reg.DSIPHY_PLL_RESET_SM_READY_STATUS
    (BIT 5) DSI_PLL_POLL_MAX_READS DSI_PLL_POLL_TIMEOUT_US = p5
  have hb : (p5.2.plls pll).pll_base = (w.plls pll).pll_base := by
    rw [← hp5, pollTimeout_plls]
  obtain ⟨r5, w5⟩ := p5
  simp only at hb ⊢
  rw [hb]
  cases r5
  · simp
  · simp only [Bool.not_true, Bool.false_eq_true, if_false, if_true]
    generalize pollTimeout w5 (w.plls pll).pll_base Reg.DSIPHY_PLL_RESET_SM_READY_STATUS
      (BIT 0) DSI_PLL_POLL_MAX_READS DSI_PLL_POLL_TIMEOUT_US = p0
    obtain ⟨r0, w0⟩ := p0
    cases r0 <;> simp

/-- C11: with the poll primitive `pollTimeout`, hardware that never reports bit 5 makes
`pll_is_pll_locked_14nm` fail after exactly 15 reads of the status register, each followed by a
delay of 1000 us, with no further read (none for bit 0); hardware that reports bit 5 on the
third read and bit 0 on the read after it yields locked after 3 + 1 reads; and each of the two
polls does at most 15 reads and waits at most 15 delays of 1000 us. -/
theorem lock_poll_budget (w : World) (pll : Nat) :
    let base := (w.plls pll).pll_base
    let st := fun k => to_u32 (w.status base (w.nreads base + k))
    let rd := fun k => Event.read base Reg.DSIPHY_PLL_RESET_SM_READY_STATUS (st k)
    let p5 := pollTimeout w base Reg.DSIPHY_PLL_RESET_SM_READY_STATUS
      (BIT 5) DSI_PLL_POLL_MAX_READS DSI_PLL_POLL_TIMEOUT_US
    let p0 := pollTimeout p5.2 base Reg.DSIPHY_PLL_RESET_SM_READY_STATUS
      (BIT 0) DSI_PLL_POLL_MAX_READS DSI_PLL_POLL_TIMEOUT_US
    ((∀ k, st k &&& BIT 5 = 0) →
      (pll_is_pll_locked_14nm w pll).1 = false ∧
      (pll_is_pll_locked_14nm w pll).2.trace =
        w.trace ++ failed_polls (w.status base) base 1000 (w.nreads base) 15 ∧
      (pll_is_pll_locked_14nm w pll).2.nreads base = w.nreads base + 15) ∧
    ((st 0 &&& BIT 5 = 0 ∧ st 1 &&& BIT 5 = 0 ∧ st 2 &&& BIT 5 > 0 ∧ st 3 &&& BIT 0 > 0) →
      (pll_is_pll_locked_14nm w pll).1 = true ∧
      (pll_is_pll_locked_14nm w pll).2.trace =
        w.trace ++ [rd 0, Event.udelay 1000, rd 1, Event.udelay 1000, rd 2, rd 3] ∧
      (pll_is_pll_locked_14nm w pll).2.nreads base = w.nreads base + 4) ∧
    (p5.2.nreads base ≤ w.nreads base + 15 ∧
      trace_delay p5.2.trace ≤ trace_delay w.trace + 15 * 1000 ∧
      p0.2.nreads base ≤ p5.2.nreads base + 15 ∧
      trace_delay p0.2.trace ≤ trace_delay p5.2.trace + 15 * 1000 ∧
      (pll_is_pll_locked_14nm w pll).2 = (if p5.1 = true then p0.2 else p5.2)) := by
  intro base st rd p5 p0
  have heq : pll_is_pll_locked_14nm w pll = if p5.1 = true then p0 else (false, p5.2) :=
    pll_is_pll_locked_14nm_eq w pll
  refine ⟨fun hnever => ?_, fun hslow => ?_, ?_⟩
  · obtain ⟨i1, i2, i3, -⟩ := pollTimeout_status_run base (BIT 5) DSI_PLL_POLL_TIMEOUT_US
      DSI_PLL_POLL_MAX_READS DSI_PLL_POLL_MAX_READS w (le_refl _) (fun k _ => hnever k)
      (fun h => absurd h (lt_irrefl _))
    have h5 : ¬ p5.1 = true := by
      show ¬ (pollTimeout w base _ _ _ _).1 = true
      rw [i1]; simp
    rw [heq, if_neg h5]
    refine ⟨rfl, ?_, ?_⟩
    · show (pollTimeout w base _ _ _ _).2.trace = _
      rw [i2]; simp [DSI_PLL_POLL_MAX_READS, DSI_PLL_POLL_TIMEOUT_US]
    · show (pollTimeout w base _ _ _ _).2.nreads base = _
      rw [i3]; simp [DSI_PLL_POLL_MAX_READS]
  · obtain ⟨s0, s1, s2, s3⟩ := hslow
    obtain ⟨i1, i2, i3, i4⟩ := pollTimeout_status_run base (BIT 5) DSI_PLL_POLL_TIMEOUT_US
      DSI_PLL_POLL_MAX_READS 2 w (by decide)
      (fun k hk => by
        rcases (show k = 0 ∨ k = 1 by omega) with rfl | rfl
        · exact s0
        · exact s1)
      (fun _ => s2)
    have h5 : p5.1 = true := by
      show (pollTimeout w base _ _ _ _).1 = true
      rw [i1]; decide
    have hn5 : p5.2.nreads base = w.nreads base + 3 := by
      show (pollTimeout w base _ _ _ _).2.nreads base = _
      rw [i3]; simp [DSI_PLL_POLL_MAX_READS]
    have hs5 : p5.2.status = w.status := i4
    have ht5 : p5.2.trace = w.trace ++ [rd 0, Event.udelay 1000, rd 1, Event.udelay 1000, rd 2] := by
      show (pollTimeout w base _ _ _ _).2.trace = _
      rw [i2]
      simp [DSI_PLL_POLL_MAX_READS, DSI_PLL_POLL_TIMEOUT_US, failed_polls, rd, st]
    obtain ⟨j1, j2, j3, -⟩ := pollTimeout_status_run base (BIT 0) DSI_PLL_POLL_TIMEOUT_US
      DSI_PLL_POLL_MAX_READS 0 p5.2 (by decide) (fun k hk => absurd hk (Nat.not_lt_zero k))
      (fun _ => by rw [hs5, hn5]; exact s3)
    rw [heq, if_pos h5]
    refine ⟨?_, ?_, ?_⟩
    · show (pollTimeout p5.2 base _ _ _ _).1 = true
      rw [j1]; decide
    · show (pollTimeout p5.2 base _ _ _ _).2.trace = _
      rw [j2, ht5, hs5, hn5]
      simp [DSI_PLL_POLL_MAX_READS, failed_polls, rd, st]
    · show (pollTimeout p5.2 base _ _ _ _).2.nreads base = _
      rw [j3, hn5]; simp [DSI_PLL_POLL_MAX_READS]
  · have b5 := pollTimeout_status_bound base (BIT 5) DSI_PLL_POLL_TIMEOUT_US
      DSI_PLL_POLL_MAX_READS w
    have b0 := pollTimeout_status_bound base (BIT 0) DSI_PLL_POLL_TIMEOUT_US
      DSI_PLL_POLL_MAX_READS p5.2
    refine ⟨b5.1, b5.2, b0.1, b0.2, ?_⟩
    rw [heq]
    split_ifs <;> rfl

/-- On the sample device, whose status register never reports a bit, the lock check fails
after 15 reads and 15 delays of 1000 us. -/
theorem lock_poll_sample_never :
    (pll_is_pll_locked_14nm sample_world 0).1 = false ∧
    (pll_is_pll_locked_14nm sample_world 0).2.trace =
      (List.replicate 15 [Event.read 0 Reg.DSIPHY_PLL_RESET_SM_READY_STATUS 0,
        Event.udelay 1000]).flatten := by
  decide

/-- With a status register that reports bit 5 on the third read and bit 0 on the fourth the
lock check succeeds after four reads. -/
theorem lock_poll_sample_slow :
    (pll_is_pll_locked_14nm sample_world_slow 0).1 = true ∧
    (pll_is_pll_locked_14nm sample_world_slow 0).2.trace =
      [ Event.read 0 Reg.DSIPHY_PLL_RESET_SM_READY_STATUS 0, Event.udelay 1000,
        Event.read 0 Reg.DSIPHY_PLL_RESET_SM_READY_STATUS 0, Event.udelay 1000,
        Event.read 0 Reg.DSIPHY_PLL_RESET_SM_READY_STATUS 0x20,
        Event.read 0 Reg.DSIPHY_PLL_RESET_SM_READY_STATUS 0x21 ] := by
  decide

/-! ## Alternate enable sequences -/

/-- The loop of `dsi_pll_enable` from the index `i`, on the world the entries before `i` left:
it ends at an entry `k` which is the first to return 0 or the last of the table, with the
result of that entry and the world the entries up to `k` left. -/
theorem dsi_pll_enable_loop_spec (seqs : List (World → Option Nat → Int × World))
    (pll : Option Nat) (w : World) (n : Nat) :
    ∀ (i : Nat) (rc : Int), i + (n + 1) ≤ seqs.length →
      ∃ k, i ≤ k ∧ k < i + (n + 1) ∧
        (∀ j, i ≤ j → j < k → enable_seqs_rc seqs pll w j ≠ 0) ∧
        (enable_seqs_rc seqs pll w k = 0 ∨ k + 1 = i + (n + 1)) ∧
        dsi_pll_enable_loop seqs pll (n + 1) i rc (enable_seqs_world seqs pll w i) =
          some (enable_seqs_rc seqs pll w k, enable_seqs_world seqs pll w (k + 1)) := by
  induction n with
  | zero =>
    intro i rc hl
    obtain ⟨seq, hseq⟩ : ∃ seq, seqs[i]? = some seq :=
      ⟨seqs[i], List.getElem?_eq_getElem (by omega)⟩
    refine ⟨i, le_refl _, by omega, fun j h1 h2 => absurd h1 (by omega), Or.inr rfl, ?_⟩
    simp only [dsi_pll_enable_loop, hseq, enable_seqs_rc, enable_seqs_world, Option.bind_eq_bind,
      Option.some_bind, Option.pure_def]
    split_ifs <;> rfl
  | succ n ih =>
    intro i rc hl
    obtain ⟨seq, hseq⟩ : ∃ seq, seqs[i]? = some seq :=
      ⟨seqs[i], List.getElem?_eq_getElem (by omega)⟩
    have hrc : enable_seqs_rc seqs pll w i = (seq (enable_seqs_world seqs pll w i) pll).1 := by
      simp only [enable_seqs_rc, hseq]
    have hw : enable_seqs_world seqs pll w (i + 1) =
        (seq (enable_seqs_world seqs pll w i) pll).2 := by
      simp only [enable_seqs_world, hseq]
    rw [dsi_pll_enable_loop]
    simp only [hseq, Option.bind_eq_bind, Option.some_bind, Option.pure_def]
    by_cases h0 : (seq (enable_seqs_world seqs pll w i) pll).1 = 0
    · refine ⟨i, le_refl _, by omega, fun j h1 h2 => absurd h1 (by omega),
        Or.inl (by rw [hrc]; exact h0), ?_⟩
      rw [if_pos h0, hrc, hw]
    · rw [if_neg h0, ← hw]
      obtain ⟨k, k1, k2, k3, k4, k5⟩ := ih (i + 1) (seq (enable_seqs_world seqs pll w i) pll).1
        (by omega)
      refine ⟨k, by omega, by omega, ?_, ?_, k5⟩
      · intro j h1 h2
        by_cases hj : j = i
        · subst hj; rw [hrc]; exact h0
        · exact k3 j (by omega) h2
      · rcases k4 with h | h
        · exact Or.inl h
        · exact Or.inr (by omega)

/-- C12 (amended): for a clock with at least one enable sequence, `dsi_pll_enable` invokes
`pll_enable_seqs[0]`, `[1]`, ... in index order, each on the world the one before left, and
ends at an entry `k`: every entry before `k` returned non-zero, and `k` returned 0 or is the
last entry.  The call returns the result of entry `k`; when that is 0 it sets `pll_on = true`
on the world entry `k` left, otherwise (every sequence failed) it returns the error code
of the last sequence and leaves the world as that sequence left it. -/
theorem enable_alternate_seqs (w : World) (vco : dsi_pll_vco_clk) (pll : Nat)
    (hv : vco.priv = some pll) (hc : 0 < vco.pll_en_seq_cnt)
    (hl : vco.pll_en_seq_cnt ≤ vco.pll_enable_seqs.length) :
    ∃ k, k < vco.pll_en_seq_cnt ∧
      (∀ j < k, enable_seqs_rc vco.pll_enable_seqs (some pll) w j ≠ 0) ∧
      (enable_seqs_rc vco.pll_enable_seqs (some pll) w k = 0 ∨ k + 1 = vco.pll_en_seq_cnt) ∧
      dsi_pll_enable w vco = some (enable_seqs_rc vco.pll_enable_seqs (some pll) w k,
        if enable_seqs_rc vco.pll_enable_seqs (some pll) w k = 0 then
          (enable_seqs_world vco.pll_enable_seqs (some pll) w (k + 1)).set_pll pll
            { (enable_seqs_world vco.pll_enable_seqs (some pll) w (k + 1)).plls pll with
              pll_on := true }
        else enable_seqs_world vco.pll_enable_seqs (some pll) w (k + 1)) := by
  obtain ⟨n, hn⟩ : ∃ n, vco.pll_en_seq_cnt = n + 1 := ⟨vco.pll_en_seq_cnt - 1, by omega⟩
  obtain ⟨k, -, k2, k3, k4, k5⟩ := dsi_pll_enable_loop_spec vco.pll_enable_seqs (some pll) w n 0 0
    (by omega)
  refine ⟨k, by omega, fun j hj => k3 j (Nat.zero_le _) hj, ?_, ?_⟩
  · rcases k4 with h | h
    · exact Or.inl h
    · exact Or.inr (by omega)
  · have k5' : dsi_pll_enable_loop vco.pll_enable_seqs (some pll) (n + 1) 0 0 w = _ := k5
    simp only [dsi_pll_enable, hv, hn, k5', Option.bind_eq_bind, Option.some_bind,
      Option.pure_def]
    by_cases h : enable_seqs_rc vco.pll_enable_seqs (some pll) w k = 0
    · rw [if_neg (not_not.mpr h), if_pos h]
    · rw [if_pos h, if_neg h]

/-- C12 (amended) on the sample clock, whose single sequence is the start-and-poll sequence. -/
theorem enable_alternate_seqs_witness :
    (sample_vco.priv = some 0 ∧ 0 < sample_vco.pll_en_seq_cnt ∧
      sample_vco.pll_en_seq_cnt ≤ sample_vco.pll_enable_seqs.length) ∧
    ∃ k, k < sample_vco.pll_en_seq_cnt ∧
      (∀ j < k, enable_seqs_rc sample_vco.pll_enable_seqs (some 0) sample_world j ≠ 0) ∧
      (enable_seqs_rc sample_vco.pll_enable_seqs (some 0) sample_world k = 0 ∨
        k + 1 = sample_vco.pll_en_seq_cnt) ∧
      dsi_pll_enable sample_world sample_vco =
        some (enable_seqs_rc sample_vco.pll_enable_seqs (some 0) sample_world k,
          if enable_seqs_rc sample_vco.pll_enable_seqs (some 0) sample_world k = 0 then
            (enable_seqs_world sample_vco.pll_enable_seqs (some 0) sample_world (k + 1)).set_pll 0
              { (enable_seqs_world sample_vco.pll_enable_seqs (some 0) sample_world
                  (k + 1)).plls 0 with pll_on := true }
          else enable_seqs_world sample_vco.pll_enable_seqs (some 0) sample_world (k + 1)) :=
  ⟨⟨rfl, by decide, by decide⟩,
    enable_alternate_seqs sample_world sample_vco 0 rfl (by decide) (by decide)⟩

/-- C12 as stated fails: for a clock without any enable sequence `dsi_pll_enable` returns 0 and
sets `pll_on = true` although no sequence was invoked (the trace is empty). -/
theorem enable_alternate_seqs_counterexample :
    sample_vco_noseq.pll_en_seq_cnt = 0 ∧ (sample_world.plls 0).pll_on = false ∧
    (dsi_pll_enable sample_world sample_vco_noseq).map
      (fun x => (x.1, (x.2.plls 0).pll_on, x.2.trace)) = some (0, true, []) := by
  decide

/-- Three sequences, the second of which succeeds: the first two are invoked in order, the
third is not, and the call returns 0 with `pll_on` set. -/
theorem enable_sample_second_succeeds :
    (dsi_pll_enable sample_world sample_vco_three).map
      (fun x => (x.1, (x.2.plls 0).pll_on, x.2.trace)) =
      some (0, true, [Event.write 0 Reg.DSIPHY_PLL_VREF_CFG1 1,
        Event.write 0 Reg.DSIPHY_PLL_VREF_CFG1 2]) := by
  decide

/-- Two sequences that fail: both are invoked in order and the call returns the error code of
the second, with `pll_on` left unset. -/
theorem enable_sample_all_fail :
    (dsi_pll_enable sample_world sample_vco_fail).map
      (fun x => (x.1, (x.2.plls 0).pll_on, x.2.trace)) =
      some (-7, false, [Event.write 0 Reg.DSIPHY_PLL_VREF_CFG1 1,
        Event.write 0 Reg.DSIPHY_PLL_VREF_CFG1 2]) := by
  decide

/-- The start-and-poll sequence as the single entry, on hardware that locks at once. -/
theorem enable_sample_locked :
    (dsi_pll_enable sample_world_locked sample_vco).map
      (fun x => (x.1, (x.2.plls 0).pll_on, x.2.nreads 0)) = some (0, true, 2) := by
  decide

/-! ## Disable -/

/-- C13: `dsi_pll_disable` called with `pll_on = false` leaves the world as it is (no register
write, no field changed); called with `pll_on = true` it writes `CMN_PLL_CNTRL = 0` (its only
hardware action) and sets `pll_on = false` and `handoff_resources = false`, changing nothing
else; and a second disable after a disable changes nothing. -/
theorem disable_repeat_safe (w : World) (vco : dsi_pll_vco_clk) (pll : Nat)
    (hv : vco.priv = some pll) :
    ((w.plls pll).pll_on = false → dsi_pll_disable w vco = some w) ∧
    ((w.plls pll).pll_on = true → ∃ w1, dsi_pll_disable w vco = some w1 ∧
      w1.trace = w.trace ++ [Event.write (w.plls pll).pll_base Reg.DSIPHY_CMN_PLL_CNTRL 0] ∧
      w1.mmio (w.plls pll).pll_base Reg.DSIPHY_CMN_PLL_CNTRL = 0 ∧
      (∀ b r, ¬ (b = (w.plls pll).pll_base ∧ r = Reg.DSIPHY_CMN_PLL_CNTRL) →
        w1.mmio b r = w.mmio b r) ∧
      w1.plls pll = { w.plls pll with pll_on := false, handoff_resources := false } ∧
      (∀ i, i ≠ pll → w1.plls i = w.plls i) ∧
      w1.pdbs = w.pdbs ∧ w1.status = w.status ∧ w1.nreads = w.nreads) ∧
    (∃ w1, dsi_pll_disable w vco = some w1 ∧ dsi_pll_disable w1 vco = some w1) := by
  have heq : ∀ x : World, dsi_pll_disable x vco =
      if (x.plls pll).pll_on = true then
        some ((dsi_pll_stop_14nm
          (x.set_pll pll { x.plls pll with handoff_resources := false })
          ((x.set_pll pll { x.plls pll with handoff_resources := false }).plls pll).pll_base).set_pll
            pll { (dsi_pll_stop_14nm
              (x.set_pll pll { x.plls pll with handoff_resources := false })
              ((x.set_pll pll { x.plls pll with handoff_resources := false }).plls
                pll).pll_base).plls pll with pll_on := false })
      else some x := by
    intro x
    unfold dsi_pll_disable
    rw [hv]
    simp only [Option.bind_eq_bind, Option.some_bind]
    by_cases hx : (x.plls pll).pll_on = true
    · rw [if_pos hx, if_neg (by rw [hx]; decide)]
      rfl
    · rw [if_neg hx, if_pos (by simpa using hx)]
      rfl
  have hoff : ∀ x : World, (x.plls pll).pll_on = false → dsi_pll_disable x vco = some x := by
    intro x hx
    rw [heq, if_neg (by rw [hx]; decide)]
  have hon : (w.plls pll).pll_on = true → ∃ w1, dsi_pll_disable w vco = some w1 ∧
      w1.trace = w.trace ++ [Event.write (w.plls pll).pll_base Reg.DSIPHY_CMN_PLL_CNTRL 0] ∧
      w1.mmio (w.plls pll).pll_base Reg.DSIPHY_CMN_PLL_CNTRL = 0 ∧
      (∀ b r, ¬ (b = (w.plls pll).pll_base ∧ r = Reg.DSIPHY_CMN_PLL_CNTRL) →
        w1.mmio b r = w.mmio b r) ∧
      w1.plls pll = { w.plls pll with pll_on := false, handoff_resources := false } ∧
      (∀ i, i ≠ pll → w1.plls i = w.plls i) ∧
      w1.pdbs = w.pdbs ∧ w1.status = w.status ∧ w1.nreads = w.nreads := by
    intro hx
    refine ⟨_, by rw [heq, if_pos hx], ?_, ?_, ?_, ?_, ?_, ?_, ?_, ?_⟩
    · simp [dsi_pll_stop_14nm, DSI_PLL_REG_W, World.set_pll, World.emit, to_u32]
    · simp [dsi_pll_stop_14nm, DSI_PLL_REG_W, World.set_pll, World.emit, to_u32]
    · intro b r hbr
      simp [dsi_pll_stop_14nm, DSI_PLL_REG_W, World.set_pll, World.emit, to_u32, hbr]
    · simp [dsi_pll_stop_14nm, DSI_PLL_REG_W, World.set_pll, World.emit]
    · intro i hi
      simp [dsi_pll_stop_14nm, DSI_PLL_REG_W, World.set_pll, World.emit, hi]
    · rfl
    · rfl
    · rfl
  refine ⟨hoff w, hon, ?_⟩
  cases hx : (w.plls pll).pll_on
  · exact ⟨w, hoff w hx, hoff w hx⟩
  · obtain ⟨w1, h1, -, -, -, h5, -⟩ := hon hx
    exact ⟨w1, h1, hoff w1 (by rw [h5])⟩

/-- C13 on the sample device with the PLL switched on. -/
theorem disable_repeat_safe_witness :
    sample_vco.priv = some 0 ∧
    (((sample_world_on.plls 0).pll_on = false →
      dsi_pll_disable sample_world_on sample_vco = some sample_world_on) ∧
    ((sample_world_on.plls 0).pll_on = true → ∃ w1,
      dsi_pll_disable sample_world_on sample_vco = some w1 ∧
      w1.trace = sample_world_on.trace ++
        [Event.write (sample_world_on.plls 0).pll_base Reg.DSIPHY_CMN_PLL_CNTRL 0] ∧
      w1.mmio (sample_world_on.plls 0).pll_base Reg.DSIPHY_CMN_PLL_CNTRL = 0 ∧
      (∀ b r, ¬ (b = (sample_world_on.plls 0).pll_base ∧ r = Reg.DSIPHY_CMN_PLL_CNTRL) →
        w1.mmio b r = sample_world_on.mmio b r) ∧
      w1.plls 0 = { sample_world_on.plls 0 with pll_on := false, handoff_resources := false } ∧
      (∀ i, i ≠ 0 → w1.plls i = sample_world_on.plls i) ∧
      w1.pdbs = sample_world_on.pdbs ∧ w1.status = sample_world_on.status ∧
      w1.nreads = sample_world_on.nreads) ∧
    (∃ w1, dsi_pll_disable sample_world_on sample_vco = some w1 ∧
      dsi_pll_disable w1 sample_vco = some w1)) :=
  ⟨rfl, disable_repeat_safe sample_world_on sample_vco 0 rfl⟩

/-- A disable of the switched-on sample device, and a second disable after it. -/
theorem disable_sample_run :
    (dsi_pll_disable sample_world_on sample_vco).map
      (fun x => ((x.plls 0).pll_on, (x.plls 0).handoff_resources, x.trace)) =
      some (false, false, [Event.write 0 Reg.DSIPHY_CMN_PLL_CNTRL 0]) ∧
    ((dsi_pll_disable sample_world_on sample_vco).bind (fun x => dsi_pll_disable x sample_vco)).map
      (fun x => ((x.plls 0).pll_on, (x.plls 0).handoff_resources, x.trace)) =
      some (false, false, [Event.write 0 Reg.DSIPHY_CMN_PLL_CNTRL 0]) := by
  decide

/-! ## Topology classification -/

theorem and_bit2_shift (x : Nat) : (x &&& BIT 2) >>> 2 = x / 4 % 2 := by
  rw [shiftRight_and, BIT, Nat.shiftRight_eq_div_pow]
  exact Nat.and_pow_two_sub_one_eq_mod (x / 2 ^ 2) 1

theorem and_output_mask (x : Nat) : x &&& (PLL_OUTPUT_RIGHT ||| PLL_OUTPUT_LEFT) = x % 4 :=
  Nat.and_pow_two_sub_one_eq_mod x 2

/-- The role `pll_source_finding` returns, by the source bit and the buffer-enable bits. -/
theorem pll_source_finding_role (w : World) (pll : Nat) :
    (pll_source_finding w pll).1 =
      if to_u32 (w.mmio (w.plls pll).pll_base Reg.DSIPHY_CMN_GLBL_TEST_CTRL) / 4 % 2 =
          PLL_SOURCE_FROM_LEFT ∧
        to_u32 (w.mmio (w.plls pll).pll_base Reg.DSIPHY_PLL_CLKBUFLR_EN) % 4 = PLL_OUTPUT_BOTH
      then PllRole.PLL_MASTER
      else if to_u32 (w.mmio (w.plls pll).pll_base Reg.DSIPHY_CMN_GLBL_TEST_CTRL) / 4 % 2 =
          PLL_SOURCE_FROM_RIGHT ∧
        to_u32 (w.mmio (w.plls pll).pll_base Reg.DSIPHY_PLL_CLKBUFLR_EN) % 4 = PLL_OUTPUT_NONE
      then PllRole.PLL_SLAVE
      else if to_u32 (w.mmio (w.plls pll).pll_base Reg.DSIPHY_CMN_GLBL_TEST_CTRL) / 4 % 2 =
          PLL_SOURCE_FROM_LEFT ∧
        to_u32 (w.mmio (w.plls pll).pll_base Reg.DSIPHY_PLL_CLKBUFLR_EN) % 4 = PLL_OUTPUT_RIGHT
      then PllRole.PLL_STANDALONE
      else PllRole.PLL_UNKNOWN := by
  simp only [pll_source_finding, DSI_PLL_REG_R_of_ne _ _ Reg.DSIPHY_CMN_GLBL_TEST_CTRL (by decide),
    DSI_PLL_REG_R_of_ne _ _ Reg.DSIPHY_PLL_CLKBUFLR_EN (by decide), emit_plls, emit_read_mmio,
    and_bit2_shift, and_output_mask]
  split_ifs <;> rfl

/-- C14: `pll_source_finding` depends only on bit 2 of `CMN_GLBL_TEST_CTRL` (the source `src`:
left = 0, right = 1) and on bits 0-1 of `PLL_CLKBUFLR_EN` (the buffer enable `buf`: none,
right, left, both); it returns Master for (both, left), Slave for (none, right), Standalone
for (right, left) and Unknown for each of the five other combinations. -/
theorem source_finding_table (w : World) (pll : Nat) :
    let src := to_u32 (w.mmio (w.plls pll).pll_base Reg.DSIPHY_CMN_GLBL_TEST_CTRL) / 4 % 2
    let buf := to_u32 (w.mmio (w.plls pll).pll_base Reg.DSIPHY_PLL_CLKBUFLR_EN) % 4
    let role := (pll_source_finding w pll).1
    (src = PLL_SOURCE_FROM_LEFT ∨ src = PLL_SOURCE_FROM_RIGHT) ∧
    (buf = PLL_OUTPUT_NONE ∨ buf = PLL_OUTPUT_RIGHT ∨ buf = PLL_OUTPUT_LEFT ∨
      buf = PLL_OUTPUT_BOTH) ∧
    (src = PLL_SOURCE_FROM_LEFT ∧ buf = PLL_OUTPUT_BOTH → role = PllRole.PLL_MASTER) ∧
    (src = PLL_SOURCE_FROM_RIGHT ∧ buf = PLL_OUTPUT_NONE → role = PllRole.PLL_SLAVE) ∧
    (src = PLL_SOURCE_FROM_LEFT ∧ buf = PLL_OUTPUT_RIGHT → role = PllRole.PLL_STANDALONE) ∧
    (src = PLL_SOURCE_FROM_LEFT ∧ buf = PLL_OUTPUT_NONE → role = PllRole.PLL_UNKNOWN) ∧
    (src = PLL_SOURCE_FROM_LEFT ∧ buf = PLL_OUTPUT_LEFT → role = PllRole.PLL_UNKNOWN) ∧
    (src = PLL_SOURCE_FROM_RIGHT ∧ buf = PLL_OUTPUT_RIGHT → role = PllRole.PLL_UNKNOWN) ∧
    (src = PLL_SOURCE_FROM_RIGHT ∧ buf = PLL_OUTPUT_LEFT → role = PllRole.PLL_UNKNOWN) ∧
    (src = PLL_SOURCE_FROM_RIGHT ∧ buf = PLL_OUTPUT_BOTH → role = PllRole.PLL_UNKNOWN) := by
  intro src buf role
  have hrole : role =
      if src = PLL_SOURCE_FROM_LEFT ∧ buf = PLL_OUTPUT_BOTH then PllRole.PLL_MASTER
      else if src = PLL_SOURCE_FROM_RIGHT ∧ buf = PLL_OUTPUT_NONE then PllRole.PLL_SLAVE
      else if src = PLL_SOURCE_FROM_LEFT ∧ buf = PLL_OUTPUT_RIGHT then PllRole.PLL_STANDALONE
      else PllRole.PLL_UNKNOWN := pll_source_finding_role w pll
  have hs : src < 2 := Nat.mod_lt _ (by decide)
  have hb : buf < 4 := Nat.mod_lt _ (by decide)
  rw [hrole]
  simp only [PLL_SOURCE_FROM_LEFT, PLL_SOURCE_FROM_RIGHT, PLL_OUTPUT_NONE, PLL_OUTPUT_RIGHT,
    PLL_OUTPUT_LEFT, PLL_OUTPUT_BOTH]
  refine ⟨by omega, by omega, ?_, ?_, ?_, ?_, ?_, ?_, ?_, ?_⟩ <;>
    (rintro ⟨h1, h2⟩; simp [h1, h2])

/-- The four documented register settings on the sample device: both buffers with source left,
no buffer with source right, right buffer with source left, and left buffer with source
right. -/
theorem source_finding_samples :
    (pll_source_finding { sample_world with mmio := fun _ r =>
      if r = Reg.DSIPHY_PLL_CLKBUFLR_EN then 3 else 0 } 0).1 = PllRole.PLL_MASTER ∧
    (pll_source_finding { sample_world with mmio := fun _ r =>
      if r = Reg.DSIPHY_CMN_GLBL_TEST_CTRL then 4 else 0 } 0).1 = PllRole.PLL_SLAVE ∧
    (pll_source_finding { sample_world with mmio := fun _ r =>
      if r = Reg.DSIPHY_PLL_CLKBUFLR_EN then 1 else 0 } 0).1 = PllRole.PLL_STANDALONE ∧
    (pll_source_finding { sample_world with mmio := fun _ r =>
      if r = Reg.DSIPHY_PLL_CLKBUFLR_EN then 2 else 4 } 0).1 = PllRole.PLL_UNKNOWN := by
  decide

/-! ## Topology linking -/

/-- The first topology setup of an instance: the flag is set, the registers keep their
content, and the `slave` link that the role and the neighbour call for is made. -/
theorem pll_source_setup_first (w : World) (pll pdb : Nat)
    (hp : (w.plls pll).priv = some pdb) (hd : (w.pdbs pdb).source_setup_done = 0) :
    ∃ w1, pll_source_setup w pll = some w1 ∧ w1.mmio = w.mmio ∧
      w1.pdbs = (fun i => if i = pdb then { w.pdbs pdb with source_setup_done := 1 }
        else w.pdbs i) ∧
      w1.plls =
        (match (pll_source_finding w pll).1, (w.pdbs (w.pdbs pdb).next).pll with
          | PllRole.PLL_MASTER, some o =>
            fun i => if i = pll then { w.plls pll with slave := some o } else w.plls i
          | PllRole.PLL_SLAVE, some o =>
            fun i => if i = o then { w.plls o with slave := some pll } else w.plls i
          | _, _ => w.plls) := by
  have hr : (pll_source_finding (w.set_pdb pdb { w.pdbs pdb with
      source_setup_done := to_s32 ((w.pdbs pdb).source_setup_done + 1) }) pll).1 =
      (pll_source_finding w pll).1 := by
    rw [pll_source_finding_role, pll_source_finding_role]
    rfl
  have hw := pll_source_finding_world (w.set_pdb pdb { w.pdbs pdb with
    source_setup_done := to_s32 ((w.pdbs pdb).source_setup_done + 1) }) pll
  simp only [pll_source_setup, hp, Option.bind_eq_bind, Option.some_bind]
  rw [if_neg (by rw [hd]; decide)]
  generalize hf : pll_source_finding (w.set_pdb pdb { w.pdbs pdb with
    source_setup_done := to_s32 ((w.pdbs pdb).source_setup_done + 1) }) pll = res at hw hr
  obtain ⟨st, W1⟩ := res
  simp only at hw hr
  have hmm : W1.mmio = w.mmio := by
    rw [hw]
    funext b r
    rw [emit_read_mmio, emit_read_mmio]
    rfl
  have hpl : W1.plls = w.plls := by
    rw [hw, emit_plls, emit_plls]; rfl
  have hpd : W1.pdbs = (fun i => if i = pdb then { w.pdbs pdb with source_setup_done := 1 }
      else w.pdbs i) := by
    rw [hw, emit_pdbs, emit_pdbs, hd]
    rfl
  have hnext : (W1.pdbs (W1.pdbs pdb).next).pll = (w.pdbs (w.pdbs pdb).next).pll := by
    rw [hpd]
    simp only [if_true]
    split_ifs with h
    · rw [h]
    · rfl
  show ∃ w1, (if st = PllRole.PLL_STANDALONE ∨ st = PllRole.PLL_UNKNOWN then some W1
      else match (W1.pdbs (W1.pdbs pdb).next).pll with
        | none => some W1
        | some other =>
          if st = PllRole.PLL_MASTER then
            some (W1.set_pll pll { W1.plls pll with slave := some other })
          else some (W1.set_pll other { W1.plls other with slave := some pll })) = some w1 ∧ _
  rw [hnext, ← hr]
  cases ho : (w.pdbs (w.pdbs pdb).next).pll with
  | none =>
    refine ⟨W1, ?_, hmm, hpd, ?_⟩
    · split_ifs <;> rfl
    · rw [hpl]; cases st <;> rfl
  | some o =>
    cases st with
    | PLL_UNKNOWN => exact ⟨W1, by simp, hmm, hpd, hpl⟩
    | PLL_STANDALONE => exact ⟨W1, by simp, hmm, hpd, hpl⟩
    | PLL_SLAVE =>
      refine ⟨W1.set_pll o { W1.plls o with slave := some pll }, by simp, hmm, hpd, ?_⟩
      simp only [World.set_pll, hpl]
    | PLL_MASTER =>
      refine ⟨W1.set_pll pll { W1.plls pll with slave := some o }, by simp, hmm, hpd, ?_⟩
      simp only [World.set_pll, hpl, hp]

/-- The role of an instance depends on the world only through the register contents and the
block of the instance. -/
theorem pll_source_finding_role_congr (w w1 : World) (pll : Nat) (hm : w1.mmio = w.mmio)
    (hb : (w1.plls pll).pll_base = (w.plls pll).pll_base) :
    (pll_source_finding w1 pll).1 = (pll_source_finding w pll).1 := by
  rw [pll_source_finding_role, pll_source_finding_role, hm, hb]

/-- The topology setup keeps the parameter block pointer and the register block of every
resource. -/
theorem pll_source_setup_keeps (w w1 : World) (pll pdb : Nat)
    (hp : (w.plls pll).priv = some pdb) (h1 : pll_source_setup w pll = some w1) (i : Nat) :
    (w1.plls i).priv = (w.plls i).priv ∧ (w1.plls i).pll_base = (w.plls i).pll_base ∧
      (w1.plls i).ssc_en = (w.plls i).ssc_en := by
  obtain ⟨w0, h0, hs, -⟩ := pll_source_setup_spec w pll pdb hp
  have e : w0 = w1 := Option.some.inj (h0.symm.trans h1)
  subst e
  obtain ⟨s, hs⟩ := hs i
  rw [hs]
  exact ⟨rfl, rfl, rfl⟩

/-- A topology setup with the one-shot flag set leaves the world as it is. -/
theorem pll_source_setup_later (w : World) (pll pdb : Nat)
    (hp : (w.plls pll).priv = some pdb) (hd : (w.pdbs pdb).source_setup_done ≠ 0) :
    pll_source_setup w pll = some w := by
  simp only [pll_source_setup, hp, Option.bind_eq_bind, Option.some_bind]
  rw [if_pos hd]
  rfl

/-- C15: the first call of `pll_source_setup` on an instance sets `pll.slave = other` when the
instance classifies as Master and `other.slave = pll` when it classifies as Slave (`other`
being the resource of the neighbour block, when present) and changes no `slave` link when it
classifies as Standalone or Unknown or has no neighbour resource; a later call on the instance
returns the world unchanged, whatever the registers hold; and for a wired master/slave pair
the link after both setups, in either order, is `master.slave = slave`, made by whichever
setup comes first. -/
theorem source_setup_one_shot (w : World) :
    (∀ pll pdb, (w.plls pll).priv = some pdb → (w.pdbs pdb).source_setup_done = 0 →
      ∃ w1, pll_source_setup w pll = some w1 ∧
        (∀ o, (pll_source_finding w pll).1 = PllRole.PLL_MASTER →
          (w.pdbs (w.pdbs pdb).next).pll = some o →
          (w1.plls pll).slave = some o ∧ ∀ i, i ≠ pll → (w1.plls i).slave = (w.plls i).slave) ∧
        (∀ o, (pll_source_finding w pll).1 = PllRole.PLL_SLAVE →
          (w.pdbs (w.pdbs pdb).next).pll = some o →
          (w1.plls o).slave = some pll ∧ ∀ i, i ≠ o → (w1.plls i).slave = (w.plls i).slave) ∧
        ((pll_source_finding w pll).1 = PllRole.PLL_STANDALONE ∨
          (pll_source_finding w pll).1 = PllRole.PLL_UNKNOWN ∨
          (w.pdbs (w.pdbs pdb).next).pll = none → w1.plls = w.plls) ∧
        (w1.pdbs pdb).source_setup_done = 1 ∧
        (∀ w2 : World, (w2.plls pll).priv = some pdb →
          (w2.pdbs pdb).source_setup_done = (w1.pdbs pdb).source_setup_done →
          pll_source_setup w2 pll = some w2) ∧
        pll_source_setup w1 pll = some w1) ∧
    (∀ pll pdb, (w.plls pll).priv = some pdb → (w.pdbs pdb).source_setup_done ≠ 0 →
      pll_source_setup w pll = some w) ∧
    (∀ m s dm ds, m ≠ s → dm ≠ ds →
      (w.plls m).priv = some dm → (w.plls s).priv = some ds →
      (w.pdbs dm).source_setup_done = 0 → (w.pdbs ds).source_setup_done = 0 →
      (w.pdbs (w.pdbs dm).next).pll = some s → (w.pdbs (w.pdbs ds).next).pll = some m →
      (pll_source_finding w m).1 = PllRole.PLL_MASTER →
      (pll_source_finding w s).1 = PllRole.PLL_SLAVE →
      (∃ w1 w2, pll_source_setup w m = some w1 ∧ pll_source_setup w1 s = some w2 ∧
        (w1.plls m).slave = some s ∧ (w2.plls m).slave = some s ∧
        (w2.plls s).slave = (w.plls s).slave) ∧
      (∃ w1 w2, pll_source_setup w s = some w1 ∧ pll_source_setup w1 m = some w2 ∧
        (w1.plls m).slave = some s ∧ (w2.plls m).slave = some s ∧
        (w2.plls s).slave = (w.plls s).slave)) := by
  refine ⟨?_, fun pll pdb hp hd => pll_source_setup_later w pll pdb hp hd, ?_⟩
  · intro pll pdb hp hd
    obtain ⟨w1, h1, -, hpd, hpl⟩ := pll_source_setup_first w pll pdb hp hd
    have hdone : (w1.pdbs pdb).source_setup_done = 1 := by rw [hpd]; simp
    have hpriv : (w1.plls pll).priv = some pdb := by
      rw [(pll_source_setup_keeps w w1 pll pdb hp h1 pll).1, hp]
    refine ⟨w1, h1, ?_, ?_, ?_, hdone, ?_, ?_⟩
    · intro o hr ho
      rw [hpl, hr, ho]
      exact ⟨by simp, fun i hi => by simp [hi]⟩
    · intro o hr ho
      rw [hpl, hr, ho]
      exact ⟨by simp, fun i hi => by simp [hi]⟩
    · intro h
      rw [hpl]
      rcases h with h | h | h
      · rw [h]
      · rw [h]
      · rw [h]; cases (pll_source_finding w pll).1 <;> rfl
    · intro w2 hp2 hd2
      exact pll_source_setup_later w2 pll pdb hp2 (by rw [hd2, hdone]; decide)
    · exact pll_source_setup_later w1 pll pdb hpriv (by rw [hdone]; decide)
  · intro m s dm ds hms hd hpm hps hdm hds hnm hns hrm hrs
    constructor
    · obtain ⟨w1, h1, hmm1, hpd1, hpl1⟩ := pll_source_setup_first w m dm hpm hdm
      rw [hrm, hnm] at hpl1
      have hps1 : (w1.plls s).priv = some ds := by
        rw [(pll_source_setup_keeps w w1 m dm hpm h1 s).1, hps]
      have hds1 : (w1.pdbs ds).source_setup_done = 0 := by
        rw [hpd1]; simp only [if_neg (Ne.symm hd)]; exact hds
      have hrs1 : (pll_source_finding w1 s).1 = PllRole.PLL_SLAVE := by
        rw [pll_source_finding_role_congr w w1 s hmm1
          (pll_source_setup_keeps w w1 m dm hpm h1 s).2.1, hrs]
      have hns1 : (w1.pdbs (w1.pdbs ds).next).pll = some m := by
        rw [hpd1]
        simp only [if_neg (Ne.symm hd)]
        split_ifs with h
        · rw [← h]; exact hns
        · exact hns
      obtain ⟨w2, h2, -, -, hpl2⟩ := pll_source_setup_first w1 s ds hps1 hds1
      rw [hrs1, hns1] at hpl2
      refine ⟨w1, w2, h1, h2, ?_, ?_, ?_⟩
      · rw [hpl1]; simp
      · rw [hpl2]; simp
      · rw [hpl2, hpl1]; simp [Ne.symm hms]
    · obtain ⟨w1, h1, hmm1, hpd1, hpl1⟩ := pll_source_setup_first w s ds hps hds
      rw [hrs, hns] at hpl1
      have hpm1 : (w1.plls m).priv = some dm := by
        rw [(pll_source_setup_keeps w w1 s ds hps h1 m).1, hpm]
      have hdm1 : (w1.pdbs dm).source_setup_done = 0 := by
        rw [hpd1]; simp only [if_neg hd]; exact hdm
      have hrm1 : (pll_source_finding w1 m).1 = PllRole.PLL_MASTER := by
        rw [pll_source_finding_role_congr w w1 m hmm1
          (pll_source_setup_keeps w w1 s ds hps h1 m).2.1, hrm]
      have hnm1 : (w1.pdbs (w1.pdbs dm).next).pll = some s := by
        rw [hpd1]
        simp only [if_neg hd]
        split_ifs with h
        · rw [← h]; exact hnm
        · exact hnm
      obtain ⟨w2, h2, -, -, hpl2⟩ := pll_source_setup_first w1 m dm hpm1 hdm1
      rw [hrm1, hnm1] at hpl2
      refine ⟨w1, w2, h1, h2, ?_, ?_, ?_⟩
      · rw [hpl1]; simp
      · rw [hpl2]; simp
      · rw [hpl2, hpl1]; simp [Ne.symm hms]

/-- The wired sample pair: the setup of the master alone, of the slave alone, and of both in
either order link the slave to the master, and a repeated setup changes nothing. -/
theorem source_setup_sample_pair :
    (pll_source_setup sample_world_pair 0).map (fun x => ((x.plls 0).slave, (x.plls 1).slave)) =
      some (some 1, none) ∧
    (pll_source_setup sample_world_pair 1).map (fun x => ((x.plls 0).slave, (x.plls 1).slave)) =
      some (some 1, none) ∧
    ((pll_source_setup sample_world_pair 0).bind (fun x => pll_source_setup x 1)).map
      (fun x => ((x.plls 0).slave, (x.plls 1).slave)) = some (some 1, none) ∧
    ((pll_source_setup sample_world_pair 1).bind (fun x => pll_source_setup x 0)).map
      (fun x => ((x.plls 0).slave, (x.plls 1).slave)) = some (some 1, none) ∧
    ((pll_source_setup sample_world_pair 0).bind (fun x => pll_source_setup x 0)).map
      (fun x => ((x.plls 0).slave, (x.plls 1).slave, x.trace.length)) =
      some (some 1, none, 2) := by
  decide

/-! ## Commit write order -/

theorem reg_writes_append (a b : List Event) : reg_writes (a ++ b) = reg_writes a ++ reg_writes b := by
  induction a with
  | nil => rfl
  | cons e es ih => cases e <;> simp [reg_writes, ih]

/-- The trace of the live commit: the actions of `pll_db_commit_14nm_seq` follow the trace so
far. -/
theorem pll_db_commit_14nm_trace (w : World) (pll pdb : Nat) :
    (pll_db_commit_14nm w pll pdb).trace =
      w.trace ++ pll_db_commit_14nm_seq (w.plls pll) (w.pdbs pdb) := by
  rw [pll_db_commit_14nm, run_trace]

/-- C17: the trace of `pll_db_commit_14nm` is the write of `CMN_LDO_CNTRL`, the writes of the
common block, `CMN_PLL_CNTRL = 0`, the reset pulse `CMN_CTRL_1 = 0x20` (barrier, 10 us delay)
and `CMN_CTRL_1 = 0` (barrier), `CMN_CLK_CFG1`, `CMN_CTRL_0 = 0xff`, then the
frequency-dependent writes (`DEC_START`, `DIV_FRAC_START1-3`, `PLLLOCK_CMP1-3`,
`PLLLOCK_CMP_EN`, `VCO_COUNT1-2`, `KVCO_COUNT1-2`, `PLL_LPF2_POSTDIV`, `CMN_CLK_CFG0`), then the
spread-spectrum writes, which are there if and only if `ssc_en` is set, and the final
barrier. -/
theorem commit_write_order (w : World) (pll pdb : Nat) :
    let base := (w.plls pll).pll_base
    ∃ ldo clk_sel : Nat, ∃ common freq ssc : List Event,
      (pll_db_commit_14nm w pll pdb).trace =
        w.trace ++ [Event.write base Reg.DSIPHY_CMN_LDO_CNTRL ldo] ++ common ++
          [ Event.write base Reg.DSIPHY_CMN_PLL_CNTRL 0,
            Event.write base Reg.DSIPHY_CMN_CTRL_1 0x20, Event.wmb, Event.udelay 10,
            Event.write base Reg.DSIPHY_CMN_CTRL_1 0, Event.wmb,
            Event.write base Reg.DSIPHY_CMN_CLK_CFG1 clk_sel,
            Event.write base Reg.DSIPHY_CMN_CTRL_0 0xff ] ++ freq ++ ssc ++ [Event.wmb] ∧
      (∀ e ∈ common ++ freq, ∃ r v, e = Event.write base r v) ∧
      (reg_writes common).map Prod.fst =
        [ Reg.DSIPHY_PLL_SYSCLK_EN_RESET, Reg.DSIPHY_PLL_TXCLK_EN, Reg.DSIPHY_PLL_RESETSM_CNTRL,
          Reg.DSIPHY_PLL_RESETSM_CNTRL2, Reg.DSIPHY_PLL_RESETSM_CNTRL5,
          Reg.DSIPHY_PLL_VCO_DIV_REF1, Reg.DSIPHY_PLL_VCO_DIV_REF2,
          Reg.DSIPHY_PLL_KVCO_DIV_REF1, Reg.DSIPHY_PLL_KVCO_DIV_REF2, Reg.DSIPHY_PLL_PLL_MISC1,
          Reg.DSIPHY_PLL_IE_TRIM, Reg.DSIPHY_PLL_IP_TRIM, Reg.DSIPHY_PLL_CP_SET_CUR,
          Reg.DSIPHY_PLL_PLL_ICPCSET, Reg.DSIPHY_PLL_PLL_ICPMSET, Reg.DSIPHY_PLL_PLL_ICP_SET,
          Reg.DSIPHY_PLL_PLL_LPF1, Reg.DSIPHY_PLL_IPTAT_TRIM, Reg.DSIPHY_PLL_PLL_CRCTRL ] ∧
      (reg_writes freq).map Prod.fst =
        [ Reg.DSIPHY_PLL_DEC_START, Reg.DSIPHY_PLL_DIV_FRAC_START1,
          Reg.DSIPHY_PLL_DIV_FRAC_START2, Reg.DSIPHY_PLL_DIV_FRAC_START3,
          Reg.DSIPHY_PLL_PLLLOCK_CMP1, Reg.DSIPHY_PLL_PLLLOCK_CMP2, Reg.DSIPHY_PLL_PLLLOCK_CMP3,
          Reg.DSIPHY_PLL_PLLLOCK_CMP_EN, Reg.DSIPHY_PLL_VCO_COUNT1, Reg.DSIPHY_PLL_VCO_COUNT2,
          Reg.DSIPHY_PLL_KVCO_COUNT1, Reg.DSIPHY_PLL_KVCO_COUNT2,
          Reg.DSIPHY_PLL_PLL_LPF2_POSTDIV, Reg.DSIPHY_CMN_CLK_CFG0 ] ∧
      ((w.plls pll).ssc_en = true →
        (reg_writes ssc).map Prod.fst =
          [ Reg.DSIPHY_PLL_SSC_ADJ_PER1, Reg.DSIPHY_PLL_SSC_ADJ_PER2, Reg.DSIPHY_PLL_SSC_PER1,
            Reg.DSIPHY_PLL_SSC_PER2, Reg.DSIPHY_PLL_SSC_STEP_SIZE1,
            Reg.DSIPHY_PLL_SSC_STEP_SIZE2, Reg.DSIPHY_PLL_SSC_EN_CENTER ] ∧
        ∀ e ∈ ssc, (∃ r v, e = Event.write base r v) ∨ e = Event.wmb) ∧
      ((w.plls pll).ssc_en = false → ssc = []) := by
  intro base
  refine ⟨to_u32 (to_char (w.pdbs pdb).out.cmn_ldo_cntrl),
    to_u32 (to_char (w.pdbs pdb).inp.dsiclk_sel),
    pll_db_commit_common_seq (w.plls pll) (w.pdbs pdb),
    ((pll_db_commit_14nm_seq (w.plls pll) (w.pdbs pdb)).drop 28).take 14,
    (if (w.plls pll).ssc_en then pll_db_commit_ssc_seq (w.plls pll) (w.pdbs pdb) else []),
    ?_, ?_, ?_, ?_, ?_, ?_⟩
  · rw [pll_db_commit_14nm_trace]
    simp [pll_db_commit_14nm_seq, pll_db_commit_common_seq, reg_w, base, to_u32, to_char]
  · simp [pll_db_commit_14nm_seq, pll_db_commit_common_seq, reg_w, base]
  · simp [pll_db_commit_common_seq, reg_writes, reg_w]
  · simp [pll_db_commit_14nm_seq, pll_db_commit_common_seq, reg_writes, reg_w]
  · intro h
    rw [h]
    refine ⟨by simp [pll_db_commit_ssc_seq, reg_writes, reg_w], ?_⟩
    simp [pll_db_commit_ssc_seq, reg_w, base]
  · intro h
    rw [h]
    rfl

/-! ## Multi-register fields -/

theorem and_255 (x : Nat) : x &&& 255 = x % 256 := Nat.and_pow_two_sub_one_eq_mod x 8

theorem and_3 (x : Nat) : x &&& 3 = x % 4 := Nat.and_pow_two_sub_one_eq_mod x 2

/-- The content of the fractional-N and lock-comparator registers after the live commit. -/
theorem pll_db_commit_14nm_mmio (w : World) (pll pdb : Nat) :
    (pll_db_commit_14nm w pll pdb).mmio (w.plls pll).pll_base Reg.DSIPHY_PLL_DIV_FRAC_START1 =
      (w.pdbs pdb).out.div_frac_start % 256 ∧
    (pll_db_commit_14nm w pll pdb).mmio (w.plls pll).pll_base Reg.DSIPHY_PLL_DIV_FRAC_START2 =
      (w.pdbs pdb).out.div_frac_start / 256 % 256 ∧
    (pll_db_commit_14nm w pll pdb).mmio (w.plls pll).pll_base Reg.DSIPHY_PLL_DIV_FRAC_START3 =
      (w.pdbs pdb).out.div_frac_start / 65536 % 16 ∧
    (pll_db_commit_14nm w pll pdb).mmio (w.plls pll).pll_base Reg.DSIPHY_PLL_PLLLOCK_CMP1 =
      (w.pdbs pdb).out.plllock_cmp % 256 ∧
    (pll_db_commit_14nm w pll pdb).mmio (w.plls pll).pll_base Reg.DSIPHY_PLL_PLLLOCK_CMP2 =
      (w.pdbs pdb).out.plllock_cmp / 256 % 256 ∧
    (pll_db_commit_14nm w pll pdb).mmio (w.plls pll).pll_base Reg.DSIPHY_PLL_PLLLOCK_CMP3 =
      (w.pdbs pdb).out.plllock_cmp / 65536 % 4 := by
  obtain ⟨-, l1, l2, l3, l4, l5, l6⟩ :=
    pll_db_commit_14nm_seq_last_write (w.plls pll) (w.pdbs pdb)
  simp only [pll_db_commit_14nm, run_mmio, l1, l2, l3, l4, l5, l6, Option.getD_some, to_u32,
    to_char, and_255, and_15, and_3, Nat.shiftRight_eq_div_pow]
  refine ⟨?_, ?_, ?_, ?_, ?_, ?_⟩ <;> omega

/-- C18 (amended): the bytes `b1, b2, b3` that `pll_db_commit_14nm` writes to
`DIV_FRAC_START1/2/3` (8/8/4 bits) satisfy `b1 + 2^8*b2 + 2^16*b3 = div_frac_start` for every
`div_frac_start < 2^20`, and the bytes `c1, c2, c3` written to `PLLLOCK_CMP1/2/3` (8/8/2 bits)
satisfy `c1 + 2^8*c2 + 2^16*c3 = plllock_cmp` for every `plllock_cmp < 2^18`; in general the
three registers hold the low 20 bits and the low 18 bits of the two fields. -/
theorem commit_field_encoding (w : World) (pll pdb : Nat) :
    let base := (w.plls pll).pll_base
    let W := pll_db_commit_14nm w pll pdb
    let b1 := W.mmio base Reg.DSIPHY_PLL_DIV_FRAC_START1
    let b2 := W.mmio base Reg.DSIPHY_PLL_DIV_FRAC_START2
    let b3 := W.mmio base Reg.DSIPHY_PLL_DIV_FRAC_START3
    let c1 := W.mmio base Reg.DSIPHY_PLL_PLLLOCK_CMP1
    let c2 := W.mmio base Reg.DSIPHY_PLL_PLLLOCK_CMP2
    let c3 := W.mmio base Reg.DSIPHY_PLL_PLLLOCK_CMP3
    List.IsInfix
      [ Event.write base Reg.DSIPHY_PLL_DIV_FRAC_START1 b1,
        Event.write base Reg.DSIPHY_PLL_DIV_FRAC_START2 b2,
        Event.write base Reg.DSIPHY_PLL_DIV_FRAC_START3 b3,
        Event.write base Reg.DSIPHY_PLL_PLLLOCK_CMP1 c1,
        Event.write base Reg.DSIPHY_PLL_PLLLOCK_CMP2 c2,
        Event.write base Reg.DSIPHY_PLL_PLLLOCK_CMP3 c3 ]
      (pll_db_commit_14nm_seq (w.plls pll) (w.pdbs pdb)) ∧
    W.trace = w.trace ++ pll_db_commit_14nm_seq (w.plls pll) (w.pdbs pdb) ∧
    b1 < 2 ^ 8 ∧ b2 < 2 ^ 8 ∧ b3 < 2 ^ 4 ∧ c1 < 2 ^ 8 ∧ c2 < 2 ^ 8 ∧ c3 < 2 ^ 2 ∧
    b1 + 2 ^ 8 * b2 + 2 ^ 16 * b3 = (w.pdbs pdb).out.div_frac_start % 2 ^ 20 ∧
    c1 + 2 ^ 8 * c2 + 2 ^ 16 * c3 = (w.pdbs pdb).out.plllock_cmp % 2 ^ 18 ∧
    ((w.pdbs pdb).out.div_frac_start < 2 ^ 20 →
      b1 + 2 ^ 8 * b2 + 2 ^ 16 * b3 = (w.pdbs pdb).out.div_frac_start) ∧
    ((w.pdbs pdb).out.plllock_cmp < 2 ^ 18 →
      c1 + 2 ^ 8 * c2 + 2 ^ 16 * c3 = (w.pdbs pdb).out.plllock_cmp) := by
  intro base W b1 b2 b3 c1 c2 c3
  obtain ⟨m1, m2, m3, m4, m5, m6⟩ := pll_db_commit_14nm_mmio w pll pdb
  have e1 : b1 = (w.pdbs pdb).out.div_frac_start % 256 := m1
  have e2 : b2 = (w.pdbs pdb).out.div_frac_start / 256 % 256 := m2
  have e3 : b3 = (w.pdbs pdb).out.div_frac_start / 65536 % 16 := m3
  have e4 : c1 = (w.pdbs pdb).out.plllock_cmp % 256 := m4
  have e5 : c2 = (w.pdbs pdb).out.plllock_cmp / 256 % 256 := m5
  have e6 : c3 = (w.pdbs pdb).out.plllock_cmp / 65536 % 4 := m6
  refine ⟨?_, pll_db_commit_14nm_trace w pll pdb, by omega, by omega, by omega, by omega,
    by omega, by omega, by omega, by omega, fun h => by omega, fun h => by omega⟩
  rw [e1, e2, e3, e4, e5, e6]
  refine ⟨(pll_db_commit_14nm_seq (w.plls pll) (w.pdbs pdb)).take 29,
    (pll_db_commit_14nm_seq (w.plls pll) (w.pdbs pdb)).drop 35, ?_⟩
  simp only [pll_db_commit_14nm_seq, pll_db_commit_common_seq, reg_w, to_u32, to_char, and_255,
    and_15, and_3, Nat.shiftRight_eq_div_pow]
  simp
  refine ⟨?_, ?_, ?_, ?_, ?_, ?_⟩ <;> omega

/-- C18 as stated fails: for `plllock_cmp = 2^18`, which is below `2^21`, the three bytes
written to `PLLLOCK_CMP1/2/3` are all 0. -/
theorem commit_field_encoding_counterexample :
    (sample_world_cmp.pdbs 0).out.plllock_cmp = 262144 ∧ 262144 < 2 ^ 21 ∧
    (pll_db_commit_14nm sample_world_cmp 0 0).mmio 0 Reg.DSIPHY_PLL_PLLLOCK_CMP1 = 0 ∧
    (pll_db_commit_14nm sample_world_cmp 0 0).mmio 0 Reg.DSIPHY_PLL_PLLLOCK_CMP2 = 0 ∧
    (pll_db_commit_14nm sample_world_cmp 0 0).mmio 0 Reg.DSIPHY_PLL_PLLLOCK_CMP3 = 0 ∧
    last_write 0 Reg.DSIPHY_PLL_PLLLOCK_CMP3
      (pll_db_commit_14nm_seq (sample_world_cmp.plls 0) (sample_world_cmp.pdbs 0)) = some 0 ∧
    0 + 2 ^ 8 * 0 + 2 ^ 16 * 0 ≠ 262144 := by
  decide

/-! ## Lock comparator -/

/-- The lock comparator `pll_14nm_dec_frac_calc` stores for in-range rates, when the value fits
32 bits. -/
theorem pll_14nm_dec_frac_calc_plllock_cmp (pll : dsi_pll_resource) (pdb : dsi_pll_db)
    (R F : Nat) (hR : pll.vco_current_rate = (R : Int)) (hF : pll.vco_ref_clk_rate = (F : Int))
    (hF0 : 0 < F) (hF1 : F < 2 ^ 31) (hRb : R * 2 ^ 20 < 2 ^ 63)
    (hfit : lock_duration pdb.inp.plllock_cnt * (R * 2 ^ 20 / F) / 2 ^ 20 / 10 < 2 ^ 32) :
    ∃ d, pll_14nm_dec_frac_calc pll pdb = some d ∧
      d.out.plllock_cmp = lock_duration pdb.inp.plllock_cnt * (R * 2 ^ 20 / F) / 2 ^ 20 / 10 := by
  refine ⟨_, pll_14nm_dec_frac_calc_eq pll pdb R F hR hF hF0 hF1 hRb, ?_⟩
  have hdur : int_to_u64 (if pdb.inp.plllock_cnt = 0 then 1024
      else if pdb.inp.plllock_cnt = 1 then 256
      else if pdb.inp.plllock_cnt = 2 then 128
      else 32) = lock_duration pdb.inp.plllock_cnt := by
    unfold lock_duration
    split_ifs <;> rfl
  show to_u32 (to_u64 (int_to_u64 (if pdb.inp.plllock_cnt = 0 then 1024
      else if pdb.inp.plllock_cnt = 1 then 256
      else if pdb.inp.plllock_cnt = 2 then 128
      else 32) * (R * 2 ^ 20 / F)) / 2 ^ 20 / 10) = _
  rw [hdur]
  have h64 : lock_duration pdb.inp.plllock_cnt * (R * 2 ^ 20 / F) < 2 ^ 64 := by
    by_contra hc
    have h1 : 2 ^ 64 / 2 ^ 20 / 10 ≤
        lock_duration pdb.inp.plllock_cnt * (R * 2 ^ 20 / F) / 2 ^ 20 / 10 :=
      Nat.div_le_div_right (Nat.div_le_div_right (not_lt.mp hc))
    have h2 : (2 : Nat) ^ 32 ≤ 2 ^ 64 / 2 ^ 20 / 10 := by norm_num
    omega
  rw [to_u64_of_lt _ h64, to_u32_of_lt _ hfit]

/-- C19 (amended): for a reference rate `0 < F < 2^31` and a target rate `R` with
`R*2^20 < 2^63`, with `M = floor(R*2^20/F)` and the duration 1024, 256, 128 or 32 for
`plllock_cnt` 0, 1, 2 or any other value, `pll_14nm_dec_frac_calc` sets
`plllock_cmp = floor(floor(duration*M / 2^20) / 10)` whenever that value fits 32 bits; and for
a fixed duration `plllock_cmp` is non-decreasing in `M` over such rates, hence in the target
rate `R` for a fixed reference rate. -/
theorem lock_comparator_monotone (pll pll2 : dsi_pll_resource) (pdb : dsi_pll_db)
    (R F R2 F2 : Nat)
    (hR : pll.vco_current_rate = (R : Int)) (hF : pll.vco_ref_clk_rate = (F : Int))
    (hR2 : pll2.vco_current_rate = (R2 : Int)) (hF2 : pll2.vco_ref_clk_rate = (F2 : Int))
    (hF0 : 0 < F) (hF1 : F < 2 ^ 31) (hRb : R * 2 ^ 20 < 2 ^ 63)
    (hG0 : 0 < F2) (hG1 : F2 < 2 ^ 31) (hRb2 : R2 * 2 ^ 20 < 2 ^ 63)
    (hM : R * 2 ^ 20 / F ≤ R2 * 2 ^ 20 / F2 ∨ (F = F2 ∧ R ≤ R2))
    (hfit : lock_duration pdb.inp.plllock_cnt * (R2 * 2 ^ 20 / F2) / 2 ^ 20 / 10 < 2 ^ 32) :
    ∃ d d2, pll_14nm_dec_frac_calc pll pdb = some d ∧
      pll_14nm_dec_frac_calc pll2 pdb = some d2 ∧
      d.out.plllock_cmp = lock_duration pdb.inp.plllock_cnt * (R * 2 ^ 20 / F) / 2 ^ 20 / 10 ∧
      d2.out.plllock_cmp =
        lock_duration pdb.inp.plllock_cnt * (R2 * 2 ^ 20 / F2) / 2 ^ 20 / 10 ∧
      d.out.plllock_cmp ≤ d2.out.plllock_cmp := by
  have hM' : R * 2 ^ 20 / F ≤ R2 * 2 ^ 20 / F2 := by
    rcases hM with h | ⟨h1, h2⟩
    · exact h
    · subst h1
      exact Nat.div_le_div_right (Nat.mul_le_mul_right _ h2)
  have hmono : lock_duration pdb.inp.plllock_cnt * (R * 2 ^ 20 / F) / 2 ^ 20 / 10 ≤
      lock_duration pdb.inp.plllock_cnt * (R2 * 2 ^ 20 / F2) / 2 ^ 20 / 10 :=
    Nat.div_le_div_right (Nat.div_le_div_right (Nat.mul_le_mul_left _ hM'))
  obtain ⟨d, h1, h2⟩ := pll_14nm_dec_frac_calc_plllock_cmp pll pdb R F hR hF hF0 hF1 hRb
    (lt_of_le_of_lt hmono hfit)
  obtain ⟨d2, h3, h4⟩ := pll_14nm_dec_frac_calc_plllock_cmp pll2 pdb R2 F2 hR2 hF2 hG0 hG1 hRb2
    hfit
  exact ⟨d, d2, h1, h3, h2, h4, by rw [h2, h4]; exact hmono⟩

/-- C19 at the rates 1.5 GHz and 2.0 GHz with the 19.2 MHz reference and the lock count 1. -/
theorem lock_comparator_monotone_witness :
    ((sample_pll_rate 1500000000).vco_current_rate = ((1500000000 : Nat) : Int) ∧
      (sample_pll_rate 1500000000).vco_ref_clk_rate = ((19200000 : Nat) : Int) ∧
      (sample_pll_rate 2000000000).vco_current_rate = ((2000000000 : Nat) : Int) ∧
      (sample_pll_rate 2000000000).vco_ref_clk_rate = ((19200000 : Nat) : Int) ∧
      0 < 19200000 ∧ 19200000 < 2 ^ 31 ∧ 1500000000 * 2 ^ 20 < 2 ^ 63 ∧
      0 < 19200000 ∧ 19200000 < 2 ^ 31 ∧ 2000000000 * 2 ^ 20 < 2 ^ 63 ∧
      (1500000000 * 2 ^ 20 / 19200000 ≤ 2000000000 * 2 ^ 20 / 19200000 ∨
        (19200000 = 19200000 ∧ 1500000000 ≤ 2000000000)) ∧
      lock_duration sample_db_init.inp.plllock_cnt * (2000000000 * 2 ^ 20 / 19200000) /
        2 ^ 20 / 10 < 2 ^ 32) ∧
    ∃ d d2, pll_14nm_dec_frac_calc (sample_pll_rate 1500000000) sample_db_init = some d ∧
      pll_14nm_dec_frac_calc (sample_pll_rate 2000000000) sample_db_init = some d2 ∧
      d.out.plllock_cmp =
        lock_duration sample_db_init.inp.plllock_cnt * (1500000000 * 2 ^ 20 / 19200000) /
          2 ^ 20 / 10 ∧
      d2.out.plllock_cmp =
        lock_duration sample_db_init.inp.plllock_cnt * (2000000000 * 2 ^ 20 / 19200000) /
          2 ^ 20 / 10 ∧
      d.out.plllock_cmp ≤ d2.out.plllock_cmp :=
  ⟨⟨rfl, rfl, rfl, rfl, by decide, by decide, by decide, by decide, by decide, by decide,
      by decide, by decide⟩,
    lock_comparator_monotone (sample_pll_rate 1500000000) (sample_pll_rate 2000000000)
      sample_db_init 1500000000 19200000 2000000000 19200000 rfl rfl rfl rfl
      (by decide) (by decide) (by decide) (by decide) (by decide) (by decide)
      (by decide) (by decide)⟩

/-- C19 as stated fails: for `R = 2^44` with the 19.2 MHz reference and the lock count 1 the
product `R * 2^20 = 2^64` wraps to 0 in the 64-bit `vco_clk_rate * multiplier`, so
`pll_14nm_dec_frac_calc` stores the comparator 0, while the stated value
`floor(floor(256 * floor(2^64 / 19200000) / 2^20) / 10) = 23456248` fits 32 bits; and the
comparator 2000 of the lower rate 1.5 GHz is above the one of `2^44`. -/
theorem lock_comparator_monotone_counterexample :
    sample_db_init.inp.plllock_cnt = 1 ∧ lock_duration 1 = 256 ∧
    (sample_pll_rate 17592186044416).vco_current_rate = 2 ^ 44 ∧
    (sample_pll_rate 17592186044416).vco_ref_clk_rate = 19200000 ∧
    (pll_14nm_dec_frac_calc (sample_pll_rate 17592186044416) sample_db_init).map
      (fun d => d.out.plllock_cmp) = some 0 ∧
    256 * (2 ^ 44 * 2 ^ 20 / 19200000) / 2 ^ 20 / 10 = 23456248 ∧ 23456248 < 2 ^ 32 ∧
    (pll_14nm_dec_frac_calc (sample_pll_rate 1500000000) sample_db_init).map
      (fun d => d.out.plllock_cmp) = some 2000 ∧
    1500000000 * 2 ^ 20 / 19200000 ≤ 2 ^ 44 * 2 ^ 20 / 19200000 := by
  decide

/-- The lock comparator at 1.5 GHz and 2.0 GHz with the 19.2 MHz reference: 2000 and 2666. -/
theorem lock_comparator_samples :
    (pll_14nm_dec_frac_calc (sample_pll_rate 1500000000) sample_db_init).map
      (fun d => d.out.plllock_cmp) = some 2000 ∧
    (pll_14nm_dec_frac_calc (sample_pll_rate 2000000000) sample_db_init).map
      (fun d => d.out.plllock_cmp) = some 2666 := by
  decide

/-! ## KVCO count -/

/-- The KVCO count `pll_14nm_calc_vco_count` stores with the measure time 5: the slope is
doubled, divided by 100 and only then multiplied by the measure time, which gives 60, 40, 25
and 0 for the slopes 600, 400, 280 and 0. -/
theorem pll_14nm_calc_vco_count_kvco (pdb : dsi_pll_db) (vco_clk_rate fref : Int)
    (hk : pdb.inp.kvco_measure_time = 5) :
    ∃ d, pll_14nm_calc_vco_count pdb vco_clk_rate fref = some d ∧
      d.out.pll_kvco_count = pll_14nm_kvco_slop (int_to_u32 vco_clk_rate) * 2 / 100 * 5 ∧
      (pll_14nm_kvco_slop (int_to_u32 vco_clk_rate) = 600 → d.out.pll_kvco_count = 60) ∧
      (pll_14nm_kvco_slop (int_to_u32 vco_clk_rate) = 400 → d.out.pll_kvco_count = 40) ∧
      (pll_14nm_kvco_slop (int_to_u32 vco_clk_rate) = 280 → d.out.pll_kvco_count = 25) ∧
      (pll_14nm_kvco_slop (int_to_u32 vco_clk_rate) = 0 → d.out.pll_kvco_count = 0) := by
  have hs : pll_14nm_kvco_slop (int_to_u32 vco_clk_rate) ≤ 600 := by
    unfold pll_14nm_kvco_slop
    split_ifs <;> omega
  have hc : to_u32 (to_u32 (pll_14nm_kvco_slop (int_to_u32 vco_clk_rate) * 2) / 100 *
      to_u32 pdb.inp.kvco_measure_time) =
      pll_14nm_kvco_slop (int_to_u32 vco_clk_rate) * 2 / 100 * 5 := by
    rw [hk]
    unfold to_u32
    omega
  refine ⟨_, pll_14nm_calc_vco_count_eq pdb vco_clk_rate fref, hc, ?_, ?_, ?_, ?_⟩ <;>
    (intro h
     show to_u32 (to_u32 (pll_14nm_kvco_slop (int_to_u32 vco_clk_rate) * 2) / 100 *
       to_u32 pdb.inp.kvco_measure_time) = _
     rw [hc, h])

/-- C20 (failing input): for the VCO rate 2,400,000,000 the slope is 280 and the measure time
is 5, so the claimed count is `floor(280 * 2 * 5 / 100) = 28`, while
`pll_14nm_calc_vco_count` stores 25. -/
theorem kvco_count_truncation :
    pll_14nm_kvco_slop 2400000000 = 280 ∧ sample_db_init.inp.kvco_measure_time = 5 ∧
    280 * 2 * 5 / 100 = 28 ∧
    (pll_14nm_calc_vco_count sample_db_init 2400000000 19200000).map
      (fun d => d.out.pll_kvco_count) = some 25 := by
  refine ⟨by decide, by decide, by decide, ?_⟩
  rw [pll_14nm_calc_vco_count_eq]
  decide

/-! ## Slave-before-master commit -/

/-- The function `pll_vco_set_rate_14nm` after the topology setup: the three derivation steps
in sequence, each of which may fault, and the two commits. -/
theorem pll_vco_set_rate_14nm_eq (w : World) (vco : dsi_pll_vco_clk)
    (rate parent_rate pll pdb : Nat) (w0 : World) (r : dsi_pll_resource)
    (hv : vco.priv = some pll) (hp : (w.plls pll).priv = some pdb)
    (hs : pll_source_setup w pll = some w0)
    (hr : r = { w0.plls pll with
      vco_current_rate := to_s64 (to_u64 rate)
      vco_ref_clk_rate := to_s64 (to_u64 vco.ref_clk_rate) }) :
    pll_vco_set_rate_14nm w vco rate parent_rate =
      (pll_14nm_dec_frac_calc r (dsi_pll_14nm_input_init r (w0.pdbs pdb))).bind (fun d1 =>
        (if r.ssc_en then pll_14nm_ssc_calc r d1 else some d1).bind (fun d2 =>
          (pll_14nm_calc_vco_count d2 r.vco_current_rate r.vco_ref_clk_rate).bind (fun d3 =>
            some ((0 : Int), pll_db_commit_14nm
              (match r.slave with
                | some slave => pll_db_commit_14nm ((w0.set_pll pll r).set_pdb pdb d3) slave pdb
                | none => (w0.set_pll pll r).set_pdb pdb d3)
              pll pdb)))) := by
  subst hr
  unfold pll_vco_set_rate_14nm
  simp only [hv, Option.bind_eq_bind, Option.some_bind]
  simp only [hp]
  rw [hs, Option.some_bind]
  rfl

/-- The fractional-N split returns unless the reference rate, as the `s32` divisor of
`div_s64`, is zero. -/
theorem pll_14nm_dec_frac_calc_isSome (pll : dsi_pll_resource) (pdb : dsi_pll_db)
    (h : to_s32 (to_s64 pll.vco_ref_clk_rate) ≠ 0) :
    (pll_14nm_dec_frac_calc pll pdb).isSome = true := by
  have h20 : to_s32 ((BIT 20 : Nat) : Int) ≠ 0 := by decide
  have h20u : to_u32 (BIT 20) ≠ 0 := by decide
  have h10 : to_u32 10 ≠ 0 := by decide
  simp only [pll_14nm_dec_frac_calc, div_s64, div_s64_rem, div_u64, do_div, if_neg h, if_neg h20,
    if_neg h20u, if_neg h10, Option.bind_eq_bind, Option.some_bind, Option.pure_def,
    Option.isSome_some]

/-- A call of `pll_vco_set_rate_14nm` returns when spread spectrum is off and the low 32 bits
of the reference rate are not all zero. -/
theorem pll_vco_set_rate_14nm_returns (w : World) (vco : dsi_pll_vco_clk)
    (rate parent_rate pll pdb : Nat)
    (hv : vco.priv = some pll) (hp : (w.plls pll).priv = some pdb)
    (hssc : (w.plls pll).ssc_en = false) (href : vco.ref_clk_rate % 2 ^ 32 ≠ 0) :
    (pll_vco_set_rate_14nm w vco rate parent_rate).isSome = true := by
  obtain ⟨w0, hs, -, -⟩ := pll_source_setup_spec w pll pdb hp
  have hk := pll_source_setup_keeps w w0 pll pdb hp hs pll
  have h32 : to_s32 (to_s64 (to_s64 ((to_u64 vco.ref_clk_rate : Nat) : Int))) ≠ 0 := by
    unfold to_s32 to_s64 to_u64
    omega
  rw [pll_vco_set_rate_14nm_eq w vco rate parent_rate pll pdb w0 _ hv hp hs rfl]
  have h1 := pll_14nm_dec_frac_calc_isSome { w0.plls pll with
      vco_current_rate := to_s64 (to_u64 rate)
      vco_ref_clk_rate := to_s64 (to_u64 vco.ref_clk_rate) }
    (dsi_pll_14nm_input_init { w0.plls pll with
      vco_current_rate := to_s64 (to_u64 rate)
      vco_ref_clk_rate := to_s64 (to_u64 vco.ref_clk_rate) } (w0.pdbs pdb)) h32
  obtain ⟨d1, hd1⟩ := Option.isSome_iff_exists.mp h1
  rw [hd1, Option.some_bind]
  have hs0 : (w0.plls pll).ssc_en = false := by rw [hk.2.2, hssc]
  simp only [hs0, Bool.false_eq_true, if_false, Option.some_bind, pll_14nm_calc_vco_count_eq,
    Option.isSome_some]

/-- A call of `pll_vco_set_rate_14nm` that returns: the result is 0, the resource holds the two
rates, the parameter block `pdb` holds the derived parameters, and the trace is extended by the
commit to the slave (if one is linked after the topology setup) followed by the commit to the
resource itself, both of the derived block. -/
theorem pll_vco_set_rate_14nm_trace (w : World) (vco : dsi_pll_vco_clk)
    (rate parent_rate pll pdb : Nat) (w0 : World)
    (hv : vco.priv = some pll) (hp : (w.plls pll).priv = some pdb)
    (hs : pll_source_setup w pll = some w0)
    (hret : (pll_vco_set_rate_14nm w vco rate parent_rate).isSome = true) :
    ∃ w1, pll_vco_set_rate_14nm w vco rate parent_rate = some (0, w1) ∧
      w1.plls = (fun i => if i = pll then { w0.plls pll with
        vco_current_rate := to_s64 (to_u64 rate)
        vco_ref_clk_rate := to_s64 (to_u64 vco.ref_clk_rate) } else w0.plls i) ∧
      (∀ i, i ≠ pdb → w1.pdbs i = w0.pdbs i) ∧
      w1.trace = w0.trace ++
        (match (w0.plls pll).slave with
          | some slave => pll_db_commit_14nm_seq (w1.plls slave) (w1.pdbs pdb)
          | none => []) ++
        pll_db_commit_14nm_seq (w1.plls pll) (w1.pdbs pdb) := by
  obtain ⟨r, hr⟩ : ∃ r : dsi_pll_resource, r = { w0.plls pll with
      vco_current_rate := to_s64 (to_u64 rate)
      vco_ref_clk_rate := to_s64 (to_u64 vco.ref_clk_rate) } := ⟨_, rfl⟩
  have hslave : r.slave = (w0.plls pll).slave := by rw [hr]
  have key : ∀ d1 d2 d3,
      pll_14nm_dec_frac_calc r (dsi_pll_14nm_input_init r (w0.pdbs pdb)) = some d1 →
      (if r.ssc_en then pll_14nm_ssc_calc r d1 else some d1) = some d2 →
      pll_14nm_calc_vco_count d2 r.vco_current_rate r.vco_ref_clk_rate = some d3 →
      ∃ w1, pll_vco_set_rate_14nm w vco rate parent_rate = some (0, w1) ∧
        w1.plls = (fun i => if i = pll then r else w0.plls i) ∧
        (∀ i, i ≠ pdb → w1.pdbs i = w0.pdbs i) ∧
        w1.trace = w0.trace ++
          (match (w0.plls pll).slave with
            | some slave => pll_db_commit_14nm_seq (w1.plls slave) (w1.pdbs pdb)
            | none => []) ++
          pll_db_commit_14nm_seq (w1.plls pll) (w1.pdbs pdb) := by
    intro d1 d2 d3 hd1 hd2 hd3
    refine ⟨_, pll_vco_set_rate_14nm_steps w vco rate parent_rate pll pdb w0 r d1 d2 d3 hv hp hs
      hr hd1 hd2 hd3, ?_, ?_, ?_⟩
    · rw [hslave]
      cases (w0.plls pll).slave <;>
        simp only [pll_db_commit_14nm, run_plls] <;> rfl
    · intro i hi
      rw [hslave]
      cases (w0.plls pll).slave <;>
        simp only [pll_db_commit_14nm, run_pdbs, World.set_pdb, World.set_pll, if_neg hi]
    · rw [hslave]
      cases (w0.plls pll).slave <;>
        simp only [pll_db_commit_14nm, run_plls, run_pdbs, run_trace, List.append_assoc,
          List.nil_append] <;> rfl
  have hnone : ∀ x : Option (Int × World), x = none → x.isSome = true → False := by
    intro x hx h
    rw [hx] at h
    exact Bool.noConfusion h
  have hcall := pll_vco_set_rate_14nm_eq w vco rate parent_rate pll pdb w0 r hv hp hs hr
  cases hd1 : pll_14nm_dec_frac_calc r (dsi_pll_14nm_input_init r (w0.pdbs pdb)) with
  | none => exact absurd hret (fun h => hnone _ (by rw [hcall, hd1]; rfl) h)
  | some d1 =>
    cases hd2 : (if r.ssc_en then pll_14nm_ssc_calc r d1 else some d1) with
    | none => exact absurd hret (fun h => hnone _ (by rw [hcall, hd1, Option.some_bind, hd2]; rfl) h)
    | some d2 =>
      obtain ⟨d3, hd3⟩ : ∃ d3, pll_14nm_calc_vco_count d2 r.vco_current_rate
          r.vco_ref_clk_rate = some d3 := ⟨_, pll_14nm_calc_vco_count_eq _ _ _⟩
      obtain ⟨w1, h1, h2, h3, h4⟩ := key d1 d2 d3 hd1 hd2 hd3
      exact ⟨w1, h1, by rw [h2, hr], h3, h4⟩

/-- The register and value pairs of the live commit do not depend on the block they go to:
two resources with the same `ssc_en` flag get the same pairs. -/
theorem pll_db_commit_14nm_seq_reg_writes (p q : dsi_pll_resource) (d : dsi_pll_db)
    (h : p.ssc_en = q.ssc_en) :
    reg_writes (pll_db_commit_14nm_seq p d) = reg_writes (pll_db_commit_14nm_seq q d) := by
  cases hq : q.ssc_en <;> rw [hq] at h <;>
    simp [pll_db_commit_14nm_seq, pll_db_commit_common_seq, pll_db_commit_ssc_seq, reg_writes,
      reg_w, h, hq]

/-- Every write of the live commit goes to the register block of the resource. -/
theorem pll_db_commit_14nm_seq_base (p : dsi_pll_resource) (d : dsi_pll_db) :
    ∀ e ∈ pll_db_commit_14nm_seq p d, ∀ b r v, e = Event.write b r v → b = p.pll_base := by
  cases hp : p.ssc_en <;>
    simp [pll_db_commit_14nm_seq, pll_db_commit_common_seq, pll_db_commit_ssc_seq, reg_w, hp]

/-- C16 (amended): for a PLL with a linked slave (after the topology setup of the call) a call
of `pll_vco_set_rate_14nm` that returns extends the trace by the live commit to the slave's
register block followed by the live commit to the master's own block, both of the master's
just-derived parameter block: every write to the slave precedes every write to the master;
and the sequence of (register, value) pairs written to the slave is identical to the
sequence written to the master when the `ssc_en` flags of the two resources agree. -/
theorem slave_before_master (w : World) (vco : dsi_pll_vco_clk)
    (rate parent_rate pll pdb sl : Nat)
    (hv : vco.priv = some pll) (hp : (w.plls pll).priv = some pdb)
    (hsl : (pll_source_setup w pll).map (fun x => (x.plls pll).slave) = some (some sl))
    (hret : (pll_vco_set_rate_14nm w vco rate parent_rate).isSome = true) :
    ∃ w0 w1, pll_source_setup w pll = some w0 ∧
      pll_vco_set_rate_14nm w vco rate parent_rate = some (0, w1) ∧
      w1.trace = w0.trace ++ pll_db_commit_14nm_seq (w1.plls sl) (w1.pdbs pdb) ++
        pll_db_commit_14nm_seq (w1.plls pll) (w1.pdbs pdb) ∧
      (∀ e ∈ pll_db_commit_14nm_seq (w1.plls sl) (w1.pdbs pdb), ∀ b r v,
        e = Event.write b r v → b = (w1.plls sl).pll_base) ∧
      (∀ e ∈ pll_db_commit_14nm_seq (w1.plls pll) (w1.pdbs pdb), ∀ b r v,
        e = Event.write b r v → b = (w1.plls pll).pll_base) ∧
      ((w1.plls sl).ssc_en = (w1.plls pll).ssc_en →
        reg_writes (pll_db_commit_14nm_seq (w1.plls sl) (w1.pdbs pdb)) =
          reg_writes (pll_db_commit_14nm_seq (w1.plls pll) (w1.pdbs pdb))) := by
  cases hs : pll_source_setup w pll with
  | none => rw [hs] at hsl; exact absurd hsl (by simp)
  | some w0 =>
    rw [hs] at hsl
    have hsl0 : (w0.plls pll).slave = some sl := by simpa using hsl
    obtain ⟨w1, h1, -, -, h4⟩ :=
      pll_vco_set_rate_14nm_trace w vco rate parent_rate pll pdb w0 hv hp hs hret
    rw [hsl0] at h4
    exact ⟨w0, w1, rfl, h1, h4, pll_db_commit_14nm_seq_base _ _, pll_db_commit_14nm_seq_base _ _,
      fun h => pll_db_commit_14nm_seq_reg_writes _ _ _ h⟩

set_option maxRecDepth 100000

/-- C16 (amended) on the wired sample pair at 1.5 GHz: instance 0 is the master, instance 1
the slave. -/
theorem slave_before_master_witness :
    (sample_vco.priv = some 0 ∧ (sample_world_pair.plls 0).priv = some 0 ∧
      (pll_source_setup sample_world_pair 0).map (fun x => (x.plls 0).slave) = some (some 1) ∧
      (pll_vco_set_rate_14nm sample_world_pair sample_vco 1500000000 0).isSome = true) ∧
    ∃ w0 w1, pll_source_setup sample_world_pair 0 = some w0 ∧
      pll_vco_set_rate_14nm sample_world_pair sample_vco 1500000000 0 = some (0, w1) ∧
      w1.trace = w0.trace ++ pll_db_commit_14nm_seq (w1.plls 1) (w1.pdbs 0) ++
        pll_db_commit_14nm_seq (w1.plls 0) (w1.pdbs 0) ∧
      (∀ e ∈ pll_db_commit_14nm_seq (w1.plls 1) (w1.pdbs 0), ∀ b r v,
        e = Event.write b r v → b = (w1.plls 1).pll_base) ∧
      (∀ e ∈ pll_db_commit_14nm_seq (w1.plls 0) (w1.pdbs 0), ∀ b r v,
        e = Event.write b r v → b = (w1.plls 0).pll_base) ∧
      ((w1.plls 1).ssc_en = (w1.plls 0).ssc_en →
        reg_writes (pll_db_commit_14nm_seq (w1.plls 1) (w1.pdbs 0)) =
          reg_writes (pll_db_commit_14nm_seq (w1.plls 0) (w1.pdbs 0))) :=
  ⟨⟨rfl, rfl, by decide, by decide⟩,
    slave_before_master sample_world_pair sample_vco 1500000000 0 0 0 1 rfl rfl (by decide)
      (by decide)⟩

/-- C16 as stated fails: on the wired sample pair with spread spectrum enabled on the slave
only, the call links instance 1 as the slave and returns 0; the commit writes 46 registers of
the slave's block (the spread-spectrum registers among them) and 39 of the master's, so the
two sequences of (register, value) pairs differ. -/
theorem slave_before_master_counterexample :
    (sample_world_pair_ssc.plls 0).ssc_en = false ∧ (sample_world_pair_ssc.plls 1).ssc_en = true ∧
    (pll_vco_set_rate_14nm sample_world_pair_ssc sample_vco 1500000000 0).map
      (fun x => (x.1, (x.2.plls 0).slave, (writes_to 1 x.2.trace).length,
        (writes_to 0 x.2.trace).length,
        decide (writes_to 1 x.2.trace = writes_to 0 x.2.trace))) =
      some (0, some 1, 46, 39, false) := by
  decide

/-- On the wired sample pair with the same flags the slave's block and the master's block get
the same 39 (register, value) pairs, the slave's first. -/
theorem slave_before_master_sample :
    (pll_vco_set_rate_14nm sample_world_pair sample_vco 1500000000 0).map
      (fun x => ((writes_to 1 x.2.trace).length,
        decide (writes_to 1 x.2.trace = writes_to 0 x.2.trace),
        decide (x.2.trace.drop 2 = pll_db_commit_14nm_seq (x.2.plls 1) (x.2.pdbs 0) ++
          pll_db_commit_14nm_seq (x.2.plls 0) (x.2.pdbs 0)))) =
      some (39, true, true) := by
  decide

/-! ## Minimum supported rate -/

/-- The rates `pll_vco_round_rate_14nm` rejects for the 1.3 GHz minimum, among the rates that
fit 32 bits: those up to 81,250,000 Hz (1.3 GHz / 16), for which the quotient
`min_rate / rate` is 16 or more. -/
theorem pll_vco_round_rate_14nm_rejects (vco : dsi_pll_vco_clk) (rate : Nat)
    (hmin : vco.min_rate = 1300000000) (hmax : vco.max_rate < 2 ^ 64)
    (hmm : vco.min_rate ≤ vco.max_rate) (h0 : 0 < rate) (h32 : rate < 2 ^ 32) :
    (rate ≤ 81250000 → pll_vco_round_rate_14nm vco rate = some (-EINVAL, none)) ∧
    (81250000 < rate → ∃ r : Nat, pll_vco_round_rate_14nm vco rate = some ((r : Int), some r) ∧
      vco.min_rate ≤ r ∧ r ≤ vco.max_rate) := by
  rw [pll_vco_round_rate_14nm_of_lt vco rate h0 h32 hmax hmm, hmin]
  rw [hmin] at hmm
  constructor
  · intro h
    have : 1300000000 / rate > 15 := by
      have : 16 ≤ 1300000000 / rate := (Nat.le_div_iff_mul_le h0).2 (by omega)
      omega
    rw [if_pos this]
  · intro h
    have : ¬ 1300000000 / rate > 15 := by
      intro hc
      have : 16 * rate ≤ 1300000000 := (Nat.le_div_iff_mul_le h0).1 hc
      omega
    rw [if_neg this]
    refine ⟨_, rfl, ?_, ?_⟩ <;> split_ifs <;> omega

/-- C25 (failing input): the requested rate 85,000,000 Hz is below 86.67 MHz (it would need
the N1 divider 16 to reach the 1.3 GHz minimum, since 15 * 85,000,000 < 1,300,000,000), yet
`pll_vco_round_rate_14nm` accepts it and returns the clamped rate 1,300,000,000. -/
theorem round_rate_minimum_gap :
    sample_vco.min_rate = 1300000000 ∧ 85000000 < 86666667 ∧
    15 * 85000000 < 1300000000 ∧
    pll_vco_round_rate_14nm sample_vco 85000000 = some (1300000000, some 1300000000) ∧
    pll_vco_round_rate_14nm sample_vco 81250001 = some (1300000000, some 1300000000) ∧
    pll_vco_round_rate_14nm sample_vco 81250000 = some (-EINVAL, none) := by
  decide

/-! ## Divider set: frame of the register update -/

theorem or_lt_u32 (a b : Nat) (ha : a < 2 ^ 32) (hb : b < 2 ^ 32) : to_u32 (a ||| b) = a ||| b :=
  to_u32_of_lt _ (Nat.or_lt_two_pow ha hb)

/-- The value `post_n1_div_set_div` writes: bits 0-3 are the low four bits of the divider, all
other bits are those of the prior content. -/
theorem n1_write_frame (c d : Nat) (hc : c < 2 ^ 32) :
    to_u32 (c &&& 0xFFFFFFF0 ||| d &&& 0xf) % 16 = d % 16 ∧
    to_u32 (c &&& 0xFFFFFFF0 ||| d &&& 0xf) / 16 = c / 16 := by
  have h1 : c &&& 0xFFFFFFF0 < 2 ^ 32 := lt_of_le_of_lt Nat.and_le_left hc
  have h2 : d &&& 0xf < 2 ^ 32 := lt_of_le_of_lt Nat.and_le_right (by norm_num)
  rw [or_lt_u32 _ _ h1 h2]
  constructor
  · have e : (16 : Nat) = 2 ^ 4 := by norm_num
    rw [e, or_mod_two_pow, and_mod_two_pow, and_mod_two_pow]
    have z : (0xFFFFFFF0 : Nat) % 2 ^ 4 = 0 := by decide
    have f : (0xf : Nat) % 2 ^ 4 = 2 ^ 4 - 1 := by decide
    rw [z, f, Nat.and_zero, Nat.zero_or, Nat.and_pow_two_sub_one_eq_mod, Nat.mod_mod]
  · have e : ∀ x : Nat, x / 16 = x >>> 4 := fun x => by rw [Nat.shiftRight_eq_div_pow]
    rw [e, e, shiftRight_or, shiftRight_and, shiftRight_and]
    have z : (0xf : Nat) >>> 4 = 0 := by decide
    have f : (0xFFFFFFF0 : Nat) >>> 4 = 2 ^ 28 - 1 := by decide
    rw [z, f, Nat.and_zero, Nat.or_zero, Nat.and_pow_two_sub_one_eq_mod]
    apply Nat.mod_eq_of_lt
    rw [Nat.shiftRight_eq_div_pow]
    omega

/-- The value `n2_div_set_div` writes: bits 0-3 are those of the prior content; for a divider
that fits four bits, bits 4-7 hold it and the bits above bit 7 are those of the prior
content. -/
theorem n2_write_frame (c d : Nat) (hc : c < 2 ^ 32) :
    to_u32 (c &&& 0xFFFFFF0F ||| to_u32 (d <<< 4)) % 16 = c % 16 ∧
    (d ≤ 15 → to_u32 (c &&& 0xFFFFFF0F ||| to_u32 (d <<< 4)) / 16 % 16 = d ∧
      to_u32 (c &&& 0xFFFFFF0F ||| to_u32 (d <<< 4)) / 256 = c / 256) := by
  have h1 : c &&& 0xFFFFFF0F < 2 ^ 32 := lt_of_le_of_lt Nat.and_le_left hc
  have h2 : to_u32 (d <<< 4) < 2 ^ 32 := Nat.mod_lt _ (by norm_num)
  rw [or_lt_u32 _ _ h1 h2]
  have hs : to_u32 (d <<< 4) % 16 = 0 := by
    unfold to_u32; rw [Nat.shiftLeft_eq]; omega
  constructor
  · have e : (16 : Nat) = 2 ^ 4 := by norm_num
    rw [e] at hs
    rw [e, or_mod_two_pow, and_mod_two_pow, hs]
    have f : (0xFFFFFF0F : Nat) % 2 ^ 4 = 2 ^ 4 - 1 := by decide
    rw [f, Nat.or_zero, Nat.and_pow_two_sub_one_eq_mod, Nat.mod_mod]
  · intro hd
    have hv : to_u32 (d <<< 4) = d * 16 := by
      unfold to_u32; rw [Nat.shiftLeft_eq]; omega
    rw [hv]
    constructor
    · have e : ∀ x : Nat, x / 16 % 16 = (x >>> 4) % 2 ^ 4 := fun x => by
        rw [Nat.shiftRight_eq_div_pow]; norm_num
      rw [e, shiftRight_or, or_mod_two_pow, shiftRight_and, and_mod_two_pow]
      have f : ((0xFFFFFF0F : Nat) >>> 4) % 2 ^ 4 = 0 := by decide
      have g : (d * 16) >>> 4 = d := by rw [Nat.shiftRight_eq_div_pow]; omega
      rw [f, g, Nat.and_zero, Nat.zero_or]
      exact Nat.mod_eq_of_lt (by omega)
    · have e : ∀ x : Nat, x / 256 = x >>> 8 := fun x => by rw [Nat.shiftRight_eq_div_pow]
      rw [e, e, shiftRight_or, shiftRight_and]
      have f : (0xFFFFFF0F : Nat) >>> 8 = 2 ^ 24 - 1 := by decide
      have g : (d * 16) >>> 8 = 0 := by rw [Nat.shiftRight_eq_div_pow]; omega
      rw [f, g, Nat.or_zero, Nat.and_pow_two_sub_one_eq_mod]
      apply Nat.mod_eq_of_lt
      rw [Nat.shiftRight_eq_div_pow]
      omega

/-- C24 (amended): for every divider value `div` (an `unsigned int`) and every prior content
`c` of `CMN_CLK_CFG0`, `post_n1_div_set_div` changes only bits 0-3 of the register, to
`(div + 1) mod 16`, and leaves all other bits unchanged; `n2_div_set_div` leaves bits 0-3 (the
N1 field) unchanged and, for `div + 1 ≤ 15`, sets bits 4-7 to `div + 1` and leaves every bit
above bit 7 unchanged. -/
theorem div_set_own_field (w : World) (pll pdb reg div : Nat)
    (hp : (w.plls pll).priv = some pdb) :
    let base := (w.plls pll).pll_base
    let c := to_u32 (w.mmio base Reg.DSIPHY_CMN_CLK_CFG0)
    (∃ w1, post_n1_div_set_div w pll reg div = some (0, w1) ∧
      w1.mmio base Reg.DSIPHY_CMN_CLK_CFG0 % 16 = (to_u32 div + 1) % 16 ∧
      w1.mmio base Reg.DSIPHY_CMN_CLK_CFG0 / 16 = c / 16) ∧
    (∃ w1, n2_div_set_div w pll reg div = some (0, w1) ∧
      w1.mmio base Reg.DSIPHY_CMN_CLK_CFG0 % 16 = c % 16 ∧
      (to_u32 div + 1 ≤ 15 →
        w1.mmio base Reg.DSIPHY_CMN_CLK_CFG0 / 16 % 16 = to_u32 div + 1 ∧
        w1.mmio base Reg.DSIPHY_CMN_CLK_CFG0 / 256 = c / 256)) := by
  intro base c
  have hc : c < 2 ^ 32 := Nat.mod_lt _ (by norm_num)
  constructor
  · obtain ⟨w1, h1, -, hm⟩ := post_n1_div_set_div_spec w pll pdb reg div hp
    obtain ⟨f1, f2⟩ := n1_write_frame c (to_u32 (to_u32 div + 1)) hc
    refine ⟨w1, h1, ?_, ?_⟩
    · show w1.mmio (w.plls pll).pll_base Reg.DSIPHY_CMN_CLK_CFG0 % 16 = _
      rw [hm]
      show to_u32 (c &&& 0xFFFFFFF0 ||| to_u32 (to_u32 div + 1) &&& 0xf) % 16 = _
      rw [f1]
      unfold to_u32
      omega
    · show w1.mmio (w.plls pll).pll_base Reg.DSIPHY_CMN_CLK_CFG0 / 16 = _
      rw [hm]
      exact f2
  · obtain ⟨w1, h1, -, hm⟩ := n2_div_set_div_spec w pll pdb reg div hp
    obtain ⟨f1, f2⟩ := n2_write_frame c (to_u32 (to_u32 div + 1)) hc
    have hm' : w1.mmio base Reg.DSIPHY_CMN_CLK_CFG0 =
        to_u32 (c &&& 0xFFFFFF0F ||| to_u32 (to_u32 (to_u32 div + 1) <<< 4)) := hm
    refine ⟨w1, h1, by rw [hm']; exact f1, fun hd => ?_⟩
    have hd' : to_u32 (to_u32 div + 1) = to_u32 div + 1 := to_u32_of_lt _ (by omega)
    rw [hd'] at f2 hm'
    rw [hm']
    exact f2 hd

/-- C24 (amended) on the sample device with the divider value 5. -/
theorem div_set_own_field_witness :
    (sample_world.plls 0).priv = some 0 ∧
    ((∃ w1, post_n1_div_set_div sample_world 0 0 5 = some (0, w1) ∧
      w1.mmio (sample_world.plls 0).pll_base Reg.DSIPHY_CMN_CLK_CFG0 % 16 =
        (to_u32 5 + 1) % 16 ∧
      w1.mmio (sample_world.plls 0).pll_base Reg.DSIPHY_CMN_CLK_CFG0 / 16 =
        to_u32 (sample_world.mmio (sample_world.plls 0).pll_base Reg.DSIPHY_CMN_CLK_CFG0) / 16) ∧
    (∃ w1, n2_div_set_div sample_world 0 0 5 = some (0, w1) ∧
      w1.mmio (sample_world.plls 0).pll_base Reg.DSIPHY_CMN_CLK_CFG0 % 16 =
        to_u32 (sample_world.mmio (sample_world.plls 0).pll_base Reg.DSIPHY_CMN_CLK_CFG0) % 16 ∧
      (to_u32 5 + 1 ≤ 15 →
        w1.mmio (sample_world.plls 0).pll_base Reg.DSIPHY_CMN_CLK_CFG0 / 16 % 16 =
          to_u32 5 + 1 ∧
        w1.mmio (sample_world.plls 0).pll_base Reg.DSIPHY_CMN_CLK_CFG0 / 256 =
          to_u32 (sample_world.mmio (sample_world.plls 0).pll_base
            Reg.DSIPHY_CMN_CLK_CFG0) / 256))) :=
  ⟨rfl, div_set_own_field sample_world 0 0 0 5 rfl⟩

/-- C24 as stated fails: with the divider value 15 and the prior content 0 of `CMN_CLK_CFG0`,
`n2_div_set_div` leaves 0x100 in the register: bit 8, above the N2 field, is changed, and
bits 4-7 hold 0, not `div + 1 = 16`. -/
theorem div_set_own_field_counterexample :
    sample_world.mmio 0 Reg.DSIPHY_CMN_CLK_CFG0 = 0 ∧
    (n2_div_set_div sample_world 0 0 15).map
      (fun x => (x.1, x.2.mmio 0 Reg.DSIPHY_CMN_CLK_CFG0)) = some (0, 0x100) ∧
    0x100 / 256 ≠ 0 / 256 ∧ 0x100 / 16 % 16 ≠ 15 + 1 := by
  decide

/-- The register after the two set callbacks on a prior content with every bit set: only the
field of the callback changes. -/
theorem div_set_samples :
    (post_n1_div_set_div { sample_world with mmio := fun _ _ => 0xFFFFFFFF } 0 0 5).map
      (fun x => x.2.mmio 0 Reg.DSIPHY_CMN_CLK_CFG0) = some 0xFFFFFFF6 ∧
    (n2_div_set_div { sample_world with mmio := fun _ _ => 0xFFFFFFFF } 0 0 5).map
      (fun x => x.2.mmio 0 Reg.DSIPHY_CMN_CLK_CFG0) = some 0xFFFFFF6F := by
  decide

/-! ## N1 and N2 across a rate change -/

/-- The fractional-N split leaves the input section and the two dividers of the block as they
are. -/
theorem pll_14nm_dec_frac_calc_keeps (pll : dsi_pll_resource) (pdb d : dsi_pll_db)
    (h : pll_14nm_dec_frac_calc pll pdb = some d) :
    d.inp = pdb.inp ∧ d.out.pll_n1div = pdb.out.pll_n1div ∧
      d.out.pll_n2div = pdb.out.pll_n2div := by
  have h20 : to_s32 ((BIT 20 : Nat) : Int) ≠ 0 := by decide
  have h20u : to_u32 (BIT 20) ≠ 0 := by decide
  have h10 : to_u32 10 ≠ 0 := by decide
  by_cases hz : to_s32 (to_s64 pll.vco_ref_clk_rate) = 0
  · simp only [pll_14nm_dec_frac_calc, div_s64, if_pos hz, Option.bind_eq_bind,
      Option.none_bind] at h
    exact absurd h (by simp)
  · simp only [pll_14nm_dec_frac_calc, div_s64, div_s64_rem, div_u64, do_div, if_neg hz,
      if_neg h20, if_neg h20u, if_neg h10, Option.bind_eq_bind, Option.some_bind,
      Option.pure_def, Option.some.injEq] at h
    obtain ⟨dn, dp, ds, di, dout⟩ := d
    obtain ⟨o1, o2, o3, o4, o5, o6, o7, o8, o9, o10, o11, o12, o13, o14, o15, o16, o17, o18,
      o19⟩ := dout
    simp only [dsi_pll_db.mk.injEq, dsi_pll_output.mk.injEq] at h
    obtain ⟨-, -, -, hi, -, -, -, -, -, -, -, -, -, -, -, -, -, -, -, -, -, h18, h19⟩ := h
    exact ⟨hi.symm, h18.symm, h19.symm⟩
theorem pll_14nm_ssc_calc_keeps (pll : dsi_pll_resource) (pdb d : dsi_pll_db)
    (h : pll_14nm_ssc_calc pll pdb = some d) :
    d.inp = pdb.inp ∧ d.out.pll_n1div = pdb.out.pll_n1div ∧
      d.out.pll_n2div = pdb.out.pll_n2div := by
  simp only [pll_14nm_ssc_calc, Option.bind_eq_bind, Option.bind_eq_some, Option.pure_def,
    Option.some.injEq] at h
  obtain ⟨_, _, _, _, _, _, _, _, ⟨sq, sr⟩, _, h⟩ := h
  simp only at h
  obtain ⟨dn, dp, ds, di, dout⟩ := d
  obtain ⟨o1, o2, o3, o4, o5, o6, o7, o8, o9, o10, o11, o12, o13, o14, o15, o16, o17, o18,
    o19⟩ := dout
  simp only [dsi_pll_db.mk.injEq, dsi_pll_output.mk.injEq] at h
  obtain ⟨-, -, -, hi, -, -, -, -, -, -, -, -, -, -, -, -, -, -, -, -, -, h18, h19⟩ := h
  exact ⟨hi.symm, h18.symm, h19.symm⟩

/-- The last value the live commit writes to `CMN_CLK_CFG0`: the byte built from the two
dividers of the block. -/
theorem pll_db_commit_14nm_seq_last_write_cfg0 (pll : dsi_pll_resource) (pdb : dsi_pll_db) :
    last_write pll.pll_base Reg.DSIPHY_CMN_CLK_CFG0 (pll_db_commit_14nm_seq pll pdb) =
      some (to_u32 (to_char (pdb.out.pll_n1div ||| to_u32 (pdb.out.pll_n2div <<< 4)))) := by
  cases hs : pll.ssc_en <;>
    simp [last_write, pll_db_commit_14nm_seq, pll_db_commit_common_seq, pll_db_commit_ssc_seq,
      reg_w, hs]

/-- The derivation steps of a call of `pll_vco_set_rate_14nm` that returns. -/
theorem pll_vco_set_rate_14nm_derived (w : World) (vco : dsi_pll_vco_clk)
    (rate parent_rate pll pdb : Nat) (w0 : World) (r : dsi_pll_resource)
    (hv : vco.priv = some pll) (hp : (w.plls pll).priv = some pdb)
    (hs : pll_source_setup w pll = some w0)
    (hr : r = { w0.plls pll with
      vco_current_rate := to_s64 (to_u64 rate)
      vco_ref_clk_rate := to_s64 (to_u64 vco.ref_clk_rate) })
    (hret : (pll_vco_set_rate_14nm w vco rate parent_rate).isSome = true) :
    ∃ d1 d2 d3,
      pll_14nm_dec_frac_calc r (dsi_pll_14nm_input_init r (w0.pdbs pdb)) = some d1 ∧
      (if r.ssc_en then pll_14nm_ssc_calc r d1 else some d1) = some d2 ∧
      pll_14nm_calc_vco_count d2 r.vco_current_rate r.vco_ref_clk_rate = some d3 := by
  have hnone : ∀ x : Option (Int × World), x = none → x.isSome = true → False := by
    intro x hx h
    rw [hx] at h
    exact Bool.noConfusion h
  have hcall := pll_vco_set_rate_14nm_eq w vco rate parent_rate pll pdb w0 r hv hp hs hr
  cases hd1 : pll_14nm_dec_frac_calc r (dsi_pll_14nm_input_init r (w0.pdbs pdb)) with
  | none => exact absurd hret (fun h => hnone _ (by rw [hcall, hd1]; rfl) h)
  | some d1 =>
    cases hd2 : (if r.ssc_en then pll_14nm_ssc_calc r d1 else some d1) with
    | none => exact absurd hret (fun h => hnone _ (by rw [hcall, hd1, Option.some_bind, hd2]; rfl) h)
    | some d2 => exact ⟨d1, d2, _, rfl, hd2, pll_14nm_calc_vco_count_eq _ _ _⟩

/-- A call of `pll_vco_set_rate_14nm` on a clock with a resource and a parameter block that
returns: the result is 0, the two dividers of every parameter block are as before the call,
and the commit leaves in `CMN_CLK_CFG0` of the resource the byte built from the two dividers
of its block, written by the last write of the trace to that register. -/
theorem pll_vco_set_rate_14nm_dividers (w : World) (vco : dsi_pll_vco_clk)
    (rate parent_rate pll pdb : Nat)
    (hv : vco.priv = some pll) (hp : (w.plls pll).priv = some pdb)
    (hret : (pll_vco_set_rate_14nm w vco rate parent_rate).isSome = true) :
    ∃ w1, pll_vco_set_rate_14nm w vco rate parent_rate = some (0, w1) ∧
      (∀ i, (w1.pdbs i).out.pll_n1div = (w.pdbs i).out.pll_n1div ∧
        (w1.pdbs i).out.pll_n2div = (w.pdbs i).out.pll_n2div) ∧
      w1.mmio (w.plls pll).pll_base Reg.DSIPHY_CMN_CLK_CFG0 =
        to_u32 (to_char ((w.pdbs pdb).out.pll_n1div |||
          to_u32 ((w.pdbs pdb).out.pll_n2div <<< 4))) ∧
      Event.write (w.plls pll).pll_base Reg.DSIPHY_CMN_CLK_CFG0
        (to_u32 (to_char ((w.pdbs pdb).out.pll_n1div |||
          to_u32 ((w.pdbs pdb).out.pll_n2div <<< 4)))) ∈ w1.trace := by
  obtain ⟨w0, hs, hplls, hpdbs⟩ := pll_source_setup_spec w pll pdb hp
  obtain ⟨r, hr⟩ : ∃ r : dsi_pll_resource, r = { w0.plls pll with
      vco_current_rate := to_s64 (to_u64 rate)
      vco_ref_clk_rate := to_s64 (to_u64 vco.ref_clk_rate) } := ⟨_, rfl⟩
  have hr_base : r.pll_base = (w.plls pll).pll_base := by
    rw [hr]; exact (pll_source_setup_keeps w w0 pll pdb hp hs pll).2.1
  have h0 : ∀ i, (w0.pdbs i).out = (w.pdbs i).out := by
    intro i
    obtain ⟨n, hn⟩ := hpdbs i
    rw [hn]
  obtain ⟨d1, d2, d3, hd1, hd2, hd3⟩ :=
    pll_vco_set_rate_14nm_derived w vco rate parent_rate pll pdb w0 r hv hp hs hr hret
  obtain ⟨-, a1, a2⟩ := pll_14nm_dec_frac_calc_keeps _ _ _ hd1
  have hb : d2.out.pll_n1div = d1.out.pll_n1div ∧ d2.out.pll_n2div = d1.out.pll_n2div := by
    cases hssc : r.ssc_en
    · rw [hssc] at hd2
      have : d1 = d2 := Option.some.inj hd2
      rw [this]; exact ⟨rfl, rfl⟩
    · rw [hssc] at hd2
      exact (pll_14nm_ssc_calc_keeps _ _ _ hd2).2
  obtain ⟨-, -, -, -, c1, c2⟩ := pll_14nm_calc_vco_count_keeps d2 d3 _ _ hd3
  have hn1 : d3.out.pll_n1div = (w.pdbs pdb).out.pll_n1div := by
    rw [c1, hb.1, a1, ← h0 pdb]; rfl
  have hn2 : d3.out.pll_n2div = (w.pdbs pdb).out.pll_n2div := by
    rw [c2, hb.2, a2, ← h0 pdb]; rfl
  have hmain := pll_vco_set_rate_14nm_steps w vco rate parent_rate pll pdb w0 r d1 d2 d3
    hv hp hs hr hd1 hd2 hd3
  obtain ⟨wa, hwa⟩ : ∃ wa : World, wa = (match r.slave with
      | some slave => pll_db_commit_14nm ((w0.set_pll pll r).set_pdb pdb d3) slave pdb
      | none => (w0.set_pll pll r).set_pdb pdb d3) := ⟨_, rfl⟩
  replace hmain : pll_vco_set_rate_14nm w vco rate parent_rate =
      some ((0 : Int), pll_db_commit_14nm wa pll pdb) := by
    rw [hwa]; exact hmain
  have hwa_plls : wa.plls pll = r := by
    rw [hwa]
    cases r.slave with
    | none => simp only [set_pdb_plls, set_pll_plls_same]
    | some slave =>
      simp only [pll_db_commit_14nm, run_plls, set_pdb_plls, set_pll_plls_same]
  have hwa_pdbs : wa.pdbs = fun i => if i = pdb then d3 else w0.pdbs i := by
    rw [hwa]
    cases r.slave with
    | none => rfl
    | some slave => simp only [pll_db_commit_14nm, run_pdbs]; rfl
  have hfin : pll_db_commit_14nm wa pll pdb = wa.run (pll_db_commit_14nm_seq r d3) := by
    rw [pll_db_commit_14nm, hwa_plls, hwa_pdbs]
    simp only [if_true]
  rw [hfin] at hmain
  have hl := pll_db_commit_14nm_seq_last_write_cfg0 r d3
  rw [hn1, hn2, hr_base] at hl
  refine ⟨_, hmain, ?_, ?_, ?_⟩
  · intro i
    rw [run_pdbs, hwa_pdbs]
    by_cases hi : i = pdb
    · simp only [hi, if_true]; exact ⟨hn1, hn2⟩
    · simp only [hi, if_false]; rw [h0 i]; exact ⟨rfl, rfl⟩
  · rw [run_mmio, hl]; rfl
  · rw [run_trace]
    apply List.mem_append_right
    cases hs2 : r.ssc_en <;>
      simp [pll_db_commit_14nm_seq, pll_db_commit_common_seq, pll_db_commit_ssc_seq, reg_w, hs2,
        hn1, hn2, hr_base]

theorem dsi_pll_read_stored_trim_codes_pdbs (w : World) (pll : Nat) (r : Int) :
    (dsi_pll_read_stored_trim_codes w pll r).2.pdbs = w.pdbs := by
  unfold dsi_pll_read_stored_trim_codes
  cases (w.plls pll).dfps with
  | none => rfl
  | some dfps =>
    simp only
    cases dsi_pll_read_stored_trim_codes_loop r (dfps.codes_dfps.take dfps.vco_rate_cnt) <;> rfl

/-- The function `shadow_pll_vco_set_rate_14nm` after a successful lookup of the trim codes:
the two derivation steps in sequence and the shadow writes. -/
theorem shadow_pll_vco_set_rate_14nm_eq (w : World) (vco : dsi_pll_vco_clk)
    (rate parent_rate pll pdb : Nat) (wt : World) (r : dsi_pll_resource)
    (hv : vco.priv = some pll) (hp : (w.plls pll).priv = some pdb)
    (hrc : (dsi_pll_read_stored_trim_codes w pll (to_s64 (to_u64 rate))).1 = 0)
    (hwt : wt = (dsi_pll_read_stored_trim_codes w pll (to_s64 (to_u64 rate))).2)
    (hr : r = { wt.plls pll with
      vco_current_rate := to_s64 (to_u64 rate)
      vco_ref_clk_rate := to_s64 (to_u64 vco.ref_clk_rate) }) :
    shadow_pll_vco_set_rate_14nm w vco rate parent_rate =
      (pll_14nm_dec_frac_calc r (dsi_pll_14nm_input_init r (wt.pdbs pdb))).bind (fun d1 =>
        (pll_14nm_calc_vco_count d1 r.vco_current_rate r.vco_ref_clk_rate).bind (fun d3 =>
          some ((0 : Int), shadow_pll_dynamic_refresh_14nm
            ((wt.set_pll pll r).set_pdb pdb d3) pll pdb))) := by
  subst hr hwt
  unfold shadow_pll_vco_set_rate_14nm
  simp only [hv, hp]
  generalize dsi_pll_read_stored_trim_codes w pll (to_s64 (to_u64 rate)) = res at hrc
  obtain ⟨rc, wt⟩ := res
  simp only at hrc
  subst hrc
  rfl

/-- A call of `shadow_pll_vco_set_rate_14nm` leaves the two dividers of every parameter block
as they are. -/
theorem shadow_pll_vco_set_rate_14nm_dividers (w : World) (vco : dsi_pll_vco_clk)
    (rate parent_rate : Nat) (rc : Int) (w1 : World)
    (h : shadow_pll_vco_set_rate_14nm w vco rate parent_rate = some (rc, w1)) (i : Nat) :
    (w1.pdbs i).out.pll_n1div = (w.pdbs i).out.pll_n1div ∧
      (w1.pdbs i).out.pll_n2div = (w.pdbs i).out.pll_n2div := by
  have same : ∀ x : World, some ((-EINVAL : Int), w) = some (rc, x) → x = w := by
    intro x hx
    simp only [Option.some.injEq, Prod.mk.injEq] at hx
    exact hx.2.symm
  cases hv : vco.priv with
  | none =>
    rw [shadow_set_rate_null_pll w vco rate parent_rate hv] at h
    rw [same w1 h]; exact ⟨rfl, rfl⟩
  | some pll =>
    cases hp : (w.plls pll).priv with
    | none =>
      rw [shadow_set_rate_null_priv w vco rate parent_rate pll hv hp] at h
      rw [same w1 h]; exact ⟨rfl, rfl⟩
    | some pdb =>
      by_cases hrc : (dsi_pll_read_stored_trim_codes w pll (to_s64 (to_u64 rate))).1 = 0
      · obtain ⟨wt, hwt⟩ : ∃ wt, wt =
            (dsi_pll_read_stored_trim_codes w pll (to_s64 (to_u64 rate))).2 := ⟨_, rfl⟩
        have hpd : wt.pdbs = w.pdbs := by
          rw [hwt]; exact dsi_pll_read_stored_trim_codes_pdbs w pll _
        obtain ⟨r, hr⟩ : ∃ r : dsi_pll_resource, r = { wt.plls pll with
            vco_current_rate := to_s64 (to_u64 rate)
            vco_ref_clk_rate := to_s64 (to_u64 vco.ref_clk_rate) } := ⟨_, rfl⟩
        rw [shadow_pll_vco_set_rate_14nm_eq w vco rate parent_rate pll pdb wt r hv hp hrc hwt
          hr] at h
        cases hd1 : pll_14nm_dec_frac_calc r (dsi_pll_14nm_input_init r (wt.pdbs pdb)) with
        | none => rw [hd1] at h; exact absurd h (by simp)
        | some d1 =>
          rw [hd1, Option.some_bind] at h
          obtain ⟨d3, hd3⟩ : ∃ d3, pll_14nm_calc_vco_count d1 r.vco_current_rate
              r.vco_ref_clk_rate = some d3 := ⟨_, pll_14nm_calc_vco_count_eq _ _ _⟩
          rw [hd3, Option.some_bind] at h
          obtain ⟨-, a1, a2⟩ := pll_14nm_dec_frac_calc_keeps _ _ _ hd1
          obtain ⟨-, -, -, -, c1, c2⟩ := pll_14nm_calc_vco_count_keeps d1 d3 _ _ hd3
          have hw1 : w1 = shadow_pll_dynamic_refresh_14nm
              ((wt.set_pll pll r).set_pdb pdb d3) pll pdb := by
            simp only [Option.some.injEq, Prod.mk.injEq] at h
            exact h.2.symm
          have hpdbs : w1.pdbs = fun j => if j = pdb then d3 else wt.pdbs j := by
            rw [hw1, shadow_pll_dynamic_refresh_14nm, run_pdbs]; rfl
          rw [hpdbs]
          by_cases hi : i = pdb
          · simp only [hi, if_true]
            rw [c1, c2, a1, a2, hpd]
            exact ⟨rfl, rfl⟩
          · simp only [hi, if_false]
            rw [hpd]; exact ⟨rfl, rfl⟩
      · rw [shadow_set_rate_lookup_fail w vco rate parent_rate pll pdb hv hp hrc] at h
        rw [same w1 h]; exact ⟨rfl, rfl⟩

/-- The byte built from two dividers that fit four bits each has N1 in bits 0-3 and N2 in
bits 4-7. -/
theorem n1_n2_byte (n1 n2 : Nat) (h1 : n1 ≤ 15) (h2 : n2 ≤ 15) :
    (n1 ||| to_u32 (n2 <<< 4)) % 256 % 16 = n1 ∧ (n1 ||| to_u32 (n2 <<< 4)) % 256 / 16 = n2 := by
  have hv : to_u32 (n2 <<< 4) = n2 * 16 := by
    unfold to_u32; rw [Nat.shiftLeft_eq]; omega
  rw [hv]
  have e : (16 : Nat) = 2 ^ 4 := by norm_num
  have a : (n1 ||| n2 * 16) % 16 = n1 := by
    rw [e, or_mod_two_pow]
    have : n2 * 2 ^ 4 % 2 ^ 4 = 0 := by omega
    rw [this, Nat.or_zero]
    exact Nat.mod_eq_of_lt (by omega)
  have b : (n1 ||| n2 * 16) / 16 = n2 := by
    have : (n1 ||| n2 * 16) / 16 = (n1 ||| n2 * 16) >>> 4 := by rw [Nat.shiftRight_eq_div_pow]
    rw [this, shiftRight_or]
    have z : n1 >>> 4 = 0 := by rw [Nat.shiftRight_eq_div_pow]; omega
    have g : (n2 * 16) >>> 4 = n2 := by rw [Nat.shiftRight_eq_div_pow]; omega
    rw [z, g, Nat.zero_or]
  omega

/-- C23: a call of `pll_vco_set_rate_14nm` and a call of `shadow_pll_vco_set_rate_14nm` that
return leave `pll_n1div` and `pll_n2div` of every parameter block unchanged; the live commit
writes to `CMN_CLK_CFG0` the byte `pll_n1div | (pll_n2div << 4)` built from the values the
block held before the call, and the register holds it afterwards; the byte has N1 in bits 0-3
and N2 in bits 4-7 whenever both are at most 15. -/
theorem dividers_persist (w : World) (vco : dsi_pll_vco_clk) (rate parent_rate pll pdb : Nat)
    (hv : vco.priv = some pll) (hp : (w.plls pll).priv = some pdb)
    (hlive : (pll_vco_set_rate_14nm w vco rate parent_rate).isSome = true)
    (hshadow : (shadow_pll_vco_set_rate_14nm w vco rate parent_rate).isSome = true) :
    let n1 := (w.pdbs pdb).out.pll_n1div
    let n2 := (w.pdbs pdb).out.pll_n2div
    let byte := (n1 ||| to_u32 (n2 <<< 4)) % 256
    (∃ w1, pll_vco_set_rate_14nm w vco rate parent_rate = some (0, w1) ∧
      (∀ i, (w1.pdbs i).out.pll_n1div = (w.pdbs i).out.pll_n1div ∧
        (w1.pdbs i).out.pll_n2div = (w.pdbs i).out.pll_n2div) ∧
      w1.mmio (w.plls pll).pll_base Reg.DSIPHY_CMN_CLK_CFG0 = byte ∧
      Event.write (w.plls pll).pll_base Reg.DSIPHY_CMN_CLK_CFG0 byte ∈ w1.trace) ∧
    (∃ rc w2, shadow_pll_vco_set_rate_14nm w vco rate parent_rate = some (rc, w2) ∧
      ∀ i, (w2.pdbs i).out.pll_n1div = (w.pdbs i).out.pll_n1div ∧
        (w2.pdbs i).out.pll_n2div = (w.pdbs i).out.pll_n2div) ∧
    (n1 ≤ 15 → n2 ≤ 15 → byte % 16 = n1 ∧ byte / 16 = n2) := by
  intro n1 n2 byte
  have hb : to_u32 (to_char (n1 ||| to_u32 (n2 <<< 4))) = byte := by
    unfold to_u32 to_char
    show (n1 ||| n2 <<< 4 % 2 ^ 32) % 2 ^ 8 % 2 ^ 32 = (n1 ||| n2 <<< 4 % 2 ^ 32) % 256
    omega
  refine ⟨?_, ?_, fun h1 h2 => n1_n2_byte n1 n2 h1 h2⟩
  · obtain ⟨w1, g1, g2, g3, g4⟩ :=
      pll_vco_set_rate_14nm_dividers w vco rate parent_rate pll pdb hv hp hlive
    rw [hb] at g3 g4
    exact ⟨w1, g1, g2, g3, g4⟩
  · obtain ⟨⟨rc, w2⟩, h2⟩ := Option.isSome_iff_exists.mp hshadow
    exact ⟨rc, w2, h2, fun i =>
      shadow_pll_vco_set_rate_14nm_dividers w vco rate parent_rate rc w2 h2 i⟩

/-- C23 on the sample device with N1 = 3 and N2 = 2 stored, at 1.5 GHz. -/
theorem dividers_persist_witness :
    (sample_vco.priv = some 0 ∧ (sample_world_div.plls 0).priv = some 0 ∧
      (pll_vco_set_rate_14nm sample_world_div sample_vco 1500000000 0).isSome = true ∧
      (shadow_pll_vco_set_rate_14nm sample_world_div sample_vco 1500000000 0).isSome = true) ∧
    ((∃ w1, pll_vco_set_rate_14nm sample_world_div sample_vco 1500000000 0 = some (0, w1) ∧
      (∀ i, (w1.pdbs i).out.pll_n1div = (sample_world_div.pdbs i).out.pll_n1div ∧
        (w1.pdbs i).out.pll_n2div = (sample_world_div.pdbs i).out.pll_n2div) ∧
      w1.mmio (sample_world_div.plls 0).pll_base Reg.DSIPHY_CMN_CLK_CFG0 =
        ((sample_world_div.pdbs 0).out.pll_n1div |||
          to_u32 ((sample_world_div.pdbs 0).out.pll_n2div <<< 4)) % 256 ∧
      Event.write (sample_world_div.plls 0).pll_base Reg.DSIPHY_CMN_CLK_CFG0
        (((sample_world_div.pdbs 0).out.pll_n1div |||
          to_u32 ((sample_world_div.pdbs 0).out.pll_n2div <<< 4)) % 256) ∈ w1.trace) ∧
    (∃ rc w2, shadow_pll_vco_set_rate_14nm sample_world_div sample_vco 1500000000 0 =
        some (rc, w2) ∧
      ∀ i, (w2.pdbs i).out.pll_n1div = (sample_world_div.pdbs i).out.pll_n1div ∧
        (w2.pdbs i).out.pll_n2div = (sample_world_div.pdbs i).out.pll_n2div) ∧
    ((sample_world_div.pdbs 0).out.pll_n1div ≤ 15 →
      (sample_world_div.pdbs 0).out.pll_n2div ≤ 15 →
      ((sample_world_div.pdbs 0).out.pll_n1div |||
          to_u32 ((sample_world_div.pdbs 0).out.pll_n2div <<< 4)) % 256 % 16 =
        (sample_world_div.pdbs 0).out.pll_n1div ∧
      ((sample_world_div.pdbs 0).out.pll_n1div |||
          to_u32 ((sample_world_div.pdbs 0).out.pll_n2div <<< 4)) % 256 / 16 =
        (sample_world_div.pdbs 0).out.pll_n2div)) :=
  ⟨⟨rfl, rfl, by decide, by decide⟩,
    dividers_persist sample_world_div sample_vco 1500000000 0 0 0 rfl rfl (by decide)
      (by decide)⟩

/-- On the sample device with N1 = 3 and N2 = 2 the live path and the shadow path return 0
with the dividers kept, and the live commit leaves 0x23 in `CMN_CLK_CFG0`. -/
theorem persisted_dividers_sample :
    (pll_vco_set_rate_14nm sample_world_div sample_vco 1500000000 0).map
      (fun x => (x.1, (x.2.pdbs 0).out.pll_n1div, (x.2.pdbs 0).out.pll_n2div,
        x.2.mmio 0 Reg.DSIPHY_CMN_CLK_CFG0)) = some (0, 3, 2, 0x23) ∧
    (shadow_pll_vco_set_rate_14nm sample_world_div sample_vco 1500000000 0).map
      (fun x => (x.1, (x.2.pdbs 0).out.pll_n1div, (x.2.pdbs 0).out.pll_n2div)) =
      some (0, 3, 2) := by
  decide

/-! ## VCO calibration references -/

/-- The last values the live commit writes to the register pairs of the two reference
dividers. -/
theorem pll_db_commit_14nm_seq_last_write_div_ref (pll : dsi_pll_resource) (pdb : dsi_pll_db) :
    last_write pll.pll_base Reg.DSIPHY_PLL_VCO_DIV_REF1 (pll_db_commit_14nm_seq pll pdb) =
      some (pdb.out.pll_vco_div_ref % 256) ∧
    last_write pll.pll_base Reg.DSIPHY_PLL_VCO_DIV_REF2 (pll_db_commit_14nm_seq pll pdb) =
      some (pdb.out.pll_vco_div_ref / 256 % 4) ∧
    last_write pll.pll_base Reg.DSIPHY_PLL_KVCO_DIV_REF1 (pll_db_commit_14nm_seq pll pdb) =
      some (pdb.out.pll_kvco_div_ref % 256) ∧
    last_write pll.pll_base Reg.DSIPHY_PLL_KVCO_DIV_REF2 (pll_db_commit_14nm_seq pll pdb) =
      some (pdb.out.pll_kvco_div_ref / 256 % 4) := by
  have e1 : ∀ x : Nat, to_u32 (to_char (to_char x &&& 0x0ff)) = x % 256 := by
    intro x
    rw [and_255]; unfold to_u32 to_char; omega
  have e2 : ∀ x : Nat, to_u32 (to_char (to_char (x >>> 8) &&& 0x03)) = x / 256 % 4 := by
    intro x
    rw [and_3, Nat.shiftRight_eq_div_pow]; unfold to_u32 to_char; omega
  cases hs : pll.ssc_en <;>
    simp [last_write, pll_db_commit_14nm_seq, pll_db_commit_common_seq, pll_db_commit_ssc_seq,
      reg_w, hs, e1, e2]

/-- The three values `pll_14nm_calc_vco_count` derives from the two rates, for rates and
measure times whose products stay within the 64-bit types. -/
theorem pll_14nm_calc_vco_count_refs (pdb : dsi_pll_db) (R F : Nat)
    (hv32 : pdb.inp.vco_measure_time < 2 ^ 32) (hk32 : pdb.inp.kvco_measure_time < 2 ^ 32)
    (hF : F < 2 ^ 63) (hFv : F * pdb.inp.vco_measure_time < 2 ^ 63)
    (hFk : F * pdb.inp.kvco_measure_time < 2 ^ 63)
    (hR : R < 2 ^ 63) (hRv : R / 10 ^ 6 * pdb.inp.vco_measure_time < 2 ^ 64) :
    ∃ d, pll_14nm_calc_vco_count pdb (R : Int) (F : Int) = some d ∧
      d.out.pll_vco_div_ref =
        to_u32 (to_u64 (F * pdb.inp.vco_measure_time / 10 ^ 6 % 2 ^ 10 + 2 ^ 64 - 2)) ∧
      d.out.pll_kvco_div_ref =
        to_u32 (to_u64 (F * pdb.inp.kvco_measure_time / 10 ^ 6 % 2 ^ 10 + 2 ^ 64 - 1)) ∧
      d.out.pll_vco_count = to_u32 (R / 10 ^ 6 * pdb.inp.vco_measure_time / 10) := by
  have hprod : ∀ m : Nat, m < 2 ^ 32 → F * m < 2 ^ 63 →
      to_u64 (int_to_u64 (to_s64 (to_s64 (F : Int) * ((to_u32 m : Nat) : Int)))) = F * m := by
    intro m hm hFm
    rw [to_s64_of_nat F hF, to_u32_of_lt m hm, ← Int.natCast_mul, to_s64_of_nat _ hFm,
      int_to_u64_of_nat _ (by omega), to_u64_of_lt _ (by omega)]
  have h1023 : ∀ x : Nat, x &&& 0x03ff = x % 2 ^ 10 := fun x =>
    Nat.and_pow_two_sub_one_eq_mod x 10
  refine ⟨_, pll_14nm_calc_vco_count_eq pdb R F, ?_, ?_, ?_⟩
  · show to_u32 (to_u64 ((to_u64 (int_to_u64 (to_s64 (to_s64 (F : Int) *
        ((to_u32 pdb.inp.vco_measure_time : Nat) : Int)))) / 1000000 &&& 0x03ff) + 2 ^ 64 - 2)) = _
    rw [hprod _ hv32 hFv, h1023]
    norm_num
  · show to_u32 (to_u64 ((to_u64 (int_to_u64 (to_s64 (to_s64 (F : Int) *
        ((to_u32 pdb.inp.kvco_measure_time : Nat) : Int)))) / 1000000 &&& 0x03ff) + 2 ^ 64 - 1)) = _
    rw [hprod _ hk32 hFk, h1023]
    norm_num
  · show to_u32 (to_u64 (to_u64 (int_to_u64 (R : Int) / 1000000 *
        to_u32 pdb.inp.vco_measure_time)) / 10) = _
    have hRv' : R / 1000000 * pdb.inp.vco_measure_time < 2 ^ 64 := by
      have e : (10 : Nat) ^ 6 = 1000000 := by norm_num
      rw [e] at hRv
      exact hRv
    rw [int_to_u64_of_nat R (by omega), to_u32_of_lt _ hv32, to_u64_of_lt _ hRv',
      to_u64_of_lt _ hRv']
    norm_num

/-- C21 (amended): for every reference rate `F` and target rate `R` whose products with the
measure times stay within the machine types (`F*measure_time < 2^63`, `R < 2^63` and
`floor(floor(R / 10^6) * vco_measure_time / 10) < 2^32`), `pll_14nm_calc_vco_count` sets
`pll_vco_count = floor(floor(R / 10^6) * vco_measure_time / 10)`,
`pll_vco_div_ref = (floor(F*vco_measure_time / 10^6) mod 2^10) - 2` when that masked quotient
is at least 2 and `pll_kvco_div_ref = (floor(F*kvco_measure_time / 10^6) mod 2^10) - 1` when
that masked quotient is at least 1 (no wrap-around below zero); both values then fit 10 bits
and the register pair of the commit holds them; for `F = 19,200,000` and the measure time 5
they are 94 and 95. -/
theorem vco_calibration_refs (pdb : dsi_pll_db) (p : dsi_pll_resource) (R F : Nat)
    (hv32 : pdb.inp.vco_measure_time < 2 ^ 32) (hk32 : pdb.inp.kvco_measure_time < 2 ^ 32)
    (hF : F < 2 ^ 63) (hFv : F * pdb.inp.vco_measure_time < 2 ^ 63)
    (hFk : F * pdb.inp.kvco_measure_time < 2 ^ 63) (hR : R < 2 ^ 63)
    (hfit : R / 10 ^ 6 * pdb.inp.vco_measure_time / 10 < 2 ^ 32) :
    ∃ d, pll_14nm_calc_vco_count pdb (R : Int) (F : Int) = some d ∧
      d.out.pll_vco_count = R / 10 ^ 6 * pdb.inp.vco_measure_time / 10 ∧
      (2 ≤ F * pdb.inp.vco_measure_time / 10 ^ 6 % 2 ^ 10 →
        d.out.pll_vco_div_ref = F * pdb.inp.vco_measure_time / 10 ^ 6 % 2 ^ 10 - 2) ∧
      (1 ≤ F * pdb.inp.kvco_measure_time / 10 ^ 6 % 2 ^ 10 →
        d.out.pll_kvco_div_ref = F * pdb.inp.kvco_measure_time / 10 ^ 6 % 2 ^ 10 - 1) ∧
      (2 ≤ F * pdb.inp.vco_measure_time / 10 ^ 6 % 2 ^ 10 →
        1 ≤ F * pdb.inp.kvco_measure_time / 10 ^ 6 % 2 ^ 10 →
        d.out.pll_vco_div_ref < 2 ^ 10 ∧ d.out.pll_kvco_div_ref < 2 ^ 10 ∧
        ∃ v1 v2 k1 k2,
          last_write p.pll_base Reg.DSIPHY_PLL_VCO_DIV_REF1 (pll_db_commit_14nm_seq p d) =
            some v1 ∧
          last_write p.pll_base Reg.DSIPHY_PLL_VCO_DIV_REF2 (pll_db_commit_14nm_seq p d) =
            some v2 ∧
          last_write p.pll_base Reg.DSIPHY_PLL_KVCO_DIV_REF1 (pll_db_commit_14nm_seq p d) =
            some k1 ∧
          last_write p.pll_base Reg.DSIPHY_PLL_KVCO_DIV_REF2 (pll_db_commit_14nm_seq p d) =
            some k2 ∧
          v1 + 2 ^ 8 * v2 = d.out.pll_vco_div_ref ∧ k1 + 2 ^ 8 * k2 = d.out.pll_kvco_div_ref) ∧
      (F = 19200000 → pdb.inp.vco_measure_time = 5 → pdb.inp.kvco_measure_time = 5 →
        d.out.pll_vco_div_ref = 94 ∧ d.out.pll_kvco_div_ref = 95) := by
  have hRv : R / 10 ^ 6 * pdb.inp.vco_measure_time < 2 ^ 64 := by omega
  obtain ⟨d, hd, h1, h2, h3⟩ :=
    pll_14nm_calc_vco_count_refs pdb R F hv32 hk32 hF hFv hFk hR hRv
  have hqv : F * pdb.inp.vco_measure_time / 10 ^ 6 % 2 ^ 10 < 2 ^ 10 :=
    Nat.mod_lt _ (by norm_num)
  have hqk : F * pdb.inp.kvco_measure_time / 10 ^ 6 % 2 ^ 10 < 2 ^ 10 :=
    Nat.mod_lt _ (by norm_num)
  have ev : 2 ≤ F * pdb.inp.vco_measure_time / 10 ^ 6 % 2 ^ 10 →
      d.out.pll_vco_div_ref = F * pdb.inp.vco_measure_time / 10 ^ 6 % 2 ^ 10 - 2 := by
    intro h
    rw [h1]
    unfold to_u32 to_u64
    omega
  have ek : 1 ≤ F * pdb.inp.kvco_measure_time / 10 ^ 6 % 2 ^ 10 →
      d.out.pll_kvco_div_ref = F * pdb.inp.kvco_measure_time / 10 ^ 6 % 2 ^ 10 - 1 := by
    intro h
    rw [h2]
    unfold to_u32 to_u64
    omega
  refine ⟨d, hd, by rw [h3]; exact to_u32_of_lt _ hfit, ev, ek, ?_, ?_⟩
  · intro hv hk
    have bv : d.out.pll_vco_div_ref < 2 ^ 10 := by rw [ev hv]; omega
    have bk : d.out.pll_kvco_div_ref < 2 ^ 10 := by rw [ek hk]; omega
    obtain ⟨l1, l2, l3, l4⟩ := pll_db_commit_14nm_seq_last_write_div_ref p d
    exact ⟨bv, bk, _, _, _, _, l1, l2, l3, l4, by omega, by omega⟩
  · intro hF19 hv5 hk5
    have q1 : F * pdb.inp.vco_measure_time / 10 ^ 6 % 2 ^ 10 = 96 := by
      rw [hF19, hv5]; norm_num
    have q2 : F * pdb.inp.kvco_measure_time / 10 ^ 6 % 2 ^ 10 = 96 := by
      rw [hF19, hk5]; norm_num
    exact ⟨by rw [ev (by omega), q1], by rw [ek (by omega), q2]⟩

/-- C21 as stated fails: for the target rate `R = 10^16` and the measure time 5 the claimed
count is `floor(floor(10^16 / 10^6) * 5 / 10) = 5,000,000,000`, which does not fit the 32-bit
field; `pll_14nm_calc_vco_count` stores 705,032,704. -/
theorem vco_calibration_refs_counterexample :
    sample_db_init.inp.vco_measure_time = 5 ∧
    10 ^ 16 / 10 ^ 6 * 5 / 10 = 5000000000 ∧
    (pll_14nm_calc_vco_count sample_db_init ((10 ^ 16 : Nat) : Int) 19200000).map
      (fun d => d.out.pll_vco_count) = some 705032704 := by
  refine ⟨by decide, by norm_num, ?_⟩
  rw [pll_14nm_calc_vco_count_eq]
  decide

/-- C21 (amended) at 1.5 GHz with the 19.2 MHz reference and the measure times of
`dsi_pll_14nm_input_init`. -/
theorem vco_calibration_refs_witness :
    (sample_db_init.inp.vco_measure_time < 2 ^ 32 ∧
      sample_db_init.inp.kvco_measure_time < 2 ^ 32 ∧ 19200000 < 2 ^ 63 ∧
      19200000 * sample_db_init.inp.vco_measure_time < 2 ^ 63 ∧
      19200000 * sample_db_init.inp.kvco_measure_time < 2 ^ 63 ∧ 1500000000 < 2 ^ 63 ∧
      1500000000 / 10 ^ 6 * sample_db_init.inp.vco_measure_time / 10 < 2 ^ 32) ∧
    ∃ d, pll_14nm_calc_vco_count sample_db_init ((1500000000 : Nat) : Int)
        ((19200000 : Nat) : Int) = some d ∧
      d.out.pll_vco_count = 1500000000 / 10 ^ 6 * sample_db_init.inp.vco_measure_time / 10 ∧
      (2 ≤ 19200000 * sample_db_init.inp.vco_measure_time / 10 ^ 6 % 2 ^ 10 →
        d.out.pll_vco_div_ref =
          19200000 * sample_db_init.inp.vco_measure_time / 10 ^ 6 % 2 ^ 10 - 2) ∧
      (1 ≤ 19200000 * sample_db_init.inp.kvco_measure_time / 10 ^ 6 % 2 ^ 10 →
        d.out.pll_kvco_div_ref =
          19200000 * sample_db_init.inp.kvco_measure_time / 10 ^ 6 % 2 ^ 10 - 1) ∧
      (2 ≤ 19200000 * sample_db_init.inp.vco_measure_time / 10 ^ 6 % 2 ^ 10 →
        1 ≤ 19200000 * sample_db_init.inp.kvco_measure_time / 10 ^ 6 % 2 ^ 10 →
        d.out.pll_vco_div_ref < 2 ^ 10 ∧ d.out.pll_kvco_div_ref < 2 ^ 10 ∧
        ∃ v1 v2 k1 k2,
          last_write (sample_pll 0).pll_base Reg.DSIPHY_PLL_VCO_DIV_REF1
            (pll_db_commit_14nm_seq (sample_pll 0) d) = some v1 ∧
          last_write (sample_pll 0).pll_base Reg.DSIPHY_PLL_VCO_DIV_REF2
            (pll_db_commit_14nm_seq (sample_pll 0) d) = some v2 ∧
          last_write (sample_pll 0).pll_base Reg.DSIPHY_PLL_KVCO_DIV_REF1
            (pll_db_commit_14nm_seq (sample_pll 0) d) = some k1 ∧
          last_write (sample_pll 0).pll_base Reg.DSIPHY_PLL_KVCO_DIV_REF2
            (pll_db_commit_14nm_seq (sample_pll 0) d) = some k2 ∧
          v1 + 2 ^ 8 * v2 = d.out.pll_vco_div_ref ∧ k1 + 2 ^ 8 * k2 = d.out.pll_kvco_div_ref) ∧
      (19200000 = 19200000 → sample_db_init.inp.vco_measure_time = 5 →
        sample_db_init.inp.kvco_measure_time = 5 →
        d.out.pll_vco_div_ref = 94 ∧ d.out.pll_kvco_div_ref = 95) :=
  ⟨⟨by decide, by decide, by decide, by decide, by decide, by decide, by decide⟩,
    vco_calibration_refs sample_db_init (sample_pll 0) 1500000000 19200000 (by decide)
      (by decide) (by decide) (by decide) (by decide) (by decide) (by decide)⟩

/-- The calibration values at 1.5 GHz with the 19.2 MHz reference: 94, 95 and the count 750. -/
theorem vco_calibration_sample :
    (pll_14nm_calc_vco_count sample_db_init 1500000000 19200000).map
      (fun d => (d.out.pll_vco_div_ref, d.out.pll_kvco_div_ref, d.out.pll_vco_count)) =
      some (94, 95, 750) := by
  rw [pll_14nm_calc_vco_count_eq]
  decide

/-! ## Spread-spectrum derivation -/

/-- The `CEIL` formula `(a + (b - 1)) / b` is the ceiling of `a / b`. -/
theorem ceil_div_eq (a b : Nat) (hb : 0 < b) : ceil_div a b = (a + (b - 1)) / b := by
  unfold ceil_div
  have h1 := Nat.div_add_mod a b
  have h2 := Nat.mod_lt a hb
  obtain ⟨q, hq⟩ : ∃ q, a / b = q := ⟨_, rfl⟩
  obtain ⟨r, hr⟩ : ∃ r, a % b = r := ⟨_, rfl⟩
  rw [hq, hr] at h1
  rw [hr] at h2
  rw [hq, hr]
  by_cases h : r = 0
  · rw [if_pos h]
    subst h
    have : a + (b - 1) = (b - 1) + b * q := by omega
    rw [this, Nat.add_mul_div_left _ _ hb, Nat.div_eq_of_lt (by omega)]
    omega
  · rw [if_neg h]
    have : a + (b - 1) = (r - 1) + b * (q + 1) := by
      have : b * (q + 1) = b * q + b := by ring
      omega
    rw [this, Nat.add_mul_div_left _ _ hb, Nat.div_eq_of_lt (by omega)]
    omega

/-- The last step of the spread-spectrum derivation: divide with round-up on a non-zero
remainder, keep the lower 16 bits. -/
theorem ssc_step_closed (X c : Nat) (hc : 0 < c) (hX : X < 2 ^ 63) :
    int_to_u32 ((if ((X % c : Nat) : Int) ≠ 0 then to_s64 (((X / c : Nat) : Int) + 1)
      else ((X / c : Nat) : Int)) % 65536) = ceil_div X c % 2 ^ 16 := by
  have hq : X / c ≤ X := Nat.div_le_self _ _
  have hdm := Nat.div_add_mod X c
  unfold ceil_div
  by_cases h : X % c = 0
  · have h0 : ¬ (((X % c : Nat) : Int) ≠ 0) := by rw [h]; simp
    rw [if_neg h0, if_pos h]
    have : ((X / c : Nat) : Int) % 65536 = ((X / c % 65536 : Nat) : Int) := by omega
    rw [this, int_to_u32_of_nat _ (by omega)]
    norm_num
  · have h0 : ((X % c : Nat) : Int) ≠ 0 := by exact_mod_cast h
    have hlt : X / c < X := by
      rcases Nat.lt_or_ge (X / c) X with h3 | h3
      · exact h3
      · exfalso
        have h4 : X / c = X := le_antisymm hq h3
        rw [h4] at hdm
        have h5 : c * X ≥ X := Nat.le_mul_of_pos_left X hc
        omega
    rw [if_pos h0, if_neg h]
    have e : ((X / c : Nat) : Int) + 1 = ((X / c + 1 : Nat) : Int) := by push_cast; rfl
    rw [e, to_s64_of_nat _ (by omega)]
    have : ((X / c + 1 : Nat) : Int) % 65536 = (((X / c + 1) % 65536 : Nat) : Int) := by omega
    rw [this, int_to_u32_of_nat _ (by omega)]
    norm_num

/-- Closed form of `pll_14nm_ssc_calc` while the intermediate products stay within 63 bits; `R`
is the VCO rate as the derivation reads it, through the `(u32)` cast. -/
theorem pll_14nm_ssc_calc_eq (pll : dsi_pll_resource) (pdb : dsi_pll_db) (R F : Nat)
    (hR : int_to_u32 pll.vco_current_rate = R) (hF : pll.vco_ref_clk_rate = F)
    (hf : 500 ≤ pdb.inp.ssc_freq) (hf32 : pdb.inp.ssc_freq < 2 ^ 32)
    (hF0 : 1000 ≤ F) (hF32 : F < 2 ^ 32) (hR32 : R < 2 ^ 32)
    (hs32 : pdb.inp.ssc_spread < 2 ^ 32) (ha32 : pdb.inp.ssc_adj_period + 1 < 2 ^ 32)
    (h1 : R / (F / 1000) * 2 ^ 20 / 1000 * pdb.inp.ssc_spread < 2 ^ 63)
    (h2 : R / (F / 1000) * 2 ^ 20 / 1000 * pdb.inp.ssc_spread / 1000 *
      (pdb.inp.ssc_adj_period + 1) < 2 ^ 63) :
    pll_14nm_ssc_calc pll pdb = some { pdb with out := { pdb.out with
      ssc_period := ceil_div (F / 1000) (pdb.inp.ssc_freq / 500) - 1
      ssc_step_size :=
        ceil_div (R / (F / 1000) * 2 ^ 20 / 1000 * pdb.inp.ssc_spread / 1000 *
          (pdb.inp.ssc_adj_period + 1))
          (ceil_div (F / 1000) (pdb.inp.ssc_freq / 500)) % 2 ^ 16 } } := by
  have hsp : 0 < pdb.inp.ssc_freq / 500 := Nat.div_pos hf (by norm_num)
  have hsp32 : pdb.inp.ssc_freq / 500 < 2 ^ 32 := lt_of_le_of_lt (Nat.div_le_self _ _) hf32
  have hper : 0 < F / 1000 := Nat.div_pos hF0 (by norm_num)
  have hper32 : F / 1000 < 2 ^ 31 := by omega
  have hc := ceil_div_eq (F / 1000) (pdb.inp.ssc_freq / 500) hsp
  have hc0 : 0 < ceil_div (F / 1000) (pdb.inp.ssc_freq / 500) := by
    rw [hc]; exact Nat.div_pos (by omega) hsp
  have hcle : ceil_div (F / 1000) (pdb.inp.ssc_freq / 500) ≤ F / 1000 + pdb.inp.ssc_freq / 500 - 1 := by
    rw [hc]; exact le_trans (Nat.div_le_self _ _) (by omega)
  have e1 : int_to_u64 (F : Int) = F := int_to_u64_of_nat F (by omega)
  have e2 : to_u32 (F / 1000) = F / 1000 := to_u32_of_lt _ (by omega)
  have e3 : to_u32 pdb.inp.ssc_freq = pdb.inp.ssc_freq := to_u32_of_lt _ hf32
  have e4 : CEIL (F / 1000) (pdb.inp.ssc_freq / 500) =
      some (ceil_div (F / 1000) (pdb.inp.ssc_freq / 500)) := by
    unfold CEIL
    rw [to_u32_of_lt _ hsp32, if_neg (by omega), e2, hc]
    have : to_u32 (pdb.inp.ssc_freq / 500 + 2 ^ 32 - 1) = pdb.inp.ssc_freq / 500 - 1 := by
      unfold to_u32; omega
    rw [this, to_u32_of_lt _ (by omega)]
  have e5 : to_u32 (ceil_div (F / 1000) (pdb.inp.ssc_freq / 500) + 2 ^ 32 - 1) =
      ceil_div (F / 1000) (pdb.inp.ssc_freq / 500) - 1 := by
    unfold to_u32; omega
  have e6 : to_u32 (ceil_div (F / 1000) (pdb.inp.ssc_freq / 500) - 1 + 1) =
      ceil_div (F / 1000) (pdb.inp.ssc_freq / 500) := by
    unfold to_u32; omega
  have e8 : int_to_u32 (F : Int) = F := int_to_u32_of_nat F hF32
  have e9 : to_u32 pdb.inp.ssc_spread = pdb.inp.ssc_spread := to_u32_of_lt _ hs32
  have e10 : to_u32 (to_u32 pdb.inp.ssc_adj_period + 1) = pdb.inp.ssc_adj_period + 1 := by
    unfold to_u32; omega
  have hq0 : R / (F / 1000) < 2 ^ 32 := lt_of_le_of_lt (Nat.div_le_self _ _) hR32
  have hq1 : R / (F / 1000) * 2 ^ 20 / 1000 < 2 ^ 63 :=
    lt_of_le_of_lt (Nat.div_le_self _ _) (by omega)
  have hq2 : R / (F / 1000) * 2 ^ 20 / 1000 * pdb.inp.ssc_spread / 1000 < 2 ^ 63 :=
    lt_of_le_of_lt (Nat.div_le_self _ _) h1
  have d1000 : ∀ a : Nat, a < 2 ^ 63 → div_s64 (a : Int) 1000 = some ((a / 1000 : Nat) : Int) :=
    fun a ha => div_s64_of_nat a 1000 ha (by norm_num) (by norm_num)
  have c20 : ((R / (F / 1000) : Nat) : Int) * 2 ^ 20 = ((R / (F / 1000) * 2 ^ 20 : Nat) : Int) := by
    push_cast; rfl
  unfold pll_14nm_ssc_calc
  simp only [hR, hF, e1, e2, e3, e8, e9, e10, Option.bind_eq_bind]
  rw [e4, Option.some_bind, e5, e6,
    div_s64_of_nat R (F / 1000) (by omega) hper hper32, Option.some_bind,
    c20, to_s64_of_nat _ (by omega), d1000 _ (by omega), Option.some_bind,
    ← Int.natCast_mul, to_s64_of_nat _ h1, d1000 _ h1, Option.some_bind,
    ← Int.natCast_mul, to_s64_of_nat _ h2,
    div_s64_rem_of_nat _ _ h2 hc0 (by omega), Option.some_bind]
  rw [Option.pure_def]
  dsimp only
  rw [ssc_step_closed _ _ hc0 h2]

/-- C22 (amended): for `500 <= ssc_freq`, a reference rate `1000 <= F < 2^32` and a VCO rate
`R < 2^32`, with the inputs within their 32-bit fields and the two intermediate products
`floor(floor(R / floor(F/1000)) * 2^20 / 1000) * ssc_spread` and `X` below `2^63`,
`pll_14nm_ssc_calc` returns with
`ssc_period = ceil(floor(F/1000) / floor(ssc_freq/500)) - 1` and
`ssc_step_size = ceil(X / (ssc_period + 1)) mod 2^16`, where
`X = floor(floor(floor(R / floor(F/1000)) * 2^20 / 1000) * ssc_spread / 1000) *
(ssc_adj_period + 1)` and the ceiling adds one exactly when the remainder is non-zero. -/
theorem ssc_derivation (pll : dsi_pll_resource) (pdb : dsi_pll_db) (R F : Nat)
    (hR : pll.vco_current_rate = R) (hF : pll.vco_ref_clk_rate = F)
    (hf : 500 ≤ pdb.inp.ssc_freq) (hf32 : pdb.inp.ssc_freq < 2 ^ 32)
    (hF0 : 1000 ≤ F) (hF32 : F < 2 ^ 32) (hR32 : R < 2 ^ 32)
    (hs32 : pdb.inp.ssc_spread < 2 ^ 32) (ha32 : pdb.inp.ssc_adj_period + 1 < 2 ^ 32)
    (h1 : R / (F / 1000) * 2 ^ 20 / 1000 * pdb.inp.ssc_spread < 2 ^ 63)
    (h2 : R / (F / 1000) * 2 ^ 20 / 1000 * pdb.inp.ssc_spread / 1000 *
      (pdb.inp.ssc_adj_period + 1) < 2 ^ 63) :
    ∃ d, pll_14nm_ssc_calc pll pdb = some d ∧
      d.out.ssc_period = ceil_div (F / 1000) (pdb.inp.ssc_freq / 500) - 1 ∧
      d.out.ssc_step_size =
        ceil_div (R / (F / 1000) * 2 ^ 20 / 1000 * pdb.inp.ssc_spread / 1000 *
          (pdb.inp.ssc_adj_period + 1)) (d.out.ssc_period + 1) % 2 ^ 16 := by
  have hsp : 0 < pdb.inp.ssc_freq / 500 := Nat.div_pos hf (by norm_num)
  have hc0 : 0 < ceil_div (F / 1000) (pdb.inp.ssc_freq / 500) := by
    rw [ceil_div_eq _ _ hsp]
    exact Nat.div_pos (by omega) hsp
  have hR2 : int_to_u32 pll.vco_current_rate = R := by
    rw [hR]
    exact int_to_u32_of_nat R hR32
  refine ⟨_, pll_14nm_ssc_calc_eq pll pdb R F hR2 hF hf hf32 hF0 hF32 hR32 hs32 ha32 h1 h2,
    ?_, ?_⟩
  · rfl
  · show _ = ceil_div _ (ceil_div (F / 1000) (pdb.inp.ssc_freq / 500) - 1 + 1) % 2 ^ 16
    rw [Nat.sub_add_cancel hc0]

/-- C22 as stated fails: the derivation reads the VCO rate through a `(u32)` cast. For
`R = 2^32` with the 19.2 MHz reference, `ssc_freq = 31500`, `ssc_spread = 5` and
`ssc_adj_period = 37` the code stores the step size 0, while the stated formula gives
`ceil(44566818 / 305) mod 2^16 = 15049`. -/
theorem ssc_derivation_counterexample :
    (sample_pll_ssc 4294967296).vco_current_rate = 4294967296 ∧
    (sample_pll_ssc 4294967296).vco_ref_clk_rate = 19200000 ∧
    sample_db_ssc.inp.ssc_freq = 31500 ∧ sample_db_ssc.inp.ssc_spread = 5 ∧
    sample_db_ssc.inp.ssc_adj_period = 37 ∧
    (pll_14nm_ssc_calc (sample_pll_ssc 4294967296) sample_db_ssc).map
      (fun d => (d.out.ssc_period, d.out.ssc_step_size)) = some (304, 0) ∧
    ceil_div (19200000 / 1000) (31500 / 500) - 1 = 304 ∧
    4294967296 / (19200000 / 1000) * 2 ^ 20 / 1000 * 5 / 1000 * (37 + 1) = 44566818 ∧
    ceil_div 44566818 (304 + 1) % 2 ^ 16 = 15049 := by
  refine ⟨rfl, rfl, by decide, by decide, by decide, ?_, by decide, by norm_num, by decide⟩
  rw [pll_14nm_ssc_calc_eq (sample_pll_ssc 4294967296) sample_db_ssc 0 19200000 (by decide) rfl
    (by decide) (by decide) (by decide) (by decide) (by decide) (by decide) (by decide)
    (by decide) (by decide)]
  decide

/-- C22 (amended) at 1.5 GHz with the 19.2 MHz reference, 31.5 kHz modulation and 5000 ppm. -/
theorem ssc_derivation_witness :
    ((sample_pll_ssc 1500000000).vco_current_rate = ((1500000000 : Nat) : Int) ∧
      (sample_pll_ssc 1500000000).vco_ref_clk_rate = ((19200000 : Nat) : Int) ∧
      500 ≤ sample_db_ssc.inp.ssc_freq ∧ sample_db_ssc.inp.ssc_freq < 2 ^ 32 ∧
      1000 ≤ 19200000 ∧ 19200000 < 2 ^ 32 ∧ 1500000000 < 2 ^ 32 ∧
      sample_db_ssc.inp.ssc_spread < 2 ^ 32 ∧ sample_db_ssc.inp.ssc_adj_period + 1 < 2 ^ 32 ∧
      1500000000 / (19200000 / 1000) * 2 ^ 20 / 1000 * sample_db_ssc.inp.ssc_spread < 2 ^ 63 ∧
      1500000000 / (19200000 / 1000) * 2 ^ 20 / 1000 * sample_db_ssc.inp.ssc_spread / 1000 *
        (sample_db_ssc.inp.ssc_adj_period + 1) < 2 ^ 63) ∧
    ∃ d, pll_14nm_ssc_calc (sample_pll_ssc 1500000000) sample_db_ssc = some d ∧
      d.out.ssc_period = ceil_div (19200000 / 1000) (sample_db_ssc.inp.ssc_freq / 500) - 1 ∧
      d.out.ssc_step_size =
        ceil_div (1500000000 / (19200000 / 1000) * 2 ^ 20 / 1000 *
          sample_db_ssc.inp.ssc_spread / 1000 * (sample_db_ssc.inp.ssc_adj_period + 1))
          (d.out.ssc_period + 1) % 2 ^ 16 :=
  ⟨⟨rfl, rfl, by decide, by decide, by decide, by decide, by decide, by decide, by decide,
      by decide, by decide⟩,
    ssc_derivation (sample_pll_ssc 1500000000) sample_db_ssc 1500000000 19200000 rfl rfl
      (by decide) (by decide) (by decide) (by decide) (by decide) (by decide) (by decide)
      (by decide) (by decide)⟩

/-- The spread-spectrum values at 1.5 GHz with the 19.2 MHz reference, 31.5 kHz modulation and
5000 ppm: period 304, step size 51033. -/
theorem ssc_calc_sample :
    (pll_14nm_ssc_calc (sample_pll_ssc 1500000000) sample_db_ssc).map
      (fun d => (d.out.ssc_period, d.out.ssc_step_size)) = some (304, 51033) := by
  rw [pll_14nm_ssc_calc_eq (sample_pll_ssc 1500000000) sample_db_ssc 1500000000 19200000
    (by decide) rfl (by decide) (by decide) (by decide) (by decide) (by decide) (by decide)
    (by decide) (by decide) (by decide)]
  decide

end DsiPll14nm
